import Mathlib

/-!
Car-game: checkpoint graph and AI racing controller.

A shallow embedding of `Source/RaceTrackManager.cpp` and
`Source/AIRacingController.cpp`.

Conventions of the embedding:

* `float` values are idealised as exact rationals (`ℚ`). Rounding is modelled where a
  statement depends on it: the definitions named `...Rounded` take the rounding function
  as a parameter, and `roundF32` is rounding to nearest, ties to even, with the 24-bit
  significand of `float`. `FLT_MAX` is the largest finite `float`.
* A float division by zero does not fault: it yields an infinity or a NaN
  (`FloatValue`), which `FMath::Clamp` maps back to a finite bound.
* `int32` values are integers; `+`/`-` wrap to 32 bits (`wrapInt32`) and `%` is the
  C++ remainder (`modInt32`), which faults on a zero divisor.
* A pointer to a vehicle is `Option Nat`, `none` being `nullptr`.
* A `TMap` is a finite partial function; `operator[]` on a missing key faults.
* A fault (integer division by zero, failed container check, out-of-range index) is the
  result `none`.
* Engine functions whose source is not part of the repository (`FVector::Dist`,
  `FVector::Normalize`, `FMath::Asin`) are taken as parameters (`Engine`).
* Logging, debug drawing, the collider components of the checkpoints and the
  notifications sent to the game mode (another actor) have no effect on the modelled
  state and are left out.
-/

namespace CarGame

/-! ## Numeric helpers -/

/-- Largest finite single-precision value, `(2 - 2^-23) * 2^127`. -/
def FLT_MAX : ℚ := 340282346638528859811704183484516925440

/-- Rounding of a rational to the nearest integer, ties to the even one. -/
def roundHalfEven (q : ℚ) : Int :=
  if q - (⌊q⌋ : ℚ) < 1 / 2 then ⌊q⌋
  else if q - (⌊q⌋ : ℚ) > 1 / 2 then ⌊q⌋ + 1
  else if ⌊q⌋ % 2 = 0 then ⌊q⌋ else ⌊q⌋ + 1

/-- Floor of the base-2 logarithm of a natural number, by halving at most `fuel` times. -/
def log2Fuel : Nat → Nat → Nat
  | 0, _ => 0
  | fuel + 1, n => if n < 2 then 0 else log2Fuel fuel (n / 2) + 1

/-- Ceiling of the base-2 logarithm of a natural number, by halving (rounding up) at most
`fuel` times. -/
def clog2Fuel : Nat → Nat → Nat
  | 0, _ => 0
  | fuel + 1, n => if n < 2 then 0 else clog2Fuel fuel ((n + 1) / 2) + 1

/-- The binary exponent of a positive rational `x`: the integer `e` with
`2^e ≤ x < 2^(e+1)` (`Int.log 2 x`, in a form that evaluates by structural recursion). -/
def binaryExponent (x : ℚ) : Int :=
  if 1 ≤ x then (log2Fuel ⌊x⌋₊ ⌊x⌋₊ : Int) else - (clog2Fuel ⌈x⁻¹⌉₊ ⌈x⁻¹⌉₊ : Int)

/-- Rounding of a non-negative rational to 24 significant bits: with `e` the exponent of
`x` (`2^e ≤ x < 2^(e+1)`), the nearest multiple of `2^(e-23)`, ties to even. -/
def roundPos (x : ℚ) : ℚ :=
  if x = 0 then 0
  else (roundHalfEven (x * (2 : ℚ) ^ (23 - binaryExponent x)) : ℚ)
    * (2 : ℚ) ^ (binaryExponent x - 23)

/-- The `float` nearest to a rational (round to nearest, ties to even, 24-bit significand).
The exponent range is not modelled: the value is the one of IEEE single precision for
magnitudes between `2^-126` and `FLT_MAX`. -/
def roundF32 (x : ℚ) : ℚ := if x < 0 then - roundPos (-x) else roundPos x

/-- What the statements about rounded computations use of the rounding of `float`
operations: it is monotone and its relative error is at most `2^-24`. -/
structure IsFloatRounding (Round : ℚ → ℚ) : Prop where
  mono : ∀ x y, x ≤ y → Round x ≤ Round y
  error : ∀ x, |Round x - x| ≤ |x| / 16777216

/-- Two's complement wrap of an integer to the `int32` range. -/
def wrapInt32 (x : Int) : Int := (x + 2147483648) % 4294967296 - 2147483648

/-- C++ `a % b` on `int32`: truncated remainder, a fault on a zero divisor
(and on `INT_MIN % -1`). -/
def modInt32 (a b : Int) : Option Int :=
  if b = 0 ∨ (a = -2147483648 ∧ b = -1) then none else some (Int.tmod a b)

/-- Engine vector of three floats. -/
structure FVector where
  X : ℚ
  Y : ℚ
  Z : ℚ
deriving DecidableEq

namespace FVector

def ZeroVector : FVector := ⟨0, 0, 0⟩

def add (a b : FVector) : FVector := ⟨a.X + b.X, a.Y + b.Y, a.Z + b.Z⟩

def sub (a b : FVector) : FVector := ⟨a.X - b.X, a.Y - b.Y, a.Z - b.Z⟩

def scale (a : FVector) (s : ℚ) : FVector := ⟨a.X * s, a.Y * s, a.Z * s⟩

def DotProduct (a b : FVector) : ℚ := a.X * b.X + a.Y * b.Y + a.Z * b.Z

def CrossProduct (a b : FVector) : FVector :=
  ⟨a.Y * b.Z - a.Z * b.Y, a.Z * b.X - a.X * b.Z, a.X * b.Y - a.Y * b.X⟩

def SizeSquared (a : FVector) : ℚ := a.X * a.X + a.Y * a.Y + a.Z * a.Z

end FVector

/-- Engine rotator (pitch, yaw, roll). -/
structure FRotator where
  Pitch : ℚ
  Yaw : ℚ
  Roll : ℚ
deriving DecidableEq

/-- Engine math functions used by the sources but defined outside the repository. -/
structure Engine where
  /-- `FVector::Dist`. -/
  Dist : FVector → FVector → ℚ
  /-- `FVector::Normalize` (the value the vector holds after the call). -/
  Normalize : FVector → FVector
  /-- `FMath::Asin`. -/
  Asin : ℚ → ℚ

/-- Pointer to an `ARacingVehicle`; `none` is `nullptr`. -/
abbrev VehiclePtr := Option Nat

/-- Engine `TMap`, as a partial function from keys to values. -/
abbrev TMap (κ ν : Type) := κ → Option ν

namespace TMap

variable {κ ν : Type}

def Contains (m : TMap κ ν) (k : κ) : Bool := (m k).isSome

/-- `TMap::Add`, also used for the assignment `Map[Key] = Value` on a present key. -/
def Add [DecidableEq κ] (m : TMap κ ν) (k : κ) (v : ν) : TMap κ ν :=
  fun k' => if k' = k then some v else m k'

end TMap

/-! ## RaceTrackManager -/

/-- `FCheckpointData` of `RaceTrackManager.h`. -/
structure FCheckpointData where
  Location : FVector
  Rotation : FRotator
  BoxExtent : FVector
  CheckpointIndex : Int

/-- Events broadcast by the track manager's two delegates. -/
inductive TrackEvent where
  | CheckpointPassed (Vehicle : VehiclePtr) (CheckpointIndex : Int)
  | LapCompleted (Vehicle : VehiclePtr) (LapTime : ℚ)
deriving DecidableEq

/-- State of an `ARaceTrackManager` (the members the modelled methods read or write). -/
structure ARaceTrackManager where
  Checkpoints : List FCheckpointData
  TotalCheckpoints : Int
  /-- Value of `GetActorLocation()` for the manager. -/
  ActorLocation : FVector
  VehicleCheckpoints : TMap VehiclePtr Int
  VehicleLapStartTimes : TMap VehiclePtr ℚ
  VehicleBestLaps : TMap VehiclePtr ℚ

namespace ARaceTrackManager

/-- State after the constructor: no checkpoints, `TotalCheckpoints = 0`, empty maps. -/
def construct (ActorLocation : FVector) : ARaceTrackManager :=
  { Checkpoints := []
    TotalCheckpoints := 0
    ActorLocation := ActorLocation
    VehicleCheckpoints := fun _ => none
    VehicleLapStartTimes := fun _ => none
    VehicleBestLaps := fun _ => none }

/-- `Checkpoints.IsValidIndex(Index)`. -/
def IsValidIndex (m : ARaceTrackManager) (Index : Int) : Bool :=
  decide (0 ≤ Index) && decide (Index < (m.Checkpoints.length : Int))

/-- `BeginPlay`: `TotalCheckpoints` is set from the checkpoint list. -/
def BeginPlay (m : ARaceTrackManager) : ARaceTrackManager :=
  { m with TotalCheckpoints := (m.Checkpoints.length : Int) }

def AddCheckpoint (m : ARaceTrackManager) (Location : FVector) (Rotation : FRotator)
    (BoxExtent : FVector) : ARaceTrackManager :=
  let NewCheckpoint : FCheckpointData :=
    { Location := Location
      Rotation := Rotation
      BoxExtent := BoxExtent
      CheckpointIndex := (m.Checkpoints.length : Int) }
  { m with
    Checkpoints := m.Checkpoints ++ [NewCheckpoint]
    TotalCheckpoints := ((m.Checkpoints ++ [NewCheckpoint]).length : Int) }

def RemoveCheckpoint (m : ARaceTrackManager) (Index : Int) : ARaceTrackManager :=
  if m.IsValidIndex Index then
    { m with
      Checkpoints := m.Checkpoints.eraseIdx Index.toNat
      TotalCheckpoints := ((m.Checkpoints.eraseIdx Index.toNat).length : Int) }
  else m

def ClearAllCheckpoints (m : ARaceTrackManager) : ARaceTrackManager :=
  { m with Checkpoints := [], TotalCheckpoints := 0 }

def GetVehicleCheckpointIndex (m : ARaceTrackManager) (Vehicle : VehiclePtr) : Int :=
  match m.VehicleCheckpoints Vehicle with
  | some Index => Index
  | none => 0

/-- `GetVehicleDistanceToNextCheckpoint`; `VehicleLocation` is the value of
`Vehicle->GetActorLocation()`. -/
def GetVehicleDistanceToNextCheckpoint (E : Engine) (m : ARaceTrackManager)
    (Vehicle : VehiclePtr) (VehicleLocation : FVector) : Option ℚ :=
  if Vehicle = none then some 0
  else
    let CurrentCheckpoint := m.GetVehicleCheckpointIndex Vehicle
    match modInt32 (wrapInt32 (CurrentCheckpoint + 1)) m.TotalCheckpoints with
    | none => none
    | some NextCheckpoint =>
      if m.IsValidIndex NextCheckpoint then
        match m.Checkpoints.get? NextCheckpoint.toNat with
        | none => none
        | some Checkpoint =>
          some (E.Dist VehicleLocation (FVector.add m.ActorLocation Checkpoint.Location))
      else some 0

/-- `GetCurrentLapTime`; `TimeSeconds` is the value of `GetWorld()->GetTimeSeconds()`. -/
def GetCurrentLapTime (m : ARaceTrackManager) (TimeSeconds : ℚ) (Vehicle : VehiclePtr) : ℚ :=
  match m.VehicleLapStartTimes Vehicle with
  | some Start => TimeSeconds - Start
  | none => 0

def GetBestLapTime (m : ARaceTrackManager) (Vehicle : VehiclePtr) : ℚ :=
  match m.VehicleBestLaps Vehicle with
  | some Best => Best
  | none => 0

def IsLapComplete (m : ARaceTrackManager) (_Vehicle : VehiclePtr) (CheckpointIndex : Int) :
    Bool :=
  decide (CheckpointIndex = wrapInt32 (m.TotalCheckpoints - 1))

/-- The first block of `HandleVehicleCheckpoint`: create the progress record of a
vehicle that is not a key of `VehicleCheckpoints`. -/
def InitVehicleTracking (m : ARaceTrackManager) (TimeSeconds : ℚ) (Vehicle : VehiclePtr) :
    ARaceTrackManager :=
  if !m.VehicleCheckpoints.Contains Vehicle then
    { m with
      VehicleCheckpoints := m.VehicleCheckpoints.Add Vehicle 0
      VehicleLapStartTimes := m.VehicleLapStartTimes.Add Vehicle TimeSeconds
      VehicleBestLaps := m.VehicleBestLaps.Add Vehicle FLT_MAX }
  else m

/-- The lap-completion block of `HandleVehicleCheckpoint` (lines 254-265). -/
def CompleteLap (m : ARaceTrackManager) (TimeSeconds : ℚ) (Vehicle : VehiclePtr) :
    Option (ARaceTrackManager × List TrackEvent) :=
  let LapTime := m.GetCurrentLapTime TimeSeconds Vehicle
  match m.VehicleBestLaps Vehicle with
  | none => none
  | some Best =>
    let m1 := if LapTime < Best then
      { m with VehicleBestLaps := m.VehicleBestLaps.Add Vehicle LapTime } else m
    match m1.VehicleLapStartTimes Vehicle with
    | none => none
    | some _ =>
      some ({ m1 with VehicleLapStartTimes := m1.VehicleLapStartTimes.Add Vehicle TimeSeconds },
            [TrackEvent.LapCompleted Vehicle LapTime])

/-- `HandleVehicleCheckpoint`: the new state and the events broadcast, in order. -/
def HandleVehicleCheckpoint (m : ARaceTrackManager) (TimeSeconds : ℚ) (Vehicle : VehiclePtr)
    (CheckpointIndex : Int) : Option (ARaceTrackManager × List TrackEvent) :=
  let m1 := m.InitVehicleTracking TimeSeconds Vehicle
  match m1.VehicleCheckpoints Vehicle with
  | none => none
  | some ExpectedCheckpoint =>
    if CheckpointIndex = ExpectedCheckpoint then
      match modInt32 (wrapInt32 (CheckpointIndex + 1)) m1.TotalCheckpoints with
      | none => none
      | some Next =>
        let m2 := { m1 with VehicleCheckpoints := m1.VehicleCheckpoints.Add Vehicle Next }
        if m2.IsLapComplete Vehicle CheckpointIndex then
          match m2.CompleteLap TimeSeconds Vehicle with
          | none => none
          | some (m3, Events) =>
            some (m3, TrackEvent.CheckpointPassed Vehicle CheckpointIndex :: Events)
        else some (m2, [TrackEvent.CheckpointPassed Vehicle CheckpointIndex])
    else some (m1, [])

/-- One contact delivered to `HandleVehicleCheckpoint`. -/
structure Contact where
  TimeSeconds : ℚ
  Vehicle : VehiclePtr
  CheckpointIndex : Int

/-- A sequence of contacts handled one after the other; the events are concatenated. -/
def HandleContacts (m : ARaceTrackManager) : List Contact →
    Option (ARaceTrackManager × List TrackEvent)
  | [] => some (m, [])
  | c :: rest =>
    match m.HandleVehicleCheckpoint c.TimeSeconds c.Vehicle c.CheckpointIndex with
    | none => none
    | some (m1, Events) =>
      match HandleContacts m1 rest with
      | none => none
      | some (m2, Events2) => some (m2, Events ++ Events2)

/-- The vehicle has a record in each of the three per-vehicle maps. -/
def Tracked (m : ARaceTrackManager) (Vehicle : VehiclePtr) : Prop :=
  m.VehicleCheckpoints Vehicle ≠ none ∧ m.VehicleLapStartTimes Vehicle ≠ none ∧
    m.VehicleBestLaps Vehicle ≠ none

/-- A key of `VehicleCheckpoints` is a key of the two timing maps (the three records
are only ever created together). -/
def RecordsConsistent (m : ARaceTrackManager) : Prop :=
  ∀ Vehicle, m.VehicleCheckpoints Vehicle ≠ none → m.Tracked Vehicle

end ARaceTrackManager

/-- The checkpoint-passed events of an event list, in order. -/
def checkpointPassedEvents : List TrackEvent → List (VehiclePtr × Int)
  | [] => []
  | TrackEvent.CheckpointPassed v i :: rest => (v, i) :: checkpointPassedEvents rest
  | TrackEvent.LapCompleted _ _ :: rest => checkpointPassedEvents rest

/-- The lap-completed events of an event list, in order. -/
def lapCompletedEvents : List TrackEvent → List (VehiclePtr × ℚ)
  | [] => []
  | TrackEvent.CheckpointPassed _ _ :: rest => lapCompletedEvents rest
  | TrackEvent.LapCompleted v t :: rest => (v, t) :: lapCompletedEvents rest

/-- The lap times carried by the lap-completed events of a vehicle. -/
def lapTimes (Vehicle : VehiclePtr) : List TrackEvent → List ℚ
  | [] => []
  | TrackEvent.CheckpointPassed _ _ :: rest => lapTimes Vehicle rest
  | TrackEvent.LapCompleted v t :: rest =>
    if v = Vehicle then t :: lapTimes Vehicle rest else lapTimes Vehicle rest

/-- The best lap of a vehicle's record, and the initial value `FLT_MAX` of a record not
yet created. -/
def bestOrInit (m : ARaceTrackManager) (Vehicle : VehiclePtr) : ℚ :=
  (m.VehicleBestLaps Vehicle).getD FLT_MAX

/-- Contacts with checkpoints `0, 1, ..., n-1` in order by one vehicle, the contact with
checkpoint `i` happening at time `time i`. -/
def orderedContacts (time : Nat → ℚ) (Vehicle : VehiclePtr) (start n : Nat) :
    List ARaceTrackManager.Contact :=
  (List.range' start n).map (fun (i : Nat) => ⟨time i, Vehicle, (i : Int)⟩)

/-! ## AIRacingController -/

/-- `FMath::Clamp`. -/
def Clamp {α : Type} [LT α] [DecidableRel (fun (a b : α) => a < b)] (X Min Max : α) : α :=
  if X < Min then Min else if X < Max then X else Max

/-- `FMath::Lerp`. -/
def Lerp (A B Alpha : ℚ) : ℚ := A + Alpha * (B - A)

/-- The engine constant `PI`, the single-precision value nearest to π. -/
def PI : ℚ := 13176795 / 4194304

/-- The value of a float expression that can leave the finite range: a number, an
infinity or a NaN. -/
inductive FloatValue where
  | Finite (x : ℚ)
  | PosInf
  | NegInf
  | NaN
deriving DecidableEq

/-- Float division `a / b` of two finite floats. Nothing faults: a zero divisor (taken as
`+0`) yields `+inf`, `-inf` or a NaN according to the sign of `a`. -/
def fquot (a b : ℚ) : FloatValue :=
  if b = 0 then
    if 0 < a then FloatValue.PosInf else if a < 0 then FloatValue.NegInf else FloatValue.NaN
  else FloatValue.Finite (a / b)

/-- `FMath::Clamp` on a float value: `+inf` is not below `Max` and is sent to `Max`, `-inf`
is below `Min` and is sent to `Min`, and a NaN, for which every comparison is false, is
sent to `Max`. -/
def ClampValue (X : FloatValue) (Min Max : ℚ) : ℚ :=
  match X with
  | FloatValue.Finite x => Clamp x Min Max
  | FloatValue.PosInf => Max
  | FloatValue.NegInf => Min
  | FloatValue.NaN => Max

/-- `TArray::operator[]` with an `int32` index: a fault outside the array. -/
def indexArray {α : Type} (l : List α) (Index : Int) : Option α :=
  if 0 ≤ Index then l.get? Index.toNat else none

/-- `EAIRacingBehavior`; `Unlisted` stands for any other value of the underlying `uint8`. -/
inductive EAIRacingBehavior where
  | Aggressive
  | Balanced
  | Defensive
  | Chaser
  | Blocker
  | Unlisted (raw : Nat)
deriving DecidableEq

/-- `EAIDifficulty`; `Unlisted` stands for any other value of the underlying `uint8`. -/
inductive EAIDifficulty where
  | Easy
  | Medium
  | Hard
  | Expert
  | Impossible
  | Unlisted (raw : Nat)
deriving DecidableEq

/-- `EAIRacingState`. -/
inductive EAIRacingState where
  | FollowingRaceline
  | Overtaking
  | Defending
  | Recovering
  | Braking
deriving DecidableEq

/-- `FAIRacingData` of `AIRacingController.h`. -/
structure FAIRacingData where
  CurrentState : EAIRacingState
  TargetSpeed : ℚ
  SteeringInput : ℚ
  ThrottleInput : ℚ
  BrakeInput : ℚ
  DistanceToNextWaypoint : ℚ
  LateralOffsetFromRaceline : ℚ
  CurrentWaypointIndex : Int
  bIsOvertaking : Bool
  bIsDefending : Bool
deriving DecidableEq

/-- State of an `AAIRacingController`: its members but `TrackManager`, only looked up,
and `bShowDebugInfo`, which only switches debug drawing. -/
structure AAIRacingController where
  RacingBehavior : EAIRacingBehavior
  Difficulty : EAIDifficulty
  MaxSpeedMultiplier : ℚ
  BrakingAggressiveness : ℚ
  SteeringSharpness : ℚ
  bEnableRubberBanding : Bool
  RubberBandingStrength : ℚ
  MistakeChance : ℚ
  LookAheadDistance : ℚ
  RacelineWaypoints : List FVector
  WaypointSpeeds : List ℚ
  RacingData : FAIRacingData
  ControlledVehicle : VehiclePtr
  TimeSinceMistake : ℚ
  MistakeDuration : ℚ
  MistakeOffset : FVector
  bCurrentlyMakingMistake : Bool
  OvertakeTimer : ℚ
  bOvertakeLeft : Bool
deriving DecidableEq

/-- What a controller reads from the world during one tick. -/
structure TickWorld where
  /-- `ControlledVehicle->GetActorLocation()`. -/
  VehicleLocation : FVector
  /-- `ControlledVehicle->GetActorForwardVector()`. -/
  VehicleForward : FVector
  /-- `ControlledVehicle->GetActorRightVector()`. -/
  VehicleRight : FVector
  /-- `GetVehicleMovementComponent()->GetForwardSpeed()`, in cm/s. -/
  ForwardSpeed : ℚ
  /-- `HitResult.Distance` of the forward line trace, in cm, when it hits. -/
  ObstacleHitDistance : Option ℚ
  /-- Location of the player's racing vehicle, when there is one. -/
  PlayerVehicleLocation : Option FVector
  /-- The value `FMath::FRand()` returns. -/
  FRand : ℚ
  /-- The value `FMath::RandRange(0.5f, 2.0f)` returns. -/
  RandMistakeDuration : ℚ
  /-- The values the two `FMath::RandRange(-300.0f, 300.0f)` return. -/
  RandMistakeOffsetX : ℚ
  RandMistakeOffsetY : ℚ

/-- The three values `ApplyInputsToVehicle` writes to the vehicle. -/
structure VehicleInputs where
  Steering : ℚ
  Throttle : ℚ
  Brake : ℚ
deriving DecidableEq

namespace AAIRacingController

/-- State after the constructor: the default member initialisers of the header, no
vehicle possessed. -/
def construct : AAIRacingController :=
  { RacingBehavior := EAIRacingBehavior.Balanced
    Difficulty := EAIDifficulty.Medium
    MaxSpeedMultiplier := 85 / 100
    BrakingAggressiveness := 1
    SteeringSharpness := 1
    bEnableRubberBanding := false
    RubberBandingStrength := 3 / 10
    MistakeChance := 5 / 100
    LookAheadDistance := 50
    RacelineWaypoints := []
    WaypointSpeeds := []
    RacingData :=
      { CurrentState := EAIRacingState.FollowingRaceline
        TargetSpeed := 0
        SteeringInput := 0
        ThrottleInput := 0
        BrakeInput := 0
        DistanceToNextWaypoint := 0
        LateralOffsetFromRaceline := 0
        CurrentWaypointIndex := 0
        bIsOvertaking := false
        bIsDefending := false }
    ControlledVehicle := none
    TimeSinceMistake := 0
    MistakeDuration := 0
    MistakeOffset := FVector.ZeroVector
    bCurrentlyMakingMistake := false
    OvertakeTimer := 0
    bOvertakeLeft := true }

/-- The difficulty switch of `BeginPlay`. -/
def BeginPlay (c : AAIRacingController) : AAIRacingController :=
  match c.Difficulty with
  | EAIDifficulty.Easy => { c with MaxSpeedMultiplier := 7 / 10, MistakeChance := 2 / 10 }
  | EAIDifficulty.Medium => { c with MaxSpeedMultiplier := 85 / 100, MistakeChance := 1 / 10 }
  | EAIDifficulty.Hard => { c with MaxSpeedMultiplier := 95 / 100, MistakeChance := 5 / 100 }
  | EAIDifficulty.Expert => { c with MaxSpeedMultiplier := 1, MistakeChance := 2 / 100 }
  | EAIDifficulty.Impossible => { c with MaxSpeedMultiplier := 11 / 10, MistakeChance := 0 }
  | EAIDifficulty.Unlisted _ => c

/-- `OnPossess`. -/
def OnPossess (c : AAIRacingController) (InPawn : VehiclePtr) : AAIRacingController :=
  { c with ControlledVehicle := InPawn }

def GetBehaviorSpeedMultiplier (c : AAIRacingController) : ℚ :=
  match c.RacingBehavior with
  | EAIRacingBehavior.Aggressive => 11 / 10
  | EAIRacingBehavior.Balanced => 1
  | EAIRacingBehavior.Defensive => 9 / 10
  | EAIRacingBehavior.Chaser => 105 / 100
  | EAIRacingBehavior.Blocker => 95 / 100
  | EAIRacingBehavior.Unlisted _ => 1

def GetBehaviorBrakingMultiplier (c : AAIRacingController) : ℚ :=
  match c.RacingBehavior with
  | EAIRacingBehavior.Aggressive => 8 / 10
  | EAIRacingBehavior.Balanced => 1
  | EAIRacingBehavior.Defensive => 13 / 10
  | EAIRacingBehavior.Chaser => 9 / 10
  | EAIRacingBehavior.Blocker => 11 / 10
  | EAIRacingBehavior.Unlisted _ => 1

def GetOvertakingAggression (c : AAIRacingController) : ℚ :=
  match c.RacingBehavior with
  | EAIRacingBehavior.Aggressive => 15 / 10
  | EAIRacingBehavior.Balanced => 1
  | EAIRacingBehavior.Defensive => 5 / 10
  | EAIRacingBehavior.Chaser => 13 / 10
  | EAIRacingBehavior.Blocker => 3 / 10
  | EAIRacingBehavior.Unlisted _ => 1

/-- The body of the loop of `InitializeRacingAI` for index `i`: the corner speed before
the multiplication by `MaxSpeedMultiplier`. The loop runs for `0 ≤ i < Num`, so the three
indices are in range. -/
def CornerSpeed (E : Engine) (Waypoints : List FVector) (i : Nat) : ℚ :=
  let Num : Int := (Waypoints.length : Int)
  let NextIndex := Int.tmod ((i : Int) + 1) Num
  let PrevIndex := Int.tmod ((i : Int) - 1 + Num) Num
  let ToNext := E.Normalize (FVector.sub (Waypoints.getD NextIndex.toNat FVector.ZeroVector)
    (Waypoints.getD i FVector.ZeroVector))
  let ToPrev := E.Normalize (FVector.sub (Waypoints.getD i FVector.ZeroVector)
    (Waypoints.getD PrevIndex.toNat FVector.ZeroVector))
  let CornerSharpness := FVector.DotProduct ToNext ToPrev
  let BaseSpeed : ℚ := 200
  let MaxSpeed : ℚ := 300
  Lerp BaseSpeed MaxSpeed ((CornerSharpness + 1) * (1 / 2))

def InitializeRacingAI (E : Engine) (c : AAIRacingController) (Waypoints : List FVector) :
    AAIRacingController :=
  { c with
    RacelineWaypoints := Waypoints
    WaypointSpeeds :=
      (List.range Waypoints.length).map (fun i => CornerSpeed E Waypoints i * c.MaxSpeedMultiplier) }

def GetNextWaypointIndex (c : AAIRacingController) (CurrentIndex LookAhead : Int) : Int :=
  if c.RacelineWaypoints.length = 0 then 0
  else Int.tmod (wrapInt32 (CurrentIndex + LookAhead)) (c.RacelineWaypoints.length : Int)

/-- `DetectObstaclesAhead`: the distance in metres when the line trace hits. -/
def DetectObstaclesAhead (c : AAIRacingController) (W : TickWorld) : Option ℚ :=
  if c.ControlledVehicle = none then none
  else
    match W.ObstacleHitDistance with
    | some Distance => some (Distance * (1 / 100))
    | none => none

/-- `GetOvertakingOffset`: the offset, and the controller with `bOvertakeLeft` toggled. -/
def GetOvertakingOffset (c : AAIRacingController) : ℚ × AAIRacingController :=
  let MaxOffset : ℚ := 400
  let c1 := { c with bOvertakeLeft := !c.bOvertakeLeft }
  let Direction : ℚ := if c1.bOvertakeLeft then -1 else 1
  (Direction * MaxOffset * c1.GetOvertakingAggression, c1)

def SimulateMistake (c : AAIRacingController) (W : TickWorld) : AAIRacingController :=
  { c with
    bCurrentlyMakingMistake := true
    MistakeDuration := W.RandMistakeDuration
    TimeSinceMistake := 0
    MistakeOffset := ⟨W.RandMistakeOffsetX, W.RandMistakeOffsetY, 0⟩
    RacingData := { c.RacingData with CurrentState := EAIRacingState.Recovering } }

/-- `CalculateSteeringInput`: the returned value, and the controller (the overtaking
offset toggles `bOvertakeLeft`). -/
def CalculateSteeringInput (E : Engine) (c : AAIRacingController) (W : TickWorld) :
    Option (ℚ × AAIRacingController) :=
  if c.ControlledVehicle = none ∨ c.RacelineWaypoints.length = 0 then some (0, c)
  else
    let LookAheadWaypoints : Int := Clamp (Int.ceil (W.ForwardSpeed / 100)) 1 10
    let TargetIndex := c.GetNextWaypointIndex c.RacingData.CurrentWaypointIndex LookAheadWaypoints
    match indexArray c.RacelineWaypoints TargetIndex with
    | none => none
    | some Waypoint =>
      let (Target1, c1) :=
        if c.RacingData.bIsOvertaking then
          let (Offset, c') := c.GetOvertakingOffset
          (FVector.add Waypoint (FVector.scale W.VehicleRight Offset), c')
        else (Waypoint, c)
      let Target2 :=
        if c1.bCurrentlyMakingMistake then FVector.add Target1 c1.MistakeOffset else Target1
      let Flat := FVector.sub Target2 W.VehicleLocation
      let ToTarget := E.Normalize ⟨Flat.X, Flat.Y, 0⟩
      let CrossProduct := (FVector.CrossProduct W.VehicleForward ToTarget).Z
      let SteeringAngle := E.Asin (Clamp CrossProduct (-1) 1)
      let SteeringInput := SteeringAngle / (PI * (1 / 2))
      let SteeringInput := SteeringInput * (c1.SteeringSharpness * c1.GetBehaviorSpeedMultiplier)
      some (Clamp SteeringInput (-1) 1, c1)

/-- The look-ahead loop of `CalculateThrottleBrake`, for `i = 1, 2, 3`. -/
def LookAheadTargetSpeed (c : AAIRacingController) (TargetSpeed : ℚ) : Option ℚ :=
  match indexArray c.WaypointSpeeds (c.GetNextWaypointIndex c.RacingData.CurrentWaypointIndex 1)
  with
  | none => none
  | some s1 =>
    match indexArray c.WaypointSpeeds (c.GetNextWaypointIndex c.RacingData.CurrentWaypointIndex 2)
    with
    | none => none
    | some s2 =>
      match indexArray c.WaypointSpeeds
        (c.GetNextWaypointIndex c.RacingData.CurrentWaypointIndex 3) with
      | none => none
      | some s3 => some (min (min (min TargetSpeed s1) s2) s3)

/-- The decision of `CalculateThrottleBrake` (lines 273-301): throttle, brake and the new
state label, before the obstacle check. -/
def SpeedLaw (c : AAIRacingController) (CurrentSpeed TargetSpeed : ℚ) :
    Option (ℚ × ℚ × EAIRacingState) :=
  let SpeedDifference := CurrentSpeed - TargetSpeed
  let BrakingDistance : ℚ :=
    if SpeedDifference > 0 then (SpeedDifference * SpeedDifference) / (2 * (98 / 10) * (12 / 10))
    else 0
  let BrakingDistance := BrakingDistance * (c.BrakingAggressiveness * c.GetBehaviorBrakingMultiplier)
  let DistanceToCorner := c.RacingData.DistanceToNextWaypoint * (1 / 100)
  if CurrentSpeed > TargetSpeed ∧ DistanceToCorner < BrakingDistance then
    some (0, ClampValue (fquot (CurrentSpeed - TargetSpeed) TargetSpeed) 0 1,
      EAIRacingState.Braking)
  else if CurrentSpeed < TargetSpeed * (95 / 100) then
    some (ClampValue (fquot (TargetSpeed - CurrentSpeed) TargetSpeed) (3 / 10) 1, 0,
      EAIRacingState.FollowingRaceline)
  else some (1 / 2, 0, c.RacingData.CurrentState)

/-- The obstacle override at the end of `CalculateThrottleBrake` (lines 303-316). -/
def ObstacleOverride (Obstacle : Option ℚ) (Throttle Brake : ℚ) : ℚ × ℚ :=
  match Obstacle with
  | some ObstacleDistance =>
    if ObstacleDistance < 10 then (0, 1)
    else if ObstacleDistance < 30 then (Throttle * (1 / 2), Brake)
    else (Throttle, Brake)
  | none => (Throttle, Brake)

/-- `CalculateThrottleBrake`, called with `RacingData.ThrottleInput` and
`RacingData.BrakeInput` as its two output references. -/
def CalculateThrottleBrake (c : AAIRacingController) (W : TickWorld) :
    Option AAIRacingController :=
  if c.ControlledVehicle = none ∨ c.WaypointSpeeds.length = 0 then
    some { c with RacingData := { c.RacingData with ThrottleInput := 0, BrakeInput := 0 } }
  else
    let CurrentSpeed := W.ForwardSpeed * (36 / 1000)
    match indexArray c.WaypointSpeeds c.RacingData.CurrentWaypointIndex with
    | none => none
    | some TargetSpeed0 =>
      match c.LookAheadTargetSpeed TargetSpeed0 with
      | none => none
      | some TargetSpeed1 =>
        let TargetSpeed := TargetSpeed1 * c.GetBehaviorSpeedMultiplier
        match c.SpeedLaw CurrentSpeed TargetSpeed with
        | none => none
        | some (Throttle, Brake, State) =>
          let (Throttle', Brake') := ObstacleOverride (c.DetectObstaclesAhead W) Throttle Brake
          some { c with
                 RacingData :=
                   { c.RacingData with
                     ThrottleInput := Throttle'
                     BrakeInput := Brake'
                     CurrentState := State } }

def ShouldAttemptOvertake (c : AAIRacingController) (W : TickWorld) : Bool :=
  if c.RacingData.bIsOvertaking || c.bCurrentlyMakingMistake then false
  else
    match c.DetectObstaclesAhead W with
    | some ObstacleDistance => decide (ObstacleDistance < 20 * c.GetOvertakingAggression)
    | none => false

def ApplyRubberBanding (E : Engine) (c : AAIRacingController) (W : TickWorld) :
    AAIRacingController :=
  match W.PlayerVehicleLocation with
  | none => c
  | some PlayerLocation =>
    if c.ControlledVehicle = none then c
    else
      let Distance := E.Dist PlayerLocation W.VehicleLocation
      let IdealDistance : ℚ := 5000
      let DistanceDifference := Distance - IdealDistance
      let SpeedAdjustment := (DistanceDifference / IdealDistance) * c.RubberBandingStrength
      { c with
        MaxSpeedMultiplier :=
          Clamp (c.MaxSpeedMultiplier + SpeedAdjustment * (1 / 100)) (1 / 2) (12 / 10) }

/-- The nearest-waypoint scan of `UpdateRacingInputs` over the waypoints from index `i`
on: the running `ClosestDistance` and `CurrentWaypointIndex`. -/
def ScanWaypoints (E : Engine) (VehicleLocation : FVector) :
    List FVector → Nat → ℚ × Int → ℚ × Int
  | [], _, acc => acc
  | Waypoint :: rest, i, (ClosestDistance, Index) =>
    let Distance := E.Dist VehicleLocation Waypoint
    if Distance < ClosestDistance then
      ScanWaypoints E VehicleLocation rest (i + 1) (Distance, (i : Int))
    else ScanWaypoints E VehicleLocation rest (i + 1) (ClosestDistance, Index)

/-- The mistake block of `UpdateRacingInputs` (lines 147-164). -/
def UpdateMistake (c : AAIRacingController) (DeltaTime : ℚ) (W : TickWorld) :
    AAIRacingController :=
  let c1 := { c with TimeSinceMistake := c.TimeSinceMistake + DeltaTime }
  let c2 :=
    if !c1.bCurrentlyMakingMistake && decide (W.FRand < c1.MistakeChance * DeltaTime) then
      c1.SimulateMistake W
    else c1
  if c2.bCurrentlyMakingMistake then
    let c3 := { c2 with MistakeDuration := c2.MistakeDuration - DeltaTime }
    if c3.MistakeDuration ≤ 0 then
      { c3 with
        bCurrentlyMakingMistake := false
        MistakeOffset := FVector.ZeroVector
        RacingData := { c3.RacingData with CurrentState := EAIRacingState.FollowingRaceline } }
    else c3
  else c2

/-- The overtaking block of `UpdateRacingInputs` (lines 178-195). -/
def UpdateOvertake (c : AAIRacingController) (DeltaTime : ℚ) (W : TickWorld) :
    AAIRacingController :=
  let c1 :=
    if c.ShouldAttemptOvertake W then
      { c with
        RacingData :=
          { c.RacingData with CurrentState := EAIRacingState.Overtaking, bIsOvertaking := true }
        OvertakeTimer := 3 }
    else c
  if c1.RacingData.bIsOvertaking then
    let c2 := { c1 with OvertakeTimer := c1.OvertakeTimer - DeltaTime }
    if c2.OvertakeTimer ≤ 0 then
      { c2 with
        RacingData :=
          { c2.RacingData with
            bIsOvertaking := false
            CurrentState := EAIRacingState.FollowingRaceline } }
    else c2
  else c1

def UpdateRacingInputs (E : Engine) (c : AAIRacingController) (DeltaTime : ℚ) (W : TickWorld) :
    Option AAIRacingController :=
  if c.ControlledVehicle = none then some c
  else
    let Scan := ScanWaypoints E W.VehicleLocation c.RacelineWaypoints 0
      (FLT_MAX, c.RacingData.CurrentWaypointIndex)
    let c1 := { c with
                RacingData :=
                  { c.RacingData with
                    CurrentWaypointIndex := Scan.2
                    DistanceToNextWaypoint := Scan.1 } }
    let c2 := c1.UpdateMistake DeltaTime W
    match CalculateSteeringInput E c2 W with
    | none => none
    | some (Steering, c3) =>
      let c4 := { c3 with RacingData := { c3.RacingData with SteeringInput := Steering } }
      match c4.CalculateThrottleBrake W with
      | none => none
      | some c5 =>
        let c6 := if c5.bEnableRubberBanding then ApplyRubberBanding E c5 W else c5
        some (c6.UpdateOvertake DeltaTime W)

/-- The controller's three outputs, as held in `RacingData`. -/
def Outputs (c : AAIRacingController) : VehicleInputs :=
  ⟨c.RacingData.SteeringInput, c.RacingData.ThrottleInput, c.RacingData.BrakeInput⟩

def ApplyInputsToVehicle (c : AAIRacingController) : Option VehicleInputs :=
  if c.ControlledVehicle = none then none
  else some ⟨c.RacingData.SteeringInput, c.RacingData.ThrottleInput, c.RacingData.BrakeInput⟩

/-- `Tick`: the new state and the values written to the vehicle, if any. -/
def Tick (E : Engine) (c : AAIRacingController) (DeltaTime : ℚ) (W : TickWorld) :
    Option (AAIRacingController × Option VehicleInputs) :=
  if c.ControlledVehicle = none ∨ c.RacelineWaypoints.length = 0 then some (c, none)
  else
    match UpdateRacingInputs E c DeltaTime W with
    | none => none
    | some c1 => some (c1, c1.ApplyInputsToVehicle)

/-- A sequence of ticks: the final state and the values written to the vehicle by each
tick that wrote any. -/
def RunTicks (E : Engine) (c : AAIRacingController) :
    List (ℚ × TickWorld) → Option (AAIRacingController × List VehicleInputs)
  | [] => some (c, [])
  | (DeltaTime, W) :: rest =>
    match Tick E c DeltaTime W with
    | none => none
    | some (c1, Written) =>
      match RunTicks E c1 rest with
      | none => none
      | some (c2, Writes) => some (c2, Written.toList ++ Writes)

end AAIRacingController

namespace AAIRacingController

/-- The target speed `CalculateThrottleBrake` computes (lines 262-271): the minimum of the
corner speeds of the current waypoint and of the next three, times the behaviour speed
multiplier. -/
def LookUpTargetSpeed (c : AAIRacingController) : Option ℚ :=
  match indexArray c.WaypointSpeeds c.RacingData.CurrentWaypointIndex with
  | none => none
  | some TargetSpeed0 =>
    match c.LookAheadTargetSpeed TargetSpeed0 with
    | none => none
    | some TargetSpeed1 => some (TargetSpeed1 * c.GetBehaviorSpeedMultiplier)

/-- The braking distance `CalculateThrottleBrake` computes (lines 274-276), in metres. -/
def BrakingDistance (c : AAIRacingController) (CurrentSpeed TargetSpeed : ℚ) : ℚ :=
  (if CurrentSpeed - TargetSpeed > 0 then
      ((CurrentSpeed - TargetSpeed) * (CurrentSpeed - TargetSpeed)) / (2 * (98 / 10) * (12 / 10))
    else 0) * (c.BrakingAggressiveness * c.GetBehaviorBrakingMultiplier)

end AAIRacingController

namespace AAIRacingController

/-- The members that configure a controller and that no step of a tick writes. -/
def Config (c : AAIRacingController) :
    EAIRacingBehavior × ℚ × ℚ × Bool × ℚ × ℚ × List FVector × List ℚ × VehiclePtr :=
  (c.RacingBehavior, c.BrakingAggressiveness, c.SteeringSharpness, c.bEnableRubberBanding,
    c.RubberBandingStrength, c.MistakeChance, c.RacelineWaypoints, c.WaypointSpeeds,
    c.ControlledVehicle)

/-- The mistake flag and countdown. -/
def MistakeState (c : AAIRacingController) : Bool × ℚ :=
  (c.bCurrentlyMakingMistake, c.MistakeDuration)

end AAIRacingController

/-! ## Concrete inputs used by the examples -/

/-- An engine instance: the Euclidean distance and norm through `Rat.sqrt`, which is exact
on squares of rationals, and an arcsine that is exact at `0` only; the examples evaluate
it at such points. -/
def gridEngine : Engine :=
  { Dist := fun a b => Rat.sqrt (FVector.SizeSquared (FVector.sub a b))
    Normalize := fun a =>
      if FVector.SizeSquared a > 1 / 100000000 then
        FVector.scale a (1 / Rat.sqrt (FVector.SizeSquared a))
      else a
    Asin := fun x => x }

/-- A checkpoint with the default rotation and box extent of `FCheckpointData`. -/
def checkpointAt (Location : FVector) (Index : Int) : FCheckpointData :=
  { Location := Location
    Rotation := ⟨0, 0, 0⟩
    BoxExtent := ⟨500, 1000, 300⟩
    CheckpointIndex := Index }

/-- A manager at the origin with `n` checkpoints, all at `Location`, numbered in order, and
`TotalCheckpoints = n`; no vehicle is tracked. -/
def trackOf (n : Nat) (Location : FVector) : ARaceTrackManager :=
  { ARaceTrackManager.construct FVector.ZeroVector with
    Checkpoints := (List.range n).map (fun (i : Nat) => checkpointAt Location (i : Int))
    TotalCheckpoints := (n : Int) }

/-- The four-checkpoint loop after vehicle `7` made its first contact, with checkpoint 0,
at time 0: it now expects checkpoint 1. -/
def loopAfterContact0 : ARaceTrackManager :=
  { trackOf 4 FVector.ZeroVector with
    VehicleCheckpoints := TMap.Add (fun _ => none) (some 7) 1
    VehicleLapStartTimes := TMap.Add (fun _ => none) (some 7) 0
    VehicleBestLaps := TMap.Add (fun _ => none) (some 7) FLT_MAX }

/-- Three laps of vehicle 7 on a two-checkpoint loop: contacts 0, 1 at times 0, 62, then
at times 70, 120, then at times 125, 180, so that the laps take 62, 58 and 60 seconds. -/
def threeLapContacts : List ARaceTrackManager.Contact :=
  orderedContacts (fun i => 62 * (i : ℚ)) (some 7) 0 2 ++
    (orderedContacts (fun i => 70 + 50 * (i : ℚ)) (some 7) 0 2 ++
      orderedContacts (fun i => 125 + 55 * (i : ℚ)) (some 7) 0 2)

/-- A two-checkpoint track with checkpoint 1 at `(300, 400, 0)`, 500 cm from the origin;
no vehicle is tracked. -/
def offsetTrack : ARaceTrackManager :=
  { ARaceTrackManager.construct FVector.ZeroVector with
    Checkpoints := [checkpointAt FVector.ZeroVector 0, checkpointAt ⟨300, 400, 0⟩ 1]
    TotalCheckpoints := 2 }

/-- A frame in which the vehicle stands at the origin facing +X, nothing is ahead, there
is no player vehicle and the random draw is 1/2. -/
def stillWorld : TickWorld :=
  { VehicleLocation := FVector.ZeroVector
    VehicleForward := ⟨1, 0, 0⟩
    VehicleRight := ⟨0, 1, 0⟩
    ForwardSpeed := 0
    ObstacleHitDistance := none
    PlayerVehicleLocation := none
    FRand := 1 / 2
    RandMistakeDuration := 1
    RandMistakeOffsetX := 0
    RandMistakeOffsetY := 0 }

/-- A controller after `BeginPlay`, possessing vehicle 7 and initialised with the single
waypoint at the origin. -/
def drivingController : AAIRacingController :=
  AAIRacingController.InitializeRacingAI gridEngine
    ((AAIRacingController.construct.BeginPlay).OnPossess (some 7)) [FVector.ZeroVector]

/-- A square loop of four waypoints, 10 m a side. -/
def squareLoop : List FVector :=
  [⟨0, 0, 0⟩, ⟨1000, 0, 0⟩, ⟨1000, 1000, 0⟩, ⟨0, 1000, 0⟩]

/-- The corner sharpness of the specification at waypoint `i`: the dot product of the
normalised vectors `W[(i+1) mod n] - W[i]` and `W[i] - W[(i-1+n) mod n]`. -/
def specSharpness (E : Engine) (Waypoints : List FVector) (i : Nat) : ℚ :=
  FVector.DotProduct
    (E.Normalize (FVector.sub
      (Waypoints.getD ((i + 1) % Waypoints.length) FVector.ZeroVector)
      (Waypoints.getD i FVector.ZeroVector)))
    (E.Normalize (FVector.sub
      (Waypoints.getD i FVector.ZeroVector)
      (Waypoints.getD ((i + Waypoints.length - 1) % Waypoints.length) FVector.ZeroVector)))

/-- The behaviour profile of the specification: speed, braking-distance and
overtake-aggression multipliers of each archetype, and 1 for any other value. -/
def specBehaviorProfile : EAIRacingBehavior → ℚ × ℚ × ℚ
  | EAIRacingBehavior.Aggressive => (11 / 10, 8 / 10, 15 / 10)
  | EAIRacingBehavior.Balanced => (1, 1, 1)
  | EAIRacingBehavior.Defensive => (9 / 10, 13 / 10, 5 / 10)
  | EAIRacingBehavior.Chaser => (105 / 100, 9 / 10, 13 / 10)
  | EAIRacingBehavior.Blocker => (95 / 100, 11 / 10, 3 / 10)
  | EAIRacingBehavior.Unlisted _ => (1, 1, 1)

/-- A loop of four waypoints on a line, 1 cm apart: waypoint 1 lies on a straight
(sharpness 1) and waypoint 2 is a hairpin (sharpness -1). -/
def hairpinLoop : List FVector :=
  [⟨0, 0, 0⟩, ⟨1, 0, 0⟩, ⟨2, 0, 0⟩, ⟨1, 0, 0⟩]

/-- A controller as constructed, with the given behaviour. -/
def controllerWith (Behavior : EAIRacingBehavior) : AAIRacingController :=
  { AAIRacingController.construct with RacingBehavior := Behavior }

/-- A controller of difficulty Expert after `BeginPlay`. -/
def expertController : AAIRacingController :=
  AAIRacingController.BeginPlay
    { AAIRacingController.construct with Difficulty := EAIDifficulty.Expert }

/-- A frame like `stillWorld` in which the random draw is 0, and the drawn mistake
duration is 1 second. -/
def unluckyWorld : TickWorld := { stillWorld with FRand := 0 }

/-- The Expert controller possessing vehicle 7 and initialised with the single waypoint at
the origin. -/
def expertDriver : AAIRacingController :=
  AAIRacingController.InitializeRacingAI gridEngine (expertController.OnPossess (some 7))
    [FVector.ZeroVector]

/-- A Balanced controller possessing vehicle 7 on the single waypoint at the origin, whose
corner speed is set to 50 km/h, 100 m away from its nearest waypoint. -/
def brakingController : AAIRacingController :=
  { AAIRacingController.construct with
    ControlledVehicle := some 7
    RacelineWaypoints := [FVector.ZeroVector]
    WaypointSpeeds := [50]
    RacingData :=
      { AAIRacingController.construct.RacingData with DistanceToNextWaypoint := 10000 } }

/-- A frame like `stillWorld` in which the vehicle moves forward at 200 km/h. -/
def fastWorld : TickWorld := { stillWorld with ForwardSpeed := 50000 / 9 }

/-- A frame in which the vehicle moves forward at 60 km/h and the line trace hits an
obstacle 5 m ahead. -/
def blockedWorld : TickWorld :=
  { stillWorld with ForwardSpeed := 5000 / 3, ObstacleHitDistance := some 500 }

/-- A frame like `stillWorld` in which the player's vehicle is 100 km away. -/
def farPlayerWorld : TickWorld :=
  { stillWorld with PlayerVehicleLocation := some ⟨10000000, 0, 0⟩ }

/-- The controller `brakingController` standing at its waypoint (distance 0). -/
def closeBrakingController : AAIRacingController :=
  { brakingController with
    RacingData := { brakingController.RacingData with DistanceToNextWaypoint := 0 } }

/-- The controller `drivingController` with rubber-banding enabled. -/
def rubberController : AAIRacingController :=
  { drivingController with bEnableRubberBanding := true }

/-- A frame like `stillWorld` in which the player's vehicle is at the origin, next to the
controlled vehicle. -/
def nearPlayerWorld : TickWorld :=
  { stillWorld with PlayerVehicleLocation := some FVector.ZeroVector }

/-- The simulated time of a sequence of ticks: the sum of its `dt` steps. -/
def totalTime (ticks : List (ℚ × TickWorld)) : ℚ := (ticks.map Prod.fst).sum

/-- A frame like `stillWorld` in which the random draw is 0 and the drawn mistake duration
is 2 seconds. -/
def longMistakeWorld : TickWorld := { stillWorld with FRand := 0, RandMistakeDuration := 2 }

/-- A tick of 0.3 s that starts a mistake of 2 s, followed by `n` ticks of 0.3 s. -/
def slowTicks (n : Nat) : List (ℚ × TickWorld) :=
  (3 / 10, longMistakeWorld) :: List.replicate n (3 / 10, stillWorld)

namespace AAIRacingController

/-- The lateral offset `CalculateSteeringInput` adds to its target point (lines 212-218):
the value of `GetOvertakingOffset` while `bIsOvertaking` is set, none otherwise. -/
def SteeringTargetOffset (c : AAIRacingController) : Option ℚ :=
  if c.RacingData.bIsOvertaking then some c.GetOvertakingOffset.1 else none

/-- The tail of `CalculateSteeringInput` (lines 220-237): the steering value toward the
target point `Target1`, after the mistake offset is added. -/
def SteeringToward (E : Engine) (c : AAIRacingController) (W : TickWorld) (Target1 : FVector) :
    ℚ :=
  let Target2 :=
    if c.bCurrentlyMakingMistake then FVector.add Target1 c.MistakeOffset else Target1
  let Flat := FVector.sub Target2 W.VehicleLocation
  let ToTarget := E.Normalize ⟨Flat.X, Flat.Y, 0⟩
  let CrossProduct := (FVector.CrossProduct W.VehicleForward ToTarget).Z
  let SteeringAngle := E.Asin (Clamp CrossProduct (-1) 1)
  let SteeringInput := SteeringAngle / (PI * (1 / 2))
  let SteeringInput := SteeringInput * (c.SteeringSharpness * c.GetBehaviorSpeedMultiplier)
  Clamp SteeringInput (-1) 1

end AAIRacingController

/-- A frame like `stillWorld` in which the line trace hits an obstacle 15 m ahead. -/
def obstacleWorld : TickWorld := { stillWorld with ObstacleHitDistance := some 1500 }

/-- A frame like `obstacleWorld` in which the random draw is 0, so that a mistake of 1 s
starts. -/
def unluckyObstacleWorld : TickWorld := { obstacleWorld with FRand := 0 }

/-- The controller `drivingController` after one tick of 1/60 s in `obstacleWorld`: the
obstacle 15 m ahead has triggered an overtake. -/
def overtakingController : AAIRacingController :=
  ((AAIRacingController.Tick gridEngine drivingController (1 / 60) obstacleWorld).map
    Prod.fst).getD drivingController

/-- The controller `drivingController` on `hairpinLoop`, every corner speed 200 km/h, whose
nearest waypoint was last found to be waypoint 3. -/
def hairpinDriver : AAIRacingController :=
  { drivingController with
    RacelineWaypoints := hairpinLoop
    WaypointSpeeds := [200, 200, 200, 200]
    RacingData := { drivingController.RacingData with CurrentWaypointIndex := 3 } }

/-- A frame like `stillWorld` in which the vehicle stands at `(1, 0, 0)`, the place of
waypoints 1 and 3 of `hairpinLoop`. -/
def hairpinWorld : TickWorld := { stillWorld with VehicleLocation := ⟨1, 0, 0⟩ }

/-- A loop of five waypoints: the four corners of a diamond around `(1, 0, 0)`, each 1 cm
from it, and `(1, 0, 0)` itself. -/
def diamondLoop : List FVector :=
  [⟨0, 0, 0⟩, ⟨1, 1, 0⟩, ⟨2, 0, 0⟩, ⟨1, -1, 0⟩, ⟨1, 0, 0⟩]

/-- The controller `drivingController` on `diamondLoop`, every corner speed 200 km/h. -/
def diamondDriver : AAIRacingController :=
  { drivingController with
    RacelineWaypoints := diamondLoop
    WaypointSpeeds := [200, 200, 200, 200, 200] }

/-- The controller `diamondDriver` after one update with the vehicle at `(1, 0, 0)`, which
finds waypoint 4 nearest, re-initialised with the four waypoints of `hairpinLoop`. -/
def staleDriver : AAIRacingController :=
  AAIRacingController.InitializeRacingAI gridEngine
    ((AAIRacingController.UpdateRacingInputs gridEngine diamondDriver (1 / 60)
      hairpinWorld).getD diamondDriver) hairpinLoop

/-- The controller `hairpinDriver`, at waypoint 3, with corner speeds 250, 220, 300 and
280 km/h. -/
def lookaheadDriver : AAIRacingController :=
  { hairpinDriver with WaypointSpeeds := [250, 220, 300, 280] }

/-- The four-checkpoint loop after vehicle `7` passed checkpoints 0, 1 and 2 at times 0, 1
and 2: it now expects checkpoint 3, the last one. -/
def loopExpectingLast : ARaceTrackManager :=
  (((trackOf 4 FVector.ZeroVector).HandleContacts
    (orderedContacts (fun i => (i : ℚ)) (some 7) 0 3)).map Prod.fst).getD
      (trackOf 4 FVector.ZeroVector)

/-- The number of checkpoint-passed events of a vehicle in an event list. -/
def passedCount (Vehicle : VehiclePtr) (evs : List TrackEvent) : Nat :=
  ((checkpointPassedEvents evs).filter (fun p => decide (p.1 = Vehicle))).length

/-- The number of lap-completed events of a vehicle in an event list. -/
def lapCount (Vehicle : VehiclePtr) (evs : List TrackEvent) : Nat :=
  (lapTimes Vehicle evs).length

/-- The time of the first contact of a vehicle in a contact list. -/
def firstContactTime (Vehicle : VehiclePtr) : List ARaceTrackManager.Contact → Option ℚ
  | [] => none
  | c :: rest =>
    if c.Vehicle = Vehicle then some c.TimeSeconds else firstContactTime Vehicle rest

/-- Contacts by vehicles 7 and 8 on a two-checkpoint loop: vehicle 7 passes 0, 1, 0, 1 and
touches checkpoint 0 once out of turn, vehicle 8 passes 0. -/
def mixedContacts : List ARaceTrackManager.Contact :=
  [⟨0, some 7, 0⟩, ⟨1, some 8, 0⟩, ⟨2, some 7, 0⟩, ⟨3, some 7, 1⟩, ⟨4, some 7, 0⟩,
    ⟨5, some 7, 1⟩]

namespace AAIRacingController

/-- The entry of `WaypointSpeeds` that `InitializeRacingAI` computes from the `float`
`CornerSharpness` (lines 113-118), with the result of every `float` operation rounded by
`Round`: `FMath::Lerp(200, 300, (CornerSharpness + 1) * 0.5)`, that is
`200 + Alpha * (300 - 200)`, times `MaxSpeedMultiplier`. -/
def WaypointSpeedRounded (Round : ℚ → ℚ) (CornerSharpness MaxSpeedMultiplier : ℚ) : ℚ :=
  let Alpha := Round (Round (CornerSharpness + 1) * (1 / 2))
  let CornerSpeed := Round (200 + Round (Alpha * Round (300 - 200)))
  Round (CornerSpeed * MaxSpeedMultiplier)

end AAIRacingController

namespace ARaceTrackManager

/-- `GetCurrentLapTime` in `float` arithmetic: the difference of the clock and the stored
lap start is rounded by `Round` to the `float` the function returns. -/
def GetCurrentLapTimeRounded (Round : ℚ → ℚ) (m : ARaceTrackManager) (TimeSeconds : ℚ)
    (Vehicle : VehiclePtr) : ℚ :=
  match m.VehicleLapStartTimes Vehicle with
  | some Start => Round (TimeSeconds - Start)
  | none => 0

/-- `CompleteLap` with the lap time of `GetCurrentLapTimeRounded`; the clock reading is
rounded by `Round` when it is stored as the new lap start, a `float`. -/
def CompleteLapRounded (Round : ℚ → ℚ) (m : ARaceTrackManager) (TimeSeconds : ℚ)
    (Vehicle : VehiclePtr) : Option (ARaceTrackManager × List TrackEvent) :=
  let LapTime := m.GetCurrentLapTimeRounded Round TimeSeconds Vehicle
  match m.VehicleBestLaps Vehicle with
  | none => none
  | some Best =>
    let m1 := if LapTime < Best then
      { m with VehicleBestLaps := m.VehicleBestLaps.Add Vehicle LapTime } else m
    match m1.VehicleLapStartTimes Vehicle with
    | none => none
    | some _ =>
      some ({ m1 with
              VehicleLapStartTimes := m1.VehicleLapStartTimes.Add Vehicle (Round TimeSeconds) },
            [TrackEvent.LapCompleted Vehicle LapTime])

/-- `HandleVehicleCheckpoint` in `float` arithmetic: the lap time is the one of
`GetCurrentLapTimeRounded`, and the clock reading is rounded by `Round` when it is stored
as a lap start. -/
def HandleVehicleCheckpointRounded (Round : ℚ → ℚ) (m : ARaceTrackManager) (TimeSeconds : ℚ)
    (Vehicle : VehiclePtr) (CheckpointIndex : Int) :
    Option (ARaceTrackManager × List TrackEvent) :=
  let m1 := m.InitVehicleTracking (Round TimeSeconds) Vehicle
  match m1.VehicleCheckpoints Vehicle with
  | none => none
  | some ExpectedCheckpoint =>
    if CheckpointIndex = ExpectedCheckpoint then
      match modInt32 (wrapInt32 (CheckpointIndex + 1)) m1.TotalCheckpoints with
      | none => none
      | some Next =>
        let m2 := { m1 with VehicleCheckpoints := m1.VehicleCheckpoints.Add Vehicle Next }
        if m2.IsLapComplete Vehicle CheckpointIndex then
          match m2.CompleteLapRounded Round TimeSeconds Vehicle with
          | none => none
          | some (m3, Events) =>
            some (m3, TrackEvent.CheckpointPassed Vehicle CheckpointIndex :: Events)
        else some (m2, [TrackEvent.CheckpointPassed Vehicle CheckpointIndex])
    else some (m1, [])

/-- A sequence of contacts handled by `HandleVehicleCheckpointRounded`. -/
def HandleContactsRounded (Round : ℚ → ℚ) (m : ARaceTrackManager) : List Contact →
    Option (ARaceTrackManager × List TrackEvent)
  | [] => some (m, [])
  | c :: rest =>
    match m.HandleVehicleCheckpointRounded Round c.TimeSeconds c.Vehicle c.CheckpointIndex with
    | none => none
    | some (m1, Events) =>
      match HandleContactsRounded Round m1 rest with
      | none => none
      | some (m2, Events2) => some (m2, Events ++ Events2)

/-- Two states of a manager that agree on the checkpoint count, on the expected
checkpoints, on the lap starts and on which vehicles have a best lap. -/
def SameProgress (a b : ARaceTrackManager) : Prop :=
  a.TotalCheckpoints = b.TotalCheckpoints ∧ a.VehicleCheckpoints = b.VehicleCheckpoints ∧
    a.VehicleLapStartTimes = b.VehicleLapStartTimes ∧
    ∀ v, (a.VehicleBestLaps v).isSome = (b.VehicleBestLaps v).isSome

end ARaceTrackManager

/-- An event with its lap time rounded. -/
def roundLapEvent (Round : ℚ → ℚ) : TrackEvent → TrackEvent
  | TrackEvent.CheckpointPassed v i => TrackEvent.CheckpointPassed v i
  | TrackEvent.LapCompleted v t => TrackEvent.LapCompleted v (Round t)

/-- Contacts of vehicle 7 on a two-checkpoint loop, the clock reading 0.1f, 100, 150 and
200: two laps, completed at 100 and at 200. -/
def floatContacts : List ARaceTrackManager.Contact :=
  [⟨roundF32 (1 / 10), some 7, 0⟩, ⟨100, some 7, 1⟩, ⟨150, some 7, 0⟩, ⟨200, some 7, 1⟩]

namespace AAIRacingController

/-- The mistake block of `UpdateRacingInputs` (lines 147-164) in `float` arithmetic: as
`UpdateMistake`, with the sum, the product and the difference rounded by `Round`. -/
def UpdateMistakeRounded (Round : ℚ → ℚ) (c : AAIRacingController) (DeltaTime : ℚ)
    (W : TickWorld) : AAIRacingController :=
  let c1 := { c with TimeSinceMistake := Round (c.TimeSinceMistake + DeltaTime) }
  let c2 :=
    if !c1.bCurrentlyMakingMistake &&
        decide (W.FRand < Round (c1.MistakeChance * DeltaTime)) then
      c1.SimulateMistake W
    else c1
  if c2.bCurrentlyMakingMistake then
    let c3 := { c2 with MistakeDuration := Round (c2.MistakeDuration - DeltaTime) }
    if c3.MistakeDuration ≤ 0 then
      { c3 with
        bCurrentlyMakingMistake := false
        MistakeOffset := FVector.ZeroVector
        RacingData := { c3.RacingData with CurrentState := EAIRacingState.FollowingRaceline } }
    else c3
  else c2

/-- The mistake block over the ticks of a controller with a vehicle and waypoints; it is
the only step of a tick that reads or writes the mistake flag and countdown. -/
def RunMistakeRounded (Round : ℚ → ℚ) (c : AAIRacingController) :
    List (ℚ × TickWorld) → AAIRacingController
  | [] => c
  | (DeltaTime, W) :: rest =>
    RunMistakeRounded Round (c.UpdateMistakeRounded Round DeltaTime W) rest

/-- Two controllers that agree on the mistake flag, countdown and chance: what the mistake
block reads of a controller to decide the flag and the countdown. -/
def SameMistake (a b : AAIRacingController) : Prop :=
  a.bCurrentlyMakingMistake = b.bCurrentlyMakingMistake ∧
    a.MistakeDuration = b.MistakeDuration ∧ a.MistakeChance = b.MistakeChance

end AAIRacingController

/-- A tick of `dt` seconds, rounded to `float`, that starts a mistake of `D` seconds,
followed by `n` more such ticks that draw no new mistake. -/
def floatTicks (dt D : ℚ) (n : Nat) : List (ℚ × TickWorld) :=
  (roundF32 dt, { stillWorld with FRand := 0, RandMistakeDuration := D })
    :: List.replicate n (roundF32 dt, stillWorld)

/-! ## Lemmas on the integer helpers -/

theorem wrapInt32_of_inRange (x : Int) (h0 : -2147483648 ≤ x) (h1 : x < 2147483648) :
    wrapInt32 x = x := by
  unfold wrapInt32
  omega

theorem modInt32_succ_of_nonneg (k n : Int) (hk0 : 0 ≤ k) (hk1 : k < 2147483647)
    (hn : 1 ≤ n) : modInt32 (wrapInt32 (k + 1)) n = some ((k + 1) % n) := by
  rw [wrapInt32_of_inRange _ (by omega) (by omega)]
  unfold modInt32
  rw [if_neg (by omega), Int.tmod_eq_emod (by omega) (by omega)]

theorem modInt32_isSome_of_pos (a n : Int) (hn : 1 ≤ n) : ∃ r, modInt32 a n = some r := by
  unfold modInt32
  rw [if_neg (by omega)]
  exact ⟨_, rfl⟩

/-! ## Lemmas on `HandleVehicleCheckpoint` -/

namespace ARaceTrackManager

theorem InitVehicleTracking_of_key (m : ARaceTrackManager) (t : ℚ) (v : VehiclePtr) (e : Int)
    (h : m.VehicleCheckpoints v = some e) : m.InitVehicleTracking t v = m := by
  simp [InitVehicleTracking, TMap.Contains, h]

theorem InitVehicleTracking_of_no_key (m : ARaceTrackManager) (t : ℚ) (v : VehiclePtr)
    (h : m.VehicleCheckpoints v = none) :
    m.InitVehicleTracking t v =
      { m with
        VehicleCheckpoints := m.VehicleCheckpoints.Add v 0
        VehicleLapStartTimes := m.VehicleLapStartTimes.Add v t
        VehicleBestLaps := m.VehicleBestLaps.Add v FLT_MAX } := by
  simp [InitVehicleTracking, TMap.Contains, h]

theorem InitVehicleTracking_key (m : ARaceTrackManager) (t : ℚ) (v : VehiclePtr) :
    (m.InitVehicleTracking t v).VehicleCheckpoints v =
      some (m.GetVehicleCheckpointIndex v) := by
  cases h : m.VehicleCheckpoints v with
  | none =>
    rw [InitVehicleTracking_of_no_key m t v h]
    simp [TMap.Add, GetVehicleCheckpointIndex, h]
  | some e =>
    rw [InitVehicleTracking_of_key m t v e h]
    simp [GetVehicleCheckpointIndex, h]

theorem InitVehicleTracking_TotalCheckpoints (m : ARaceTrackManager) (t : ℚ) (v : VehiclePtr) :
    (m.InitVehicleTracking t v).TotalCheckpoints = m.TotalCheckpoints := by
  unfold InitVehicleTracking
  split <;> rfl

theorem InitVehicleTracking_idem (m : ARaceTrackManager) (t : ℚ) (v : VehiclePtr) :
    (m.InitVehicleTracking t v).InitVehicleTracking t v = m.InitVehicleTracking t v :=
  InitVehicleTracking_of_key _ t v _ (InitVehicleTracking_key m t v)

/-- The record is created before the contact is matched: handling a contact is handling
it in the state with the record created. -/
theorem HandleVehicleCheckpoint_init (m : ARaceTrackManager) (t : ℚ) (v : VehiclePtr)
    (k : Int) :
    m.HandleVehicleCheckpoint t v k = (m.InitVehicleTracking t v).HandleVehicleCheckpoint t v k := by
  simp only [HandleVehicleCheckpoint, InitVehicleTracking_idem]

theorem HandleVehicleCheckpoint_mismatch (m : ARaceTrackManager) (t : ℚ) (v : VehiclePtr)
    (k e : Int) (h : m.VehicleCheckpoints v = some e) (hne : k ≠ e) :
    m.HandleVehicleCheckpoint t v k = some (m, []) := by
  simp [HandleVehicleCheckpoint, InitVehicleTracking_of_key m t v e h, h, hne]

theorem HandleVehicleCheckpoint_pass (m : ARaceTrackManager) (t : ℚ) (v : VehiclePtr)
    (k nx : Int) (h : m.VehicleCheckpoints v = some k)
    (hnx : modInt32 (wrapInt32 (k + 1)) m.TotalCheckpoints = some nx)
    (hlap : k ≠ wrapInt32 (m.TotalCheckpoints - 1)) :
    m.HandleVehicleCheckpoint t v k =
      some ({ m with VehicleCheckpoints := m.VehicleCheckpoints.Add v nx },
        [TrackEvent.CheckpointPassed v k]) := by
  simp [HandleVehicleCheckpoint, InitVehicleTracking_of_key m t v k h, h, hnx, IsLapComplete,
    hlap]

theorem HandleVehicleCheckpoint_lap (m : ARaceTrackManager) (t : ℚ) (v : VehiclePtr)
    (k nx : Int) (s b : ℚ) (h : m.VehicleCheckpoints v = some k)
    (hnx : modInt32 (wrapInt32 (k + 1)) m.TotalCheckpoints = some nx)
    (hlap : k = wrapInt32 (m.TotalCheckpoints - 1))
    (hs : m.VehicleLapStartTimes v = some s) (hb : m.VehicleBestLaps v = some b) :
    m.HandleVehicleCheckpoint t v k =
      some ({ m with
              VehicleCheckpoints := m.VehicleCheckpoints.Add v nx
              VehicleBestLaps :=
                if t - s < b then m.VehicleBestLaps.Add v (t - s) else m.VehicleBestLaps
              VehicleLapStartTimes := m.VehicleLapStartTimes.Add v t },
        [TrackEvent.CheckpointPassed v k, TrackEvent.LapCompleted v (t - s)]) := by
  simp only [HandleVehicleCheckpoint, InitVehicleTracking_of_key m t v k h, h, hnx,
    IsLapComplete, CompleteLap, GetCurrentLapTime, hs, hb, if_true]
  rw [← hlap]
  by_cases hlt : t - s < b <;> simp [hlt, hs]

theorem InitVehicleTracking_tracked (m : ARaceTrackManager) (t : ℚ) (v : VehiclePtr)
    (hcons : m.RecordsConsistent) : (m.InitVehicleTracking t v).Tracked v := by
  cases h : m.VehicleCheckpoints v with
  | none =>
    rw [InitVehicleTracking_of_no_key m t v h]
    simp [Tracked, TMap.Add]
  | some e =>
    rw [InitVehicleTracking_of_key m t v e h]
    exact hcons v (by simp [h])

theorem HandleContacts_cons_init (m : ARaceTrackManager) (c : Contact) (rest : List Contact) :
    m.HandleContacts (c :: rest) =
      (m.InitVehicleTracking c.TimeSeconds c.Vehicle).HandleContacts (c :: rest) := by
  simp only [HandleContacts]
  rw [HandleVehicleCheckpoint_init]

/-- A tracked vehicle expecting checkpoint `j` that contacts `j, j+1, ..., n-1` in order
passes each of them and completes one lap, at the last contact. -/
theorem HandleContacts_ordered (v : VehiclePtr) (time : Nat → ℚ) (n : Nat)
    (hn31 : (n : Int) < 2147483648) :
    ∀ (d j : Nat) (m : ARaceTrackManager) (s b : ℚ), j + d = n → 1 ≤ d →
      m.TotalCheckpoints = (n : Int) → m.VehicleCheckpoints v = some (j : Int) →
      m.VehicleLapStartTimes v = some s → m.VehicleBestLaps v = some b →
      ∃ m', m.HandleContacts (orderedContacts time v j d) =
          some (m', (List.range' j d).map (fun (i : Nat) => TrackEvent.CheckpointPassed v (i : Int))
            ++ [TrackEvent.LapCompleted v (time (n - 1) - s)]) ∧
        m'.VehicleCheckpoints v = some 0 ∧ m'.TotalCheckpoints = (n : Int) ∧
        m'.VehicleLapStartTimes v = some (time (n - 1)) ∧
        m'.VehicleBestLaps v = some (min b (time (n - 1) - s)) := by
  intro d
  induction d with
  | zero => intro j m s b _ h; omega
  | succ d ih =>
    intro j m s b hjd _ hT hexp hs hb
    have hnx := modInt32_succ_of_nonneg (j : Int) m.TotalCheckpoints (by omega) (by omega)
      (by omega)
    have hwrap : wrapInt32 (m.TotalCheckpoints - 1) = m.TotalCheckpoints - 1 :=
      wrapInt32_of_inRange _ (by omega) (by omega)
    by_cases hd : d = 0
    · subst hd
      have hlap : (j : Int) = wrapInt32 (m.TotalCheckpoints - 1) := by rw [hwrap]; omega
      have hj : j = n - 1 := by omega
      have hzero : ((j : Int) + 1) % m.TotalCheckpoints = 0 := by
        rw [hT]
        have : ((j : Int) + 1) = (n : Int) := by omega
        rw [this]; exact Int.emod_self
      have hrun : m.HandleContacts (orderedContacts time v j (0 + 1)) =
          some ({ m with
                  VehicleCheckpoints :=
                    m.VehicleCheckpoints.Add v (((j : Int) + 1) % m.TotalCheckpoints)
                  VehicleBestLaps :=
                    if time j - s < b then m.VehicleBestLaps.Add v (time j - s)
                    else m.VehicleBestLaps
                  VehicleLapStartTimes := m.VehicleLapStartTimes.Add v (time j) },
            [TrackEvent.CheckpointPassed v (j : Int), TrackEvent.LapCompleted v (time j - s)]) := by
        simp only [orderedContacts, List.range'_one, List.map_cons, List.map_nil,
          HandleContacts, HandleVehicleCheckpoint_lap m (time j) v (j : Int) _ s b hexp hnx hlap
            hs hb, List.append_nil]
      rw [hrun]
      refine ⟨_, congrArg some (Prod.ext rfl ?_), ?_, hT, ?_, ?_⟩
      · rw [← hj]
        simp
      · simp [TMap.Add, hzero]
      · simp [TMap.Add, hj]
      · rw [← hj]
        by_cases hlt : time j - s < b
        · simp [TMap.Add, hlt, min_eq_right (le_of_lt hlt)]
        · simp [hlt, hb, min_eq_left (not_lt.mp hlt)]
    · have hlap : (j : Int) ≠ wrapInt32 (m.TotalCheckpoints - 1) := by rw [hwrap]; omega
      have hstep : ((j : Int) + 1) % m.TotalCheckpoints = ((j + 1 : Nat) : Int) := by
        rw [hT]
        rw [Int.emod_eq_of_lt (by omega) (by omega)]
        push_cast; rfl
      rw [hstep] at hnx
      obtain ⟨m', hrun, hfin⟩ := ih (j + 1)
        { m with VehicleCheckpoints := m.VehicleCheckpoints.Add v ((j + 1 : Nat) : Int) } s b
        (by omega) (by omega) hT (by simp [TMap.Add]) hs hb
      refine ⟨m', ?_, hfin⟩
      have hcons : orderedContacts time v j (d + 1) =
          ⟨time j, v, (j : Int)⟩ :: orderedContacts time v (j + 1) d := by
        simp [orderedContacts, List.range'_succ]
      rw [hcons]
      simp only [HandleContacts, HandleVehicleCheckpoint_pass m (time j) v (j : Int) _ hexp hnx
        hlap, hrun]
      simp [List.range'_succ]

theorem checkpointPassedEvents_append (a b : List TrackEvent) :
    checkpointPassedEvents (a ++ b) = checkpointPassedEvents a ++ checkpointPassedEvents b := by
  induction a with
  | nil => rfl
  | cons e rest ih => cases e <;> simp [checkpointPassedEvents, ih]

theorem lapCompletedEvents_append (a b : List TrackEvent) :
    lapCompletedEvents (a ++ b) = lapCompletedEvents a ++ lapCompletedEvents b := by
  induction a with
  | nil => rfl
  | cons e rest ih => cases e <;> simp [lapCompletedEvents, ih]

theorem checkpointPassedEvents_map (v : VehiclePtr) (l : List Nat) :
    checkpointPassedEvents (l.map (fun (i : Nat) => TrackEvent.CheckpointPassed v (i : Int))) =
      l.map (fun (i : Nat) => (v, (i : Int))) := by
  induction l with
  | nil => rfl
  | cons i rest ih => simp [checkpointPassedEvents, ih]

theorem lapCompletedEvents_map (v : VehiclePtr) (l : List Nat) :
    lapCompletedEvents (l.map (fun (i : Nat) => TrackEvent.CheckpointPassed v (i : Int))) = [] := by
  induction l with
  | nil => rfl
  | cons i rest ih => simp [lapCompletedEvents, ih]

/-- The three ways a contact of a vehicle with a record can end: dropped, checkpoint
passed, checkpoint passed and lap completed. -/
theorem HandleVehicleCheckpoint_cases (m m' : ARaceTrackManager) (t : ℚ) (u : VehiclePtr)
    (k e : Int) (evs : List TrackEvent) (hkey : m.VehicleCheckpoints u = some e)
    (h : m.HandleVehicleCheckpoint t u k = some (m', evs)) :
    (k ≠ e ∧ m' = m ∧ evs = []) ∨
    (k = e ∧ ∃ nx, m' = { m with VehicleCheckpoints := m.VehicleCheckpoints.Add u nx } ∧
      evs = [TrackEvent.CheckpointPassed u k]) ∨
    (k = e ∧ ∃ nx s b, m.VehicleLapStartTimes u = some s ∧ m.VehicleBestLaps u = some b ∧
      m' = { m with
             VehicleCheckpoints := m.VehicleCheckpoints.Add u nx
             VehicleBestLaps :=
               if t - s < b then m.VehicleBestLaps.Add u (t - s) else m.VehicleBestLaps
             VehicleLapStartTimes := m.VehicleLapStartTimes.Add u t } ∧
      evs = [TrackEvent.CheckpointPassed u k, TrackEvent.LapCompleted u (t - s)]) := by
  by_cases hk : k = e
  · subst hk
    cases hnx : modInt32 (wrapInt32 (k + 1)) m.TotalCheckpoints with
    | none =>
      simp [HandleVehicleCheckpoint, InitVehicleTracking_of_key m t u k hkey, hkey, hnx] at h
    | some nx =>
      by_cases hlap : k = wrapInt32 (m.TotalCheckpoints - 1)
      · cases hs : m.VehicleLapStartTimes u with
        | none =>
          exfalso
          simp only [HandleVehicleCheckpoint, InitVehicleTracking_of_key m t u k hkey, hkey, hnx,
            IsLapComplete, CompleteLap, GetCurrentLapTime, hs] at h
          revert h
          cases hb : m.VehicleBestLaps u with
          | none =>
            simp
            intro hn
            exact absurd hlap hn
          | some b =>
            by_cases hlt : (0 : ℚ) < b <;> simp [hlt, hs] <;> (intro hn; exact absurd hlap hn)
        | some s =>
          cases hb : m.VehicleBestLaps u with
          | none =>
            simp [HandleVehicleCheckpoint, InitVehicleTracking_of_key m t u k hkey, hkey, hnx,
              IsLapComplete, CompleteLap, hb] at h
            exact absurd hlap h.1
          | some b =>
            rw [HandleVehicleCheckpoint_lap m t u k nx s b hkey hnx hlap hs hb] at h
            simp only [Option.some.injEq, Prod.mk.injEq] at h
            exact Or.inr (Or.inr ⟨rfl, nx, s, b, rfl, rfl, h.1.symm, h.2.symm⟩)
      · rw [HandleVehicleCheckpoint_pass m t u k nx hkey hnx hlap] at h
        simp only [Option.some.injEq, Prod.mk.injEq] at h
        exact Or.inr (Or.inl ⟨rfl, nx, h.1.symm, h.2.symm⟩)
  · rw [HandleVehicleCheckpoint_mismatch m t u k e hkey hk] at h
    simp only [Option.some.injEq, Prod.mk.injEq] at h
    exact Or.inl ⟨hk, h.1.symm, h.2.symm⟩

theorem HandleContacts_append (m : ARaceTrackManager) (a b : List Contact) :
    m.HandleContacts (a ++ b) =
      match m.HandleContacts a with
      | none => none
      | some (m1, e1) =>
        match m1.HandleContacts b with
        | none => none
        | some (m2, e2) => some (m2, e1 ++ e2) := by
  induction a generalizing m with
  | nil =>
    simp only [List.nil_append, HandleContacts]
    cases h : m.HandleContacts b with
    | none => rfl
    | some r => simp
  | cons c rest ih =>
    rw [List.cons_append]
    simp only [HandleContacts]
    cases h : m.HandleVehicleCheckpoint c.TimeSeconds c.Vehicle c.CheckpointIndex with
    | none => rfl
    | some r =>
      obtain ⟨m1, e1⟩ := r
      simp only
      rw [ih m1]
      cases h1 : m1.HandleContacts rest with
      | none => rfl
      | some r1 =>
        obtain ⟨m2, e2⟩ := r1
        simp only
        cases h2 : m2.HandleContacts b with
        | none => rfl
        | some r2 => simp

theorem lapTimes_append (v : VehiclePtr) (a b : List TrackEvent) :
    lapTimes v (a ++ b) = lapTimes v a ++ lapTimes v b := by
  induction a with
  | nil => rfl
  | cons e rest ih =>
    cases e with
    | CheckpointPassed u i => simp [lapTimes, ih]
    | LapCompleted u t => by_cases h : u = v <;> simp [lapTimes, ih, h]

theorem bestOrInit_InitVehicleTracking (m : ARaceTrackManager) (t : ℚ) (u v : VehiclePtr)
    (hinv : m.VehicleCheckpoints v = none → m.VehicleBestLaps v = none) :
    bestOrInit (m.InitVehicleTracking t u) v = bestOrInit m v ∧
      ((m.InitVehicleTracking t u).VehicleCheckpoints v = none →
        (m.InitVehicleTracking t u).VehicleBestLaps v = none) ∧
      (m.VehicleBestLaps v ≠ none → (m.InitVehicleTracking t u).VehicleBestLaps v ≠ none) := by
  cases h : m.VehicleCheckpoints u with
  | some e =>
    rw [InitVehicleTracking_of_key m t u e h]
    exact ⟨rfl, hinv, id⟩
  | none =>
    rw [InitVehicleTracking_of_no_key m t u h]
    by_cases huv : v = u
    · subst huv
      simp [bestOrInit, TMap.Add, hinv h]
    · refine ⟨by simp [bestOrInit, TMap.Add, huv], ?_, ?_⟩
      · intro hv
        simp only [TMap.Add, if_neg huv] at hv ⊢
        exact hinv hv
      · intro hv
        simp only [TMap.Add, if_neg huv]
        exact hv

/-- Effect of one contact (of any vehicle `u`) on the best lap of vehicle `v`. -/
theorem bestOrInit_HandleVehicleCheckpoint (m m' : ARaceTrackManager) (t : ℚ)
    (u v : VehiclePtr) (k : Int) (evs : List TrackEvent)
    (hinv : m.VehicleCheckpoints v = none → m.VehicleBestLaps v = none)
    (h : m.HandleVehicleCheckpoint t u k = some (m', evs)) :
    bestOrInit m' v = (lapTimes v evs).foldl min (bestOrInit m v) ∧
      (m'.VehicleCheckpoints v = none → m'.VehicleBestLaps v = none) ∧
      (m.VehicleBestLaps v ≠ none → m'.VehicleBestLaps v ≠ none) ∧
      (lapTimes v evs ≠ [] → m'.VehicleBestLaps v ≠ none) := by
  rw [HandleVehicleCheckpoint_init] at h
  obtain ⟨hbest, hinv1, hkeep⟩ := bestOrInit_InitVehicleTracking m t u v hinv
  rcases HandleVehicleCheckpoint_cases _ m' t u k _ evs (InitVehicleTracking_key m t u) h with
    ⟨_, rfl, rfl⟩ | ⟨_, nx, rfl, rfl⟩ | ⟨_, nx, s, b, hs, hb, rfl, rfl⟩
  · exact ⟨by simp [lapTimes, hbest], hinv1, hkeep, by simp [lapTimes]⟩
  · refine ⟨by simpa [lapTimes, bestOrInit] using hbest, ?_, hkeep, by simp [lapTimes]⟩
    intro hv
    by_cases huv : v = u
    · subst huv; simp [TMap.Add] at hv
    · simp only [TMap.Add, if_neg huv] at hv
      exact hinv1 hv
  · by_cases huv : v = u
    · subst huv
      have hb0 : bestOrInit m v = b := by rw [← hbest]; simp [bestOrInit, hb]
      have hL : lapTimes v [TrackEvent.CheckpointPassed v k, TrackEvent.LapCompleted v (t - s)]
          = [t - s] := by simp [lapTimes]
      have hsome : (if t - s < b then
          (m.InitVehicleTracking t v).VehicleBestLaps.Add v (t - s)
          else (m.InitVehicleTracking t v).VehicleBestLaps) v = some (min b (t - s)) := by
        by_cases hlt : t - s < b
        · simp [hlt, TMap.Add, min_eq_right (le_of_lt hlt)]
        · simp [hlt, hb, min_eq_left (not_lt.mp hlt)]
      refine ⟨?_, ?_, ?_, ?_⟩
      · rw [hL]
        simp only [bestOrInit, hsome, List.foldl_cons, List.foldl_nil, Option.getD_some]
        rw [← hb0]
        rfl
      · intro hv
        simp [TMap.Add] at hv
      · intro _
        simp only [hsome]
        exact Option.some_ne_none _
      · intro _
        simp only [hsome]
        exact Option.some_ne_none _
    · have hne : ¬ u = v := fun h => huv h.symm
      have hsame : (if t - s < b then
          (m.InitVehicleTracking t u).VehicleBestLaps.Add u (t - s)
          else (m.InitVehicleTracking t u).VehicleBestLaps) v =
          (m.InitVehicleTracking t u).VehicleBestLaps v := by
        by_cases hlt : t - s < b <;> simp [hlt, TMap.Add, huv]
      refine ⟨?_, ?_, ?_, by simp [lapTimes, hne]⟩
      · simp only [bestOrInit, hsame, lapTimes, if_neg hne, List.foldl_nil]
        exact hbest
      · intro hv
        simp only [TMap.Add, if_neg huv] at hv
        simp only [hsame]
        exact hinv1 hv
      · intro hv
        simp only [hsame]
        exact hkeep hv

/-- Effect of a sequence of contacts on the best lap of vehicle `v`. -/
theorem bestOrInit_HandleContacts (v : VehiclePtr) (cs : List Contact) :
    ∀ (m m' : ARaceTrackManager) (evs : List TrackEvent),
      (m.VehicleCheckpoints v = none → m.VehicleBestLaps v = none) →
      m.HandleContacts cs = some (m', evs) →
      bestOrInit m' v = (lapTimes v evs).foldl min (bestOrInit m v) ∧
        (m'.VehicleCheckpoints v = none → m'.VehicleBestLaps v = none) ∧
        (m.VehicleBestLaps v ≠ none → m'.VehicleBestLaps v ≠ none) ∧
        (lapTimes v evs ≠ [] → m'.VehicleBestLaps v ≠ none) := by
  induction cs with
  | nil =>
    intro m m' evs hinv h
    simp only [HandleContacts, Option.some.injEq, Prod.mk.injEq] at h
    obtain ⟨rfl, rfl⟩ := h
    exact ⟨by simp [lapTimes], hinv, id, by simp [lapTimes]⟩
  | cons c rest ih =>
    intro m m' evs hinv h
    simp only [HandleContacts] at h
    cases h1 : m.HandleVehicleCheckpoint c.TimeSeconds c.Vehicle c.CheckpointIndex with
    | none => simp [h1] at h
    | some r1 =>
      obtain ⟨m1, e1⟩ := r1
      simp only [h1] at h
      cases h2 : m1.HandleContacts rest with
      | none => simp [h2] at h
      | some r2 =>
        obtain ⟨m2, e2⟩ := r2
        simp only [h2, Option.some.injEq, Prod.mk.injEq] at h
        obtain ⟨rfl, rfl⟩ := h
        obtain ⟨ha, hb, hc, hd⟩ := bestOrInit_HandleVehicleCheckpoint m m1 _ _ v _ e1 hinv h1
        obtain ⟨ha2, hb2, hc2, hd2⟩ := ih m1 m2 e2 hb h2
        refine ⟨?_, hb2, fun hv => hc2 (hc hv), ?_⟩
        · rw [lapTimes_append, List.foldl_append, ← ha, ha2]
        · intro hne
          by_cases he1 : lapTimes v e1 = []
          · rw [lapTimes_append, he1, List.nil_append] at hne
            exact hd2 hne
          · exact hc2 (hd he1)

theorem foldl_min_le (ls : List ℚ) : ∀ a : ℚ,
    ls.foldl min a ≤ a ∧ (∀ l ∈ ls, ls.foldl min a ≤ l) ∧
      (ls.foldl min a = a ∨ ls.foldl min a ∈ ls) := by
  induction ls with
  | nil => intro a; simp
  | cons x rest ih =>
    intro a
    obtain ⟨h1, h2, h3⟩ := ih (min a x)
    simp only [List.foldl_cons, List.mem_cons]
    refine ⟨le_trans h1 (min_le_left a x), ?_, ?_⟩
    · intro l hl
      rcases hl with rfl | hl
      · exact le_trans h1 (min_le_right a l)
      · exact h2 l hl
    · rcases h3 with h3 | h3
      · rcases min_choice a x with hm | hm
        · left; rw [h3, hm]
        · right; left; rw [h3, hm]
      · right; right; exact h3

/-- An untracked vehicle that contacts `0, 1, ..., n-1` in order: the first contact creates
its record, and the run is the one of `HandleContacts_ordered`. -/
theorem HandleContacts_ordered_untracked (m : ARaceTrackManager) (v : VehiclePtr) (n : Nat)
    (time : Nat → ℚ) (hn : 1 ≤ n) (hn31 : (n : Int) < 2147483648)
    (hcount : m.TotalCheckpoints = (n : Int)) (hun : m.VehicleCheckpoints v = none) :
    ∃ m', m.HandleContacts (orderedContacts time v 0 n) =
        some (m', (List.range' 0 n).map (fun (i : Nat) => TrackEvent.CheckpointPassed v (i : Int))
          ++ [TrackEvent.LapCompleted v (time (n - 1) - time 0)]) ∧
      m'.VehicleCheckpoints v = some 0 ∧ m'.TotalCheckpoints = (n : Int) ∧
      m'.VehicleLapStartTimes v = some (time (n - 1)) ∧
      m'.VehicleBestLaps v = some (min FLT_MAX (time (n - 1) - time 0)) := by
  obtain ⟨d, rfl⟩ : ∃ d, n = d + 1 := ⟨n - 1, by omega⟩
  have hcons : orderedContacts time v 0 (d + 1) =
      ⟨time 0, v, ((0 : Nat) : Int)⟩ :: orderedContacts time v 1 d := by
    simp [orderedContacts, List.range'_succ]
  have hinit := InitVehicleTracking_of_no_key m (time 0) v hun
  obtain ⟨m', hrun, hfin⟩ := HandleContacts_ordered v time (d + 1) hn31 (d + 1) 0
    (m.InitVehicleTracking (time 0) v) (time 0) FLT_MAX (by omega) (by omega)
    (by rw [InitVehicleTracking_TotalCheckpoints]; exact hcount)
    (by rw [hinit]; simp [TMap.Add]) (by rw [hinit]; simp [TMap.Add])
    (by rw [hinit]; simp [TMap.Add])
  rw [hcons] at hrun ⊢
  rw [HandleContacts_cons_init]
  exact ⟨m', hrun, hfin⟩

theorem lapTimes_map_passed (v : VehiclePtr) (l : List Nat) :
    lapTimes v (l.map (fun (i : Nat) => TrackEvent.CheckpointPassed v (i : Int))) = [] := by
  induction l with
  | nil => rfl
  | cons i rest ih => simpa [lapTimes] using ih

theorem GetBestLapTime_eq_bestOrInit (m : ARaceTrackManager) (v : VehiclePtr)
    (h : m.VehicleBestLaps v ≠ none) : m.GetBestLapTime v = bestOrInit m v := by
  obtain ⟨b, hb⟩ := Option.ne_none_iff_exists'.mp h
  simp [GetBestLapTime, bestOrInit, hb]

/-- The run of `threeLapContacts` on a fresh two-checkpoint loop. -/
theorem threeLapContacts_run :
    ∃ m' evs, (trackOf 2 FVector.ZeroVector).HandleContacts threeLapContacts = some (m', evs) ∧
      lapTimes (some 7) evs = [62, 58, 60] := by
  obtain ⟨m1, h1, hv1, hT1, hs1, hb1⟩ := HandleContacts_ordered_untracked
    (trackOf 2 FVector.ZeroVector) (some 7) 2 (fun i => 62 * (i : ℚ)) (by decide) (by decide)
    (by simp [trackOf]) (by simp [trackOf, construct])
  obtain ⟨m2, h2, hv2, hT2, hs2, hb2⟩ := HandleContacts_ordered (some 7)
    (fun i => 70 + 50 * (i : ℚ)) 2 (by decide) 2 0 m1 _ _ (by decide) (by decide) hT1 hv1 hs1 hb1
  obtain ⟨m3, h3, _⟩ := HandleContacts_ordered (some 7)
    (fun i => 125 + 55 * (i : ℚ)) 2 (by decide) 2 0 m2 _ _ (by decide) (by decide) hT2 hv2 hs2 hb2
  simp only [threeLapContacts, HandleContacts_append, h1, h2, h3]
  refine ⟨_, _, rfl, ?_⟩
  simp only [lapTimes_append, lapTimes_map_passed, lapTimes, List.nil_append, if_true,
    List.cons_append]
  norm_num

end ARaceTrackManager

/-! ## Checkpoint graph: claims -/

open ARaceTrackManager

/-- C1: on a graph with at least one checkpoint, a contact of a tracked vehicle with the
checkpoint it expects sets its expected index to `(CheckpointIndex + 1) mod count` and
broadcasts exactly one checkpoint-passed event, carrying that vehicle and that index. -/
theorem C1_expected_contact_advances (m : ARaceTrackManager) (t : ℚ) (v : VehiclePtr)
    (k : Int) (hcount : 1 ≤ m.TotalCheckpoints) (htracked : m.Tracked v)
    (hexp : m.VehicleCheckpoints v = some k) (hk0 : 0 ≤ k) (hk1 : k < 2147483647) :
    ∃ m' evs, m.HandleVehicleCheckpoint t v k = some (m', evs) ∧
      m'.VehicleCheckpoints v = some ((k + 1) % m.TotalCheckpoints) ∧
      checkpointPassedEvents evs = [(v, k)] := by
  have hnx := modInt32_succ_of_nonneg k m.TotalCheckpoints hk0 hk1 hcount
  obtain ⟨_, hs, hb⟩ := htracked
  obtain ⟨s, hs⟩ := Option.ne_none_iff_exists'.mp hs
  obtain ⟨b, hb⟩ := Option.ne_none_iff_exists'.mp hb
  by_cases hlap : k = wrapInt32 (m.TotalCheckpoints - 1)
  · refine ⟨_, _, HandleVehicleCheckpoint_lap m t v k _ s b hexp hnx hlap hs hb, ?_, ?_⟩
    · simp [TMap.Add]
    · simp [checkpointPassedEvents]
  · refine ⟨_, _, HandleVehicleCheckpoint_pass m t v k _ hexp hnx hlap, ?_, ?_⟩
    · simp [TMap.Add]
    · simp [checkpointPassedEvents]

/-- Witness of C1: vehicle 7 on the four-checkpoint loop, expecting checkpoint 1. -/
theorem C1_expected_contact_advances_witness :
    ∃ m' evs, loopAfterContact0.HandleVehicleCheckpoint 10 (some 7) 1 = some (m', evs) ∧
      m'.VehicleCheckpoints (some 7) = some ((1 + 1) % loopAfterContact0.TotalCheckpoints) ∧
      checkpointPassedEvents evs = [(some 7, 1)] :=
  C1_expected_contact_advances loopAfterContact0 10 (some 7) 1
    (by simp [loopAfterContact0, trackOf])
    (by simp [Tracked, loopAfterContact0, TMap.Add])
    (by simp [loopAfterContact0, TMap.Add]) (by decide) (by decide)

/-- C2: on a graph with at least one checkpoint, a contact broadcasts a lap-completed event
if and only if the contacted index equals the vehicle's expected index (0 for a vehicle
whose record the contact creates) and equals `count - 1`; with two or more checkpoints a
contact with checkpoint 0 completes no lap. -/
theorem C2_lap_completed_iff_last_expected (m : ARaceTrackManager) (t : ℚ) (v : VehiclePtr)
    (k : Int) (hcount : 1 ≤ m.TotalCheckpoints) (hint : m.TotalCheckpoints < 2147483648)
    (hcons : m.RecordsConsistent) :
    ∃ m' evs, m.HandleVehicleCheckpoint t v k = some (m', evs) ∧
      (lapCompletedEvents evs ≠ [] ↔
        (k = m.GetVehicleCheckpointIndex v ∧ k = m.TotalCheckpoints - 1)) ∧
      (2 ≤ m.TotalCheckpoints → k = 0 → lapCompletedEvents evs = []) := by
  have hwrap : wrapInt32 (m.TotalCheckpoints - 1) = m.TotalCheckpoints - 1 :=
    wrapInt32_of_inRange _ (by omega) (by omega)
  have hkey := InitVehicleTracking_key m t v
  have hT := InitVehicleTracking_TotalCheckpoints m t v
  obtain ⟨_, hs, hb⟩ := InitVehicleTracking_tracked m t v hcons
  obtain ⟨s, hs⟩ := Option.ne_none_iff_exists'.mp hs
  obtain ⟨b, hb⟩ := Option.ne_none_iff_exists'.mp hb
  rw [HandleVehicleCheckpoint_init]
  by_cases hk : k = m.GetVehicleCheckpointIndex v
  · obtain ⟨nx, hnx⟩ := modInt32_isSome_of_pos (wrapInt32 (k + 1)) m.TotalCheckpoints hcount
    rw [← hk] at hkey
    rw [← hT] at hnx
    by_cases hlap : k = m.TotalCheckpoints - 1
    · refine ⟨_, _, HandleVehicleCheckpoint_lap _ t v k nx s b hkey hnx ?_ hs hb, ?_, ?_⟩
      · rw [hT, hwrap]; exact hlap
      · simp [lapCompletedEvents, hk.symm, hlap.symm]
      · intro h2 h0; omega
    · refine ⟨_, _, HandleVehicleCheckpoint_pass _ t v k nx hkey hnx ?_, ?_, ?_⟩
      · rw [hT, hwrap]; exact hlap
      · simp [lapCompletedEvents, hlap]
      · intro _ _; simp [lapCompletedEvents]
  · refine ⟨_, _, HandleVehicleCheckpoint_mismatch _ t v k _ hkey hk, ?_, ?_⟩
    · simp [lapCompletedEvents, hk]
    · intro _ _; simp [lapCompletedEvents]

/-- Witness of C2: vehicle 7 on the four-checkpoint loop, contacting checkpoint 3. -/
theorem C2_lap_completed_iff_last_expected_witness :
    ∃ m' evs, loopAfterContact0.HandleVehicleCheckpoint 10 (some 7) 3 = some (m', evs) ∧
      (lapCompletedEvents evs ≠ [] ↔
        ((3 : Int) = loopAfterContact0.GetVehicleCheckpointIndex (some 7) ∧
          (3 : Int) = loopAfterContact0.TotalCheckpoints - 1)) ∧
      (2 ≤ loopAfterContact0.TotalCheckpoints → (3 : Int) = 0 → lapCompletedEvents evs = []) :=
  C2_lap_completed_iff_last_expected loopAfterContact0 10 (some 7) 3
    (by simp [loopAfterContact0, trackOf]) (by simp [loopAfterContact0, trackOf])
    (by
      intro u hu
      by_cases h : u = some 7
      · subst h; simp [Tracked, loopAfterContact0, TMap.Add]
      · simp [loopAfterContact0, TMap.Add, h] at hu)

/-- C3: on a loop of `n ≥ 1` checkpoints, a previously untracked vehicle that contacts
checkpoints `0, 1, ..., n-1` in order gets `n` checkpoint-passed events and exactly one
lap-completed event, broadcast last, by the contact with index `n-1`, and its expected
index ends wrapped to 0. -/
theorem C3_ordered_contacts_one_lap (m : ARaceTrackManager) (v : VehiclePtr) (n : Nat)
    (time : Nat → ℚ) (hn : 1 ≤ n) (hn31 : (n : Int) < 2147483648)
    (hcount : m.TotalCheckpoints = (n : Int)) (hun : m.VehicleCheckpoints v = none) :
    ∃ m' evs, m.HandleContacts (orderedContacts time v 0 n) = some (m', evs) ∧
      evs = (List.range n).map (fun (i : Nat) => TrackEvent.CheckpointPassed v (i : Int))
        ++ [TrackEvent.LapCompleted v (time (n - 1) - time 0)] ∧
      checkpointPassedEvents evs = (List.range n).map (fun (i : Nat) => (v, (i : Int))) ∧
      (checkpointPassedEvents evs).length = n ∧
      lapCompletedEvents evs = [(v, time (n - 1) - time 0)] ∧
      m'.VehicleCheckpoints v = some 0 := by
  obtain ⟨m', hrun, hfin, _⟩ := HandleContacts_ordered_untracked m v n time hn hn31 hcount hun
  refine ⟨m', _, hrun, ?_, ?_, ?_, ?_, hfin⟩
  · rw [List.range_eq_range']
  · rw [checkpointPassedEvents_append, checkpointPassedEvents_map, List.range_eq_range']
    simp [checkpointPassedEvents]
  · rw [checkpointPassedEvents_append, checkpointPassedEvents_map]
    simp [checkpointPassedEvents]
  · rw [lapCompletedEvents_append, lapCompletedEvents_map]
    simp [lapCompletedEvents]

/-- Witness of C3: the four-checkpoint loop, contacts 0, 1, 2, 3 at times 0, 10, 20, 30. -/
theorem C3_ordered_contacts_one_lap_witness :
    ∃ m' evs, (trackOf 4 FVector.ZeroVector).HandleContacts
        (orderedContacts (fun i => 10 * (i : ℚ)) (some 7) 0 4) = some (m', evs) ∧
      evs = (List.range 4).map (fun (i : Nat) => TrackEvent.CheckpointPassed (some 7) (i : Int))
        ++ [TrackEvent.LapCompleted (some 7)
          ((fun i : Nat => 10 * (i : ℚ)) (4 - 1) - (fun i : Nat => 10 * (i : ℚ)) 0)] ∧
      checkpointPassedEvents evs = (List.range 4).map (fun (i : Nat) => (some 7, (i : Int))) ∧
      (checkpointPassedEvents evs).length = 4 ∧
      lapCompletedEvents evs =
        [(some 7, (fun i : Nat => 10 * (i : ℚ)) (4 - 1) - (fun i : Nat => 10 * (i : ℚ)) 0)] ∧
      m'.VehicleCheckpoints (some 7) = some 0 :=
  C3_ordered_contacts_one_lap (trackOf 4 FVector.ZeroVector) (some 7) 4
    (fun i => 10 * (i : ℚ)) (by decide) (by decide) (by simp [trackOf])
    (by simp [trackOf, construct])

/-- C4: a contact of an already tracked vehicle with a checkpoint other than the expected
one is dropped: no event is broadcast and the whole state, hence that vehicle's expected
index, lap start and best lap and every other vehicle's record, is unchanged. -/
theorem C4_unexpected_contact_dropped (m : ARaceTrackManager) (t : ℚ) (v : VehiclePtr)
    (k e : Int) (hexp : m.VehicleCheckpoints v = some e) (hne : k ≠ e) :
    m.HandleVehicleCheckpoint t v k = some (m, []) :=
  HandleVehicleCheckpoint_mismatch m t v k e hexp hne

/-- Witness of C4: after its contact with checkpoint 0, vehicle 7 contacts checkpoint 2. -/
theorem C4_unexpected_contact_dropped_witness :
    loopAfterContact0.VehicleCheckpoints (some 7) = some 1 ∧ (2 : Int) ≠ 1 ∧
      loopAfterContact0.HandleVehicleCheckpoint 10 (some 7) 2 = some (loopAfterContact0, []) :=
  ⟨by simp [loopAfterContact0, TMap.Add], by decide,
    C4_unexpected_contact_dropped loopAfterContact0 10 (some 7) 2 1
      (by simp [loopAfterContact0, TMap.Add]) (by decide)⟩

/-- C5: for a vehicle with no best-lap record at the start and any sequence of contacts in
which it completes at least one lap (lap times being finite floats, at most `FLT_MAX`), the
best lap stored at the end is the minimum of its lap times; and from any intermediate state
in which the vehicle is tracked to the end, the stored best lap does not increase. -/
theorem C5_best_lap_is_minimum (m m' : ARaceTrackManager) (v : VehiclePtr)
    (cs : List Contact) (evs : List TrackEvent)
    (hbl : m.VehicleBestLaps v = none)
    (hrun : m.HandleContacts cs = some (m', evs))
    (hne : lapTimes v evs ≠ []) (hfin : ∀ l ∈ lapTimes v evs, l ≤ FLT_MAX) :
    m'.GetBestLapTime v ∈ lapTimes v evs ∧
      (∀ l ∈ lapTimes v evs, m'.GetBestLapTime v ≤ l) ∧
      (∀ pre post m1 e1, cs = pre ++ post → m.HandleContacts pre = some (m1, e1) →
        m1.Tracked v → m'.GetBestLapTime v ≤ m1.GetBestLapTime v) := by
  obtain ⟨hbest, _, _, hsome⟩ := bestOrInit_HandleContacts v cs m m' evs (fun _ => hbl) hrun
  have hget := GetBestLapTime_eq_bestOrInit m' v (hsome hne)
  have hinit : bestOrInit m v = FLT_MAX := by simp [bestOrInit, hbl]
  obtain ⟨_, hle, hmem⟩ := foldl_min_le (lapTimes v evs) FLT_MAX
  rw [hinit] at hbest
  refine ⟨?_, ?_, ?_⟩
  · rw [hget, hbest]
    rcases hmem with hmem | hmem
    · obtain ⟨l, hl⟩ := List.exists_mem_of_ne_nil _ hne
      have h1 := hle l hl
      have h2 := hfin l hl
      rw [hmem] at h1
      have : l = FLT_MAX := le_antisymm h2 h1
      rw [hmem, ← this]
      exact hl
    · exact hmem
  · intro l hl
    rw [hget, hbest]
    exact hle l hl
  · intro pre post m1 e1 hcs hpre htr
    rw [hcs, HandleContacts_append, hpre] at hrun
    simp only at hrun
    cases hpost : m1.HandleContacts post with
    | none => simp [hpost] at hrun
    | some r =>
      obtain ⟨m2, e2⟩ := r
      simp only [hpost, Option.some.injEq, Prod.mk.injEq] at hrun
      obtain ⟨rfl, _⟩ := hrun
      obtain ⟨hb2, _, hkeep, _⟩ := bestOrInit_HandleContacts v post m1 m2 e2
        (fun h => absurd h htr.1) hpost
      rw [GetBestLapTime_eq_bestOrInit m2 v (hkeep htr.2.2),
        GetBestLapTime_eq_bestOrInit m1 v htr.2.2, hb2]
      exact (foldl_min_le (lapTimes v e2) (bestOrInit m1 v)).1

/-- Witness of C5: lap times 62, 58, 60 leave the best lap at 58. -/
theorem C5_best_lap_is_minimum_witness :
    ∃ m' evs, (trackOf 2 FVector.ZeroVector).HandleContacts threeLapContacts = some (m', evs) ∧
      lapTimes (some 7) evs = [62, 58, 60] ∧ m'.GetBestLapTime (some 7) = 58 := by
  obtain ⟨m', evs, hrun, hl⟩ := threeLapContacts_run
  have h := C5_best_lap_is_minimum (trackOf 2 FVector.ZeroVector) m' (some 7)
    threeLapContacts evs (by simp [trackOf, construct]) hrun
    (by rw [hl]; simp) (by rw [hl]; intro l hl'; simp at hl'; rcases hl' with rfl | rfl | rfl <;>
      norm_num [FLT_MAX])
  refine ⟨m', evs, hrun, hl, ?_⟩
  obtain ⟨hmem, hle, _⟩ := h
  rw [hl] at hmem hle
  have h58 := hle 58 (by simp)
  simp at hmem
  rcases hmem with h | h | h
  · rw [h] at h58; norm_num at h58
  · exact h
  · rw [h] at h58; norm_num at h58

/-- C6: the first contact of a vehicle with no record, with any checkpoint `k`, is handled
in the state in which its record has been created with expected index 0, lap start now and
best lap `FLT_MAX`; if `k ≠ 0` that state is the result and nothing is broadcast: the
vehicle is tracked, expects checkpoint 0, its lap timer reads 0 at that instant and
`GetBestLapTime` returns `FLT_MAX`. -/
theorem C6_first_contact_creates_record (m : ARaceTrackManager) (t : ℚ) (v : VehiclePtr)
    (k : Int) (hun : m.VehicleCheckpoints v = none) :
    (m.InitVehicleTracking t v).VehicleCheckpoints v = some 0 ∧
      (m.InitVehicleTracking t v).VehicleLapStartTimes v = some t ∧
      (m.InitVehicleTracking t v).VehicleBestLaps v = some FLT_MAX ∧
      m.HandleVehicleCheckpoint t v k =
        (m.InitVehicleTracking t v).HandleVehicleCheckpoint t v k ∧
      (k ≠ 0 →
        m.HandleVehicleCheckpoint t v k = some (m.InitVehicleTracking t v, []) ∧
        (m.InitVehicleTracking t v).Tracked v ∧
        (m.InitVehicleTracking t v).GetVehicleCheckpointIndex v = 0 ∧
        (m.InitVehicleTracking t v).GetCurrentLapTime t v = 0 ∧
        (m.InitVehicleTracking t v).GetBestLapTime v = FLT_MAX) := by
  have hinit := InitVehicleTracking_of_no_key m t v hun
  have h1 : (m.InitVehicleTracking t v).VehicleCheckpoints v = some 0 := by
    rw [hinit]; simp [TMap.Add]
  have h2 : (m.InitVehicleTracking t v).VehicleLapStartTimes v = some t := by
    rw [hinit]; simp [TMap.Add]
  have h3 : (m.InitVehicleTracking t v).VehicleBestLaps v = some FLT_MAX := by
    rw [hinit]; simp [TMap.Add]
  refine ⟨h1, h2, h3, HandleVehicleCheckpoint_init m t v k, ?_⟩
  intro hk
  refine ⟨?_, ?_, ?_, ?_, ?_⟩
  · rw [HandleVehicleCheckpoint_init]
    exact HandleVehicleCheckpoint_mismatch _ t v k 0 h1 hk
  · simp [Tracked, h1, h2, h3]
  · simp [GetVehicleCheckpointIndex, h1]
  · simp [GetCurrentLapTime, h2]
  · simp [GetBestLapTime, h3]

/-- Witness of C6: vehicle 7, untracked on the four-checkpoint loop, first contacts
checkpoint 2. -/
theorem C6_first_contact_creates_record_witness :
    (trackOf 4 FVector.ZeroVector).VehicleCheckpoints (some 7) = none ∧
      (trackOf 4 FVector.ZeroVector).HandleVehicleCheckpoint 5 (some 7) 2 =
        some ((trackOf 4 FVector.ZeroVector).InitVehicleTracking 5 (some 7), []) ∧
      ((trackOf 4 FVector.ZeroVector).InitVehicleTracking 5 (some 7)).GetBestLapTime (some 7)
        = FLT_MAX :=
  have h := C6_first_contact_creates_record (trackOf 4 FVector.ZeroVector) 5 (some 7) 2
    (by simp [trackOf, construct])
  ⟨by simp [trackOf, construct], (h.2.2.2.2 (by decide)).1, (h.2.2.2.2 (by decide)).2.2.2.2⟩

/-- C7 (as amended): for a vehicle with no record, `GetVehicleCheckpointIndex`,
`GetCurrentLapTime` and `GetBestLapTime` return 0; `GetVehicleDistanceToNextCheckpoint`
returns 0 for a null vehicle and, for a non-null one on a graph with `count ≥ 1`, the
distance from the vehicle to checkpoint `1 mod count` when that is a valid index of the
checkpoint list and 0 otherwise. The queries are functions of the state: they change
nothing. -/
theorem C7_untracked_queries (E : Engine) (m : ARaceTrackManager) (v : VehiclePtr)
    (now : ℚ) (loc : FVector) (hc : m.VehicleCheckpoints v = none)
    (hs : m.VehicleLapStartTimes v = none) (hb : m.VehicleBestLaps v = none) :
    m.GetVehicleCheckpointIndex v = 0 ∧ m.GetCurrentLapTime now v = 0 ∧
      m.GetBestLapTime v = 0 ∧
      (v = none → m.GetVehicleDistanceToNextCheckpoint E v loc = some 0) ∧
      (v ≠ none → 1 ≤ m.TotalCheckpoints →
        (m.IsValidIndex (1 % m.TotalCheckpoints) = false →
          m.GetVehicleDistanceToNextCheckpoint E v loc = some 0) ∧
        (∀ cp, m.IsValidIndex (1 % m.TotalCheckpoints) = true →
          m.Checkpoints.get? (1 % m.TotalCheckpoints).toNat = some cp →
          m.GetVehicleDistanceToNextCheckpoint E v loc =
            some (E.Dist loc (FVector.add m.ActorLocation cp.Location)))) := by
  have hidx : m.GetVehicleCheckpointIndex v = 0 := by simp [GetVehicleCheckpointIndex, hc]
  refine ⟨hidx, by simp [GetCurrentLapTime, hs], by simp [GetBestLapTime, hb], ?_, ?_⟩
  · intro hv
    simp [GetVehicleDistanceToNextCheckpoint, hv]
  · intro hv hcount
    have hmod := modInt32_succ_of_nonneg 0 m.TotalCheckpoints (le_refl 0) (by decide) hcount
    simp only [zero_add] at hmod
    constructor
    · intro hinv
      simp [GetVehicleDistanceToNextCheckpoint, hv, hidx, hmod, hinv]
    · intro cp hval hcp
      simp only [List.get?_eq_getElem?] at hcp
      simp [GetVehicleDistanceToNextCheckpoint, hv, hidx, hmod, hval, hcp]

/-- Witness of C7: vehicle 7, untracked on `offsetTrack`. -/
theorem C7_untracked_queries_witness :
    offsetTrack.VehicleCheckpoints (some 7) = none ∧
      offsetTrack.GetVehicleCheckpointIndex (some 7) = 0 ∧
      offsetTrack.GetCurrentLapTime 12 (some 7) = 0 ∧
      offsetTrack.GetBestLapTime (some 7) = 0 :=
  have h := C7_untracked_queries gridEngine offsetTrack (some 7) 12 FVector.ZeroVector
    (by simp [offsetTrack, construct]) (by simp [offsetTrack, construct])
    (by simp [offsetTrack, construct])
  ⟨by simp [offsetTrack, construct], h.1, h.2.1, h.2.2.1⟩

/-- Counterexample to C7 as stated: for the untracked vehicle 7 at the origin of
`offsetTrack`, `GetVehicleDistanceToNextCheckpoint` returns 500, the distance to
checkpoint 1, not 0. -/
theorem C7_counterexample :
    offsetTrack.VehicleCheckpoints (some 7) = none ∧
      offsetTrack.VehicleLapStartTimes (some 7) = none ∧
      offsetTrack.VehicleBestLaps (some 7) = none ∧
      offsetTrack.GetVehicleDistanceToNextCheckpoint gridEngine (some 7) FVector.ZeroVector
        = some 500 ∧
      offsetTrack.GetVehicleDistanceToNextCheckpoint gridEngine (some 7) FVector.ZeroVector
        ≠ some 0 := by
  have h : offsetTrack.GetVehicleDistanceToNextCheckpoint gridEngine (some 7)
      FVector.ZeroVector = some 500 := by
    have hmod : modInt32 (wrapInt32 (0 + 1)) 2 = some 1 := by
      rw [modInt32_succ_of_nonneg 0 2 (by decide) (by decide) (by decide)]; rfl
    simp only [GetVehicleDistanceToNextCheckpoint, GetVehicleCheckpointIndex, offsetTrack,
      construct, hmod, IsValidIndex]
    simp only [gridEngine, FVector.sub, FVector.add, FVector.SizeSquared, FVector.ZeroVector,
      checkpointAt]
    norm_num
    exact Option.some_ne_none 7
  refine ⟨by simp [offsetTrack, construct], by simp [offsetTrack, construct],
    by simp [offsetTrack, construct], h, ?_⟩
  rw [h]
  norm_num

/-- C8 (failing input): on a manager with no checkpoints, as constructed,
`GetVehicleDistanceToNextCheckpoint` of any non-null vehicle evaluates `1 % 0` and
faults. -/
theorem C8_distance_query_faults_without_checkpoints (E : Engine) (origin loc : FVector)
    (id : Nat) :
    (ARaceTrackManager.construct origin).GetVehicleDistanceToNextCheckpoint E (some id) loc
      = none := by
  simp [GetVehicleDistanceToNextCheckpoint, construct, modInt32]

/-! ## Racing controller: lemmas -/

namespace AAIRacingController

theorem Tick_of_no_waypoints (E : Engine) (c : AAIRacingController) (DeltaTime : ℚ)
    (W : TickWorld) (h : c.RacelineWaypoints = []) : Tick E c DeltaTime W = some (c, none) := by
  simp [Tick, h]

theorem RunTicks_of_no_waypoints (E : Engine) (c : AAIRacingController)
    (h : c.RacelineWaypoints = []) (ticks : List (ℚ × TickWorld)) :
    RunTicks E c ticks = some (c, []) := by
  induction ticks with
  | nil => rfl
  | cons t rest ih =>
    obtain ⟨DeltaTime, W⟩ := t
    simp [RunTicks, Tick_of_no_waypoints E c DeltaTime W h, ih]

theorem CornerSpeed_eq (E : Engine) (Waypoints : List FVector) (i : Nat)
    (hi : i < Waypoints.length) :
    CornerSpeed E Waypoints i = 200 + 100 * ((specSharpness E Waypoints i + 1) / 2) := by
  have hnext : (Int.tmod ((i : Int) + 1) (Waypoints.length : Int)).toNat =
      (i + 1) % Waypoints.length := by
    have h : ((i : Int) + 1) = ((i + 1 : Nat) : Int) := by push_cast; rfl
    rw [h, ← Int.ofNat_tmod, Int.toNat_ofNat]
  have hprev : (Int.tmod ((i : Int) - 1 + (Waypoints.length : Int)) (Waypoints.length : Int)).toNat
      = (i + Waypoints.length - 1) % Waypoints.length := by
    have h : ((i : Int) - 1 + (Waypoints.length : Int)) = ((i + Waypoints.length - 1 : Nat) : Int) := by
      omega
    rw [h, ← Int.ofNat_tmod, Int.toNat_ofNat]
  simp only [CornerSpeed, hnext, hprev, Lerp, specSharpness]
  ring

end AAIRacingController

/-! ## Racing controller: claims -/

/-- C9 (as amended): after `InitializeRacingAI` with an empty waypoint list, any number of
`Tick` calls completes without a fault, writes nothing to the vehicle and leaves the
controller unchanged; the outputs steering, throttle and brake are the ones the controller
held before the initialisation. -/
theorem C9_empty_waypoints_ticks_change_nothing (E : Engine) (c : AAIRacingController)
    (ticks : List (ℚ × TickWorld)) :
    AAIRacingController.RunTicks E (AAIRacingController.InitializeRacingAI E c []) ticks =
        some (AAIRacingController.InitializeRacingAI E c [], []) ∧
      (AAIRacingController.InitializeRacingAI E c []).Outputs = c.Outputs :=
  ⟨AAIRacingController.RunTicks_of_no_waypoints E _ rfl ticks, rfl⟩

/-- Counterexample to C9 as stated: `drivingController` runs one tick, which sets its
throttle to 1; it is then initialised with an empty waypoint list and ticked twice, and
its outputs are (0, 1, 0), not (0, 0, 0). -/
theorem C9_counterexample :
    ((AAIRacingController.Tick gridEngine drivingController (1 / 60) stillWorld).bind
      (fun r =>
        (AAIRacingController.RunTicks gridEngine
          (AAIRacingController.InitializeRacingAI gridEngine r.1 [])
          [(1 / 60, stillWorld), (1 / 60, stillWorld)]).map (fun r' => r'.1.Outputs)))
      = some ⟨0, 1, 0⟩ := by
  decide!

/-- C10: after `InitializeRacingAI`, `WaypointSpeeds` has as many entries as there are
waypoints, and entry `i` is `(200 + 100 * (s_i + 1) / 2) * MaxSpeedMultiplier`, `s_i` being
the dot product of the normalised vectors `W[(i+1) mod n] - W[i]` and
`W[i] - W[(i-1+n) mod n]`. -/
theorem C10_waypoint_speeds (E : Engine) (c : AAIRacingController) (Waypoints : List FVector) :
    (AAIRacingController.InitializeRacingAI E c Waypoints).WaypointSpeeds.length
        = Waypoints.length ∧
      ∀ i, i < Waypoints.length →
        (AAIRacingController.InitializeRacingAI E c Waypoints).WaypointSpeeds.get? i =
          some ((200 + 100 * ((specSharpness E Waypoints i + 1) / 2)) * c.MaxSpeedMultiplier) := by
  constructor
  · simp [AAIRacingController.InitializeRacingAI]
  · intro i hi
    simp only [AAIRacingController.InitializeRacingAI, List.get?_eq_getElem?, List.getElem?_map,
      List.getElem?_range hi, Option.map_some', AAIRacingController.CornerSpeed_eq E Waypoints i hi]

/-- Witness of C10: the corner at waypoint 1 of the square loop. -/
theorem C10_waypoint_speeds_witness :
    1 < squareLoop.length ∧
      (AAIRacingController.InitializeRacingAI gridEngine drivingController
          squareLoop).WaypointSpeeds.get? 1 =
        some ((200 + 100 * ((specSharpness gridEngine squareLoop 1 + 1) / 2))
          * drivingController.MaxSpeedMultiplier) :=
  ⟨by decide, (C10_waypoint_speeds gridEngine drivingController squareLoop).2 1 (by decide)⟩

/-! ## Racing controller: corner speeds and profiles -/

namespace AAIRacingController

theorem InitializeRacingAI_speed (E : Engine) (c : AAIRacingController)
    (Waypoints : List FVector) (i : Nat) (hi : i < Waypoints.length) :
    (InitializeRacingAI E c Waypoints).WaypointSpeeds.get? i =
      some ((200 + 100 * ((specSharpness E Waypoints i + 1) / 2)) * c.MaxSpeedMultiplier) := by
  simp only [InitializeRacingAI, List.get?_eq_getElem?, List.getElem?_map,
    List.getElem?_range hi, Option.map_some', CornerSpeed_eq E Waypoints i hi]

end AAIRacingController

/-- C18: the three behaviour lookups are total functions of the behaviour value alone, and
give Aggressive (1.1, 0.8, 1.5), Balanced (1, 1, 1), Defensive (0.9, 1.3, 0.5),
Chaser (1.05, 0.9, 1.3), Blocker (0.95, 1.1, 0.3) and (1, 1, 1) for any other value. -/
theorem C18_behavior_profile (c : AAIRacingController) :
    (c.GetBehaviorSpeedMultiplier, c.GetBehaviorBrakingMultiplier, c.GetOvertakingAggression)
      = specBehaviorProfile c.RacingBehavior := by
  cases h : c.RacingBehavior <;>
    simp [AAIRacingController.GetBehaviorSpeedMultiplier,
      AAIRacingController.GetBehaviorBrakingMultiplier,
      AAIRacingController.GetOvertakingAggression, specBehaviorProfile, h]

/-- C19 (failing input): `BeginPlay` sets the speed multipliers 0.7, 0.85, 0.95, 1 and 1.1
of the five documented levels and the mistake chance 0 at Impossible, but at Expert
("no mistakes") it sets the mistake chance 0.02: an Expert controller ticked with
`dt = 1/60` and the random draw 0 starts a mistake. -/
theorem C19_expert_injects_mistakes :
    (AAIRacingController.BeginPlay
        { AAIRacingController.construct with Difficulty := EAIDifficulty.Easy }).MaxSpeedMultiplier
      = 7 / 10 ∧
    (AAIRacingController.BeginPlay
        { AAIRacingController.construct with Difficulty := EAIDifficulty.Medium }).MaxSpeedMultiplier
      = 85 / 100 ∧
    (AAIRacingController.BeginPlay
        { AAIRacingController.construct with Difficulty := EAIDifficulty.Hard }).MaxSpeedMultiplier
      = 95 / 100 ∧
    (AAIRacingController.BeginPlay
        { AAIRacingController.construct with
          Difficulty := EAIDifficulty.Impossible }).MaxSpeedMultiplier = 11 / 10 ∧
    (AAIRacingController.BeginPlay
        { AAIRacingController.construct with Difficulty := EAIDifficulty.Impossible }).MistakeChance
      = 0 ∧
    expertController.MaxSpeedMultiplier = 1 ∧
    expertController.MistakeChance = 2 / 100 ∧
    (AAIRacingController.UpdateMistake expertController (1 / 60)
      unluckyWorld).bCurrentlyMakingMistake = true ∧
    (AAIRacingController.Tick gridEngine expertDriver (1 / 60) unluckyWorld).map
      (fun r => r.1.bCurrentlyMakingMistake) = some true := by
  decide!

/-- C20 (as amended): the lateral overtaking offset has magnitude
`400 * GetOvertakingAggression`, which is at most 600 cm for every behaviour and at most
400 cm for every behaviour but Aggressive (600 cm) and Chaser (520 cm). -/
theorem C20_overtaking_offset_magnitude (c : AAIRacingController) :
    |c.GetOvertakingOffset.1| = 400 * c.GetOvertakingAggression ∧
      |c.GetOvertakingOffset.1| ≤ 600 ∧
      (c.RacingBehavior ≠ EAIRacingBehavior.Aggressive →
        c.RacingBehavior ≠ EAIRacingBehavior.Chaser → |c.GetOvertakingOffset.1| ≤ 400) := by
  have hagg : 0 ≤ c.GetOvertakingAggression := by
    cases h : c.RacingBehavior <;>
      simp [AAIRacingController.GetOvertakingAggression, h] <;> norm_num
  have habs : |c.GetOvertakingOffset.1| = 400 * c.GetOvertakingAggression := by
    cases hl : c.bOvertakeLeft
    · have : c.GetOvertakingOffset.1 = -(400 * c.GetOvertakingAggression) := by
        simp [AAIRacingController.GetOvertakingOffset, AAIRacingController.GetOvertakingAggression,
          hl]
      rw [this, abs_neg, abs_of_nonneg (by positivity)]
    · have : c.GetOvertakingOffset.1 = 400 * c.GetOvertakingAggression := by
        simp [AAIRacingController.GetOvertakingOffset, AAIRacingController.GetOvertakingAggression,
          hl]
      rw [this, abs_of_nonneg (by positivity)]
  refine ⟨habs, ?_, ?_⟩
  · rw [habs]
    cases h : c.RacingBehavior <;>
      simp [AAIRacingController.GetOvertakingAggression, h] <;> norm_num
  · intro h1 h2
    rw [habs]
    cases h : c.RacingBehavior <;>
      simp_all [AAIRacingController.GetOvertakingAggression] <;> norm_num

/-- Witness of C20: a Balanced controller's offset has magnitude 400 cm. -/
theorem C20_overtaking_offset_magnitude_witness :
    (controllerWith EAIRacingBehavior.Balanced).RacingBehavior ≠ EAIRacingBehavior.Aggressive ∧
      (controllerWith EAIRacingBehavior.Balanced).RacingBehavior ≠ EAIRacingBehavior.Chaser ∧
      |(controllerWith EAIRacingBehavior.Balanced).GetOvertakingOffset.1| ≤ 400 :=
  ⟨by decide, by decide,
    (C20_overtaking_offset_magnitude (controllerWith EAIRacingBehavior.Balanced)).2.2
      (by decide) (by decide)⟩

/-- Counterexample to C20 as stated: an Aggressive controller's overtaking offset is
600 cm, more than 400 cm. -/
theorem C20_counterexample :
    (controllerWith EAIRacingBehavior.Aggressive).GetOvertakingOffset.1 = 600 ∧
      ¬ |(controllerWith EAIRacingBehavior.Aggressive).GetOvertakingOffset.1| ≤ 400 := by
  have h : (controllerWith EAIRacingBehavior.Aggressive).GetOvertakingOffset.1 = 600 := by
    decide!
  refine ⟨h, ?_⟩
  rw [h]
  norm_num

/-! ## Racing controller: the steps of a tick -/

theorem Clamp_bounds (X Min Max : ℚ) (h : Min ≤ Max) :
    Min ≤ Clamp X Min Max ∧ Clamp X Min Max ≤ Max := by
  unfold Clamp
  split_ifs with h1 h2
  · exact ⟨le_refl _, h⟩
  · exact ⟨not_lt.mp h1, le_of_lt h2⟩
  · exact ⟨h, le_refl _⟩

theorem ClampValue_bounds (X : FloatValue) (Min Max : ℚ) (h : Min ≤ Max) :
    Min ≤ ClampValue X Min Max ∧ ClampValue X Min Max ≤ Max := by
  cases X with
  | Finite x => exact Clamp_bounds x Min Max h
  | PosInf => exact ⟨h, le_refl _⟩
  | NegInf => exact ⟨le_refl _, h⟩
  | NaN => exact ⟨h, le_refl _⟩

/-- With a non-zero divisor the quotient is finite and `ClampValue` is `Clamp`. -/
theorem ClampValue_fquot_of_ne (a b Min Max : ℚ) (hb : b ≠ 0) :
    ClampValue (fquot a b) Min Max = Clamp (a / b) Min Max := by
  simp only [fquot, if_neg hb, ClampValue]

namespace AAIRacingController

/-- The state after the nearest-waypoint scan of `UpdateRacingInputs`. -/
theorem UpdateRacingInputs_steps (E : Engine) (c c' : AAIRacingController) (DeltaTime : ℚ)
    (W : TickWorld) (hv : c.ControlledVehicle ≠ none)
    (h : UpdateRacingInputs E c DeltaTime W = some c') :
    ∃ idx dist s c3 c5,
      CalculateSteeringInput E
        (UpdateMistake
          { c with RacingData :=
              { c.RacingData with CurrentWaypointIndex := idx, DistanceToNextWaypoint := dist } }
          DeltaTime W) W = some (s, c3) ∧
      CalculateThrottleBrake
        { c3 with RacingData := { c3.RacingData with SteeringInput := s } } W = some c5 ∧
      c' = UpdateOvertake (if c5.bEnableRubberBanding then ApplyRubberBanding E c5 W else c5)
        DeltaTime W := by
  simp only [UpdateRacingInputs, if_neg hv] at h
  split at h
  · exact absurd h (by simp)
  · rename_i s c3 hs
    split at h
    · exact absurd h (by simp)
    · rename_i c5 hc5
      simp only [Option.some.injEq] at h
      exact ⟨_, _, s, c3, c5, hs, hc5, h.symm⟩

end AAIRacingController

namespace AAIRacingController

theorem CalculateSteeringInput_result (E : Engine) (c c' : AAIRacingController) (W : TickWorld)
    (s : ℚ) (h : CalculateSteeringInput E c W = some (s, c')) :
    (-1 ≤ s ∧ s ≤ 1) ∧ (c' = c ∨ c' = { c with bOvertakeLeft := !c.bOvertakeLeft }) := by
  unfold CalculateSteeringInput at h
  by_cases hg : c.ControlledVehicle = none ∨ c.RacelineWaypoints.length = 0
  · rw [if_pos hg] at h
    simp only [Option.some.injEq, Prod.mk.injEq] at h
    obtain ⟨rfl, rfl⟩ := h
    exact ⟨⟨by norm_num, by norm_num⟩, Or.inl rfl⟩
  · rw [if_neg hg] at h
    simp only at h
    cases hw : indexArray c.RacelineWaypoints
        (c.GetNextWaypointIndex c.RacingData.CurrentWaypointIndex
          (Clamp ⌈W.ForwardSpeed / 100⌉ 1 10)) with
    | none => simp [hw] at h
    | some Waypoint =>
      by_cases ho : c.RacingData.bIsOvertaking = true
      · simp only [hw, ho, if_true, GetOvertakingOffset, Option.some.injEq, Prod.mk.injEq] at h
        obtain ⟨rfl, rfl⟩ := h
        exact ⟨Clamp_bounds _ _ _ (by norm_num), Or.inr rfl⟩
      · simp only [hw, ho, if_false, Option.some.injEq, Prod.mk.injEq] at h
        obtain ⟨rfl, rfl⟩ := h
        exact ⟨Clamp_bounds _ _ _ (by norm_num), Or.inl rfl⟩

theorem SpeedLaw_eq (c : AAIRacingController) (CurrentSpeed TargetSpeed : ℚ) :
    c.SpeedLaw CurrentSpeed TargetSpeed =
      if CurrentSpeed > TargetSpeed ∧
          c.RacingData.DistanceToNextWaypoint * (1 / 100) <
            c.BrakingDistance CurrentSpeed TargetSpeed then
        some ((0 : ℚ), ClampValue (fquot (CurrentSpeed - TargetSpeed) TargetSpeed) 0 1,
          EAIRacingState.Braking)
      else if CurrentSpeed < TargetSpeed * (95 / 100) then
        some (ClampValue (fquot (TargetSpeed - CurrentSpeed) TargetSpeed) (3 / 10) 1, (0 : ℚ),
          EAIRacingState.FollowingRaceline)
      else some ((1 / 2 : ℚ), (0 : ℚ), c.RacingData.CurrentState) := rfl

theorem SpeedLaw_range (c : AAIRacingController) (CurrentSpeed TargetSpeed Throttle Brake : ℚ)
    (State : EAIRacingState)
    (h : c.SpeedLaw CurrentSpeed TargetSpeed = some (Throttle, Brake, State)) :
    (0 ≤ Throttle ∧ Throttle ≤ 1) ∧ (0 ≤ Brake ∧ Brake ≤ 1) ∧ (Throttle = 0 ∨ Brake = 0) := by
  rw [SpeedLaw_eq] at h
  by_cases h1 : CurrentSpeed > TargetSpeed ∧
      c.RacingData.DistanceToNextWaypoint * (1 / 100) <
        c.BrakingDistance CurrentSpeed TargetSpeed
  · rw [if_pos h1] at h
    simp only [Option.some.injEq, Prod.mk.injEq] at h
    obtain ⟨rfl, rfl, _⟩ := h
    exact ⟨⟨le_refl _, by norm_num⟩, ClampValue_bounds _ _ _ (by norm_num), Or.inl rfl⟩
  · rw [if_neg h1] at h
    by_cases h2 : CurrentSpeed < TargetSpeed * (95 / 100)
    · rw [if_pos h2] at h
      simp only [Option.some.injEq, Prod.mk.injEq] at h
      obtain ⟨rfl, rfl, _⟩ := h
      have hb := ClampValue_bounds (fquot (TargetSpeed - CurrentSpeed) TargetSpeed) (3 / 10) 1
        (by norm_num)
      exact ⟨⟨by linarith [hb.1], hb.2⟩, ⟨le_refl _, by norm_num⟩, Or.inr rfl⟩
    · rw [if_neg h2] at h
      simp only [Option.some.injEq, Prod.mk.injEq] at h
      obtain ⟨rfl, rfl, _⟩ := h
      exact ⟨⟨by norm_num, by norm_num⟩, ⟨le_refl _, by norm_num⟩, Or.inr rfl⟩

/-- The speed law always returns: a division by zero yields an infinity, not a fault. -/
theorem SpeedLaw_returns (c : AAIRacingController) (CurrentSpeed TargetSpeed : ℚ) :
    ∃ Throttle Brake State,
      c.SpeedLaw CurrentSpeed TargetSpeed = some (Throttle, Brake, State) := by
  rw [SpeedLaw_eq]
  by_cases h1 : CurrentSpeed > TargetSpeed ∧
      c.RacingData.DistanceToNextWaypoint * (1 / 100) <
        c.BrakingDistance CurrentSpeed TargetSpeed
  · rw [if_pos h1]
    exact ⟨_, _, _, rfl⟩
  · rw [if_neg h1]
    by_cases h2 : CurrentSpeed < TargetSpeed * (95 / 100)
    · rw [if_pos h2]
      exact ⟨_, _, _, rfl⟩
    · rw [if_neg h2]
      exact ⟨_, _, _, rfl⟩

theorem ObstacleOverride_range (Obstacle : Option ℚ) (Throttle Brake : ℚ)
    (ht : 0 ≤ Throttle ∧ Throttle ≤ 1) (hb : 0 ≤ Brake ∧ Brake ≤ 1) :
    (0 ≤ (ObstacleOverride Obstacle Throttle Brake).1 ∧
      (ObstacleOverride Obstacle Throttle Brake).1 ≤ 1) ∧
    (0 ≤ (ObstacleOverride Obstacle Throttle Brake).2 ∧
      (ObstacleOverride Obstacle Throttle Brake).2 ≤ 1) := by
  unfold ObstacleOverride
  cases Obstacle with
  | none => exact ⟨ht, hb⟩
  | some d =>
    simp only
    split_ifs
    · exact ⟨⟨le_refl _, by norm_num⟩, ⟨by norm_num, le_refl _⟩⟩
    · exact ⟨⟨by linarith [ht.1], by linarith [ht.2]⟩, hb⟩
    · exact ⟨ht, hb⟩

/-- `CalculateThrottleBrake` past its guard, in terms of the target speed, the speed law
and the obstacle override. -/
theorem CalculateThrottleBrake_eq (c : AAIRacingController) (W : TickWorld)
    (hg : ¬ (c.ControlledVehicle = none ∨ c.WaypointSpeeds.length = 0)) :
    c.CalculateThrottleBrake W =
      match c.LookUpTargetSpeed with
      | none => none
      | some TargetSpeed =>
        match c.SpeedLaw (W.ForwardSpeed * (36 / 1000)) TargetSpeed with
        | none => none
        | some (Throttle, Brake, State) =>
          some { c with
                 RacingData :=
                   { c.RacingData with
                     ThrottleInput := (ObstacleOverride (c.DetectObstaclesAhead W) Throttle Brake).1
                     BrakeInput := (ObstacleOverride (c.DetectObstaclesAhead W) Throttle Brake).2
                     CurrentState := State } } := by
  unfold CalculateThrottleBrake LookUpTargetSpeed
  rw [if_neg hg]
  cases indexArray c.WaypointSpeeds c.RacingData.CurrentWaypointIndex with
  | none => rfl
  | some T0 =>
    simp only
    cases c.LookAheadTargetSpeed T0 with
    | none => rfl
    | some T1 => rfl

/-- `CalculateThrottleBrake` writes the throttle, the brake and the state label only. -/
theorem CalculateThrottleBrake_result (c c' : AAIRacingController) (W : TickWorld)
    (h : c.CalculateThrottleBrake W = some c') :
    ∃ Throttle Brake State,
      c' = { c with RacingData :=
              { c.RacingData with
                ThrottleInput := Throttle, BrakeInput := Brake, CurrentState := State } } ∧
      (0 ≤ Throttle ∧ Throttle ≤ 1) ∧ (0 ≤ Brake ∧ Brake ≤ 1) := by
  by_cases hg : c.ControlledVehicle = none ∨ c.WaypointSpeeds.length = 0
  · unfold CalculateThrottleBrake at h
    rw [if_pos hg] at h
    simp only [Option.some.injEq] at h
    exact ⟨0, 0, c.RacingData.CurrentState, h.symm, ⟨le_refl _, by norm_num⟩,
      ⟨le_refl _, by norm_num⟩⟩
  · rw [CalculateThrottleBrake_eq c W hg] at h
    cases hT : c.LookUpTargetSpeed with
    | none => simp [hT] at h
    | some T =>
      cases hlaw : c.SpeedLaw (W.ForwardSpeed * (36 / 1000)) T with
      | none => simp [hT, hlaw] at h
      | some r =>
        obtain ⟨Throttle, Brake, State⟩ := r
        simp only [hT, hlaw, Option.some.injEq] at h
        obtain ⟨ht, hb, _⟩ := SpeedLaw_range c _ _ Throttle Brake State hlaw
        have hr := ObstacleOverride_range (c.DetectObstaclesAhead W) Throttle Brake ht hb
        exact ⟨_, _, State, h.symm, hr.1, hr.2⟩

theorem ApplyRubberBanding_result (E : Engine) (c : AAIRacingController) (W : TickWorld) :
    ∃ m, ApplyRubberBanding E c W = { c with MaxSpeedMultiplier := m } ∧
      (m = c.MaxSpeedMultiplier ∨ (1 / 2 ≤ m ∧ m ≤ 12 / 10)) := by
  unfold ApplyRubberBanding
  cases W.PlayerVehicleLocation with
  | none => exact ⟨c.MaxSpeedMultiplier, rfl, Or.inl rfl⟩
  | some p =>
    simp only
    split_ifs
    · exact ⟨c.MaxSpeedMultiplier, rfl, Or.inl rfl⟩
    · exact ⟨_, rfl, Or.inr (Clamp_bounds _ _ _ (by norm_num))⟩

theorem UpdateOvertake_result (c : AAIRacingController) (DeltaTime : ℚ) (W : TickWorld) :
    ∃ State Overtaking Timer,
      c.UpdateOvertake DeltaTime W =
        { c with
          RacingData :=
            { c.RacingData with CurrentState := State, bIsOvertaking := Overtaking }
          OvertakeTimer := Timer } := by
  unfold UpdateOvertake
  simp only
  split_ifs <;> exact ⟨_, _, _, rfl⟩

end AAIRacingController

namespace AAIRacingController

/-- The mistake block: the fields it writes, and the new flag and countdown. -/
theorem UpdateMistake_result (c : AAIRacingController) (DeltaTime : ℚ) (W : TickWorld) :
    ∃ Since Flag Duration Offset State,
      c.UpdateMistake DeltaTime W =
        { c with
          TimeSinceMistake := Since
          bCurrentlyMakingMistake := Flag
          MistakeDuration := Duration
          MistakeOffset := Offset
          RacingData := { c.RacingData with CurrentState := State } } ∧
      (c.bCurrentlyMakingMistake = true →
        Flag = decide (0 < c.MistakeDuration - DeltaTime) ∧
          Duration = c.MistakeDuration - DeltaTime) ∧
      (c.bCurrentlyMakingMistake = false → W.FRand < c.MistakeChance * DeltaTime →
        Flag = decide (0 < W.RandMistakeDuration - DeltaTime) ∧
          Duration = W.RandMistakeDuration - DeltaTime) ∧
      (c.bCurrentlyMakingMistake = false → ¬ W.FRand < c.MistakeChance * DeltaTime →
        Flag = false) := by
  unfold UpdateMistake SimulateMistake
  cases hf : c.bCurrentlyMakingMistake with
  | true =>
    by_cases hd : c.MistakeDuration - DeltaTime ≤ 0
    · refine ⟨c.TimeSinceMistake + DeltaTime, false, c.MistakeDuration - DeltaTime,
        FVector.ZeroVector, EAIRacingState.FollowingRaceline, ?_, ?_, ?_, ?_⟩
      · simp [hf, hd]
      · intro _; exact ⟨by simp [not_lt.mpr hd], rfl⟩
      · intro h; exact absurd h (by simp)
      · intro h; exact absurd h (by simp)
    · refine ⟨c.TimeSinceMistake + DeltaTime, true, c.MistakeDuration - DeltaTime,
        c.MistakeOffset, c.RacingData.CurrentState, ?_, ?_, ?_, ?_⟩
      · simp [hf, hd]
      · intro _; exact ⟨by simp [not_le.mp hd], rfl⟩
      · intro h; exact absurd h (by simp)
      · intro h; exact absurd h (by simp)
  | false =>
    by_cases ht : W.FRand < c.MistakeChance * DeltaTime
    · by_cases hd : W.RandMistakeDuration - DeltaTime ≤ 0
      · refine ⟨0, false, W.RandMistakeDuration - DeltaTime, FVector.ZeroVector,
          EAIRacingState.FollowingRaceline, ?_, ?_, ?_, ?_⟩
        · simp [hf, ht, hd]
        · intro h; exact absurd h (by simp)
        · intro _ _; exact ⟨by simp [not_lt.mpr hd], rfl⟩
        · intro _ h; exact absurd ht h
      · refine ⟨0, true, W.RandMistakeDuration - DeltaTime,
          ⟨W.RandMistakeOffsetX, W.RandMistakeOffsetY, 0⟩, EAIRacingState.Recovering,
          ?_, ?_, ?_, ?_⟩
        · simp [hf, ht, hd]
        · intro h; exact absurd h (by simp)
        · intro _ _; exact ⟨by simp [not_le.mp hd], rfl⟩
        · intro _ h; exact absurd ht h
    · refine ⟨c.TimeSinceMistake + DeltaTime, false, c.MistakeDuration, c.MistakeOffset,
        c.RacingData.CurrentState, ?_, ?_, ?_, ?_⟩
      · simp [hf, ht]
      · intro h; exact absurd h (by simp)
      · intro _ h; exact absurd h ht
      · intro _ _; rfl

end AAIRacingController

namespace AAIRacingController

theorem UpdateMistake_frame (c : AAIRacingController) (DeltaTime : ℚ) (W : TickWorld) :
    (c.UpdateMistake DeltaTime W).Config = c.Config ∧
      (c.UpdateMistake DeltaTime W).MaxSpeedMultiplier = c.MaxSpeedMultiplier := by
  obtain ⟨_, _, _, _, _, h, _⟩ := UpdateMistake_result c DeltaTime W
  rw [h]
  exact ⟨rfl, rfl⟩

theorem CalculateSteeringInput_frame (E : Engine) (c c' : AAIRacingController) (W : TickWorld)
    (s : ℚ) (h : CalculateSteeringInput E c W = some (s, c')) :
    c'.Config = c.Config ∧ c'.MaxSpeedMultiplier = c.MaxSpeedMultiplier ∧
      c'.MistakeState = c.MistakeState ∧ c'.RacingData = c.RacingData := by
  obtain ⟨_, h⟩ := CalculateSteeringInput_result E c c' W s h
  rcases h with rfl | rfl <;> exact ⟨rfl, rfl, rfl, rfl⟩

theorem CalculateThrottleBrake_frame (c c' : AAIRacingController) (W : TickWorld)
    (h : c.CalculateThrottleBrake W = some c') :
    c'.Config = c.Config ∧ c'.MaxSpeedMultiplier = c.MaxSpeedMultiplier ∧
      c'.MistakeState = c.MistakeState ∧
      c'.RacingData.SteeringInput = c.RacingData.SteeringInput ∧
      (0 ≤ c'.RacingData.ThrottleInput ∧ c'.RacingData.ThrottleInput ≤ 1) ∧
      (0 ≤ c'.RacingData.BrakeInput ∧ c'.RacingData.BrakeInput ≤ 1) := by
  obtain ⟨_, _, _, rfl, ht, hb⟩ := CalculateThrottleBrake_result c c' W h
  exact ⟨rfl, rfl, rfl, rfl, ht, hb⟩

theorem ApplyRubberBanding_frame (E : Engine) (c : AAIRacingController) (W : TickWorld) :
    (ApplyRubberBanding E c W).Config = c.Config ∧
      (ApplyRubberBanding E c W).MistakeState = c.MistakeState ∧
      (ApplyRubberBanding E c W).RacingData = c.RacingData ∧
      ((ApplyRubberBanding E c W).MaxSpeedMultiplier = c.MaxSpeedMultiplier ∨
        (1 / 2 ≤ (ApplyRubberBanding E c W).MaxSpeedMultiplier ∧
          (ApplyRubberBanding E c W).MaxSpeedMultiplier ≤ 12 / 10)) := by
  obtain ⟨m, h, hm⟩ := ApplyRubberBanding_result E c W
  rw [h]
  exact ⟨rfl, rfl, rfl, hm⟩

theorem UpdateOvertake_frame (c : AAIRacingController) (DeltaTime : ℚ) (W : TickWorld) :
    (c.UpdateOvertake DeltaTime W).Config = c.Config ∧
      (c.UpdateOvertake DeltaTime W).MaxSpeedMultiplier = c.MaxSpeedMultiplier ∧
      (c.UpdateOvertake DeltaTime W).MistakeState = c.MistakeState ∧
      (c.UpdateOvertake DeltaTime W).Outputs = c.Outputs := by
  obtain ⟨_, _, _, h⟩ := UpdateOvertake_result c DeltaTime W
  rw [h]
  exact ⟨rfl, rfl, rfl, rfl⟩

/-- What `UpdateRacingInputs` does, for a controller with a vehicle, to the outputs, the
configuration, the speed multiplier and the mistake state. -/
theorem UpdateRacingInputs_result (E : Engine) (c c' : AAIRacingController) (DeltaTime : ℚ)
    (W : TickWorld) (hv : c.ControlledVehicle ≠ none)
    (h : UpdateRacingInputs E c DeltaTime W = some c') :
    ((-1 ≤ c'.RacingData.SteeringInput ∧ c'.RacingData.SteeringInput ≤ 1) ∧
      (0 ≤ c'.RacingData.ThrottleInput ∧ c'.RacingData.ThrottleInput ≤ 1) ∧
      (0 ≤ c'.RacingData.BrakeInput ∧ c'.RacingData.BrakeInput ≤ 1)) ∧
    c'.Config = c.Config ∧
    (c'.MaxSpeedMultiplier = c.MaxSpeedMultiplier ∨
      (1 / 2 ≤ c'.MaxSpeedMultiplier ∧ c'.MaxSpeedMultiplier ≤ 12 / 10)) ∧
    (c.bCurrentlyMakingMistake = true →
      c'.bCurrentlyMakingMistake = decide (0 < c.MistakeDuration - DeltaTime) ∧
        c'.MistakeDuration = c.MistakeDuration - DeltaTime) ∧
    (c.bCurrentlyMakingMistake = false → W.FRand < c.MistakeChance * DeltaTime →
      c'.bCurrentlyMakingMistake = decide (0 < W.RandMistakeDuration - DeltaTime) ∧
        c'.MistakeDuration = W.RandMistakeDuration - DeltaTime) ∧
    (c.bCurrentlyMakingMistake = false → ¬ W.FRand < c.MistakeChance * DeltaTime →
      c'.bCurrentlyMakingMistake = false) := by
  obtain ⟨idx, dist, s, c3, c5, hs, hc5, rfl⟩ := UpdateRacingInputs_steps E c c' DeltaTime W hv h
  obtain ⟨Since, Flag, Duration, Offset, State, hU, hm1, hm2, hm3⟩ :=
    UpdateMistake_result
      { c with RacingData :=
          { c.RacingData with CurrentWaypointIndex := idx, DistanceToNextWaypoint := dist } }
      DeltaTime W
  obtain ⟨hUc, hUm⟩ := UpdateMistake_frame
      { c with RacingData :=
          { c.RacingData with CurrentWaypointIndex := idx, DistanceToNextWaypoint := dist } }
      DeltaTime W
  have hUs : (UpdateMistake
      { c with RacingData :=
          { c.RacingData with CurrentWaypointIndex := idx, DistanceToNextWaypoint := dist } }
      DeltaTime W).MistakeState = (Flag, Duration) := by rw [hU]; rfl
  obtain ⟨hsr, _⟩ := CalculateSteeringInput_result E _ c3 W s hs
  obtain ⟨h3c, h3m, h3s, _⟩ := CalculateSteeringInput_frame E _ c3 W s hs
  obtain ⟨h5c, h5m, h5s, h5i, h5t, h5b⟩ := CalculateThrottleBrake_frame _ c5 W hc5
  obtain ⟨h6c, h6s, h6d, h6m⟩ := ApplyRubberBanding_frame E c5 W
  obtain ⟨h7c, h7m, h7s, h7o⟩ := UpdateOvertake_frame
    (if c5.bEnableRubberBanding then ApplyRubberBanding E c5 W else c5) DeltaTime W
  have hc5c : c5.Config = c.Config := by rw [h5c]; exact h3c.trans hUc
  have hc5m : c5.MaxSpeedMultiplier = c.MaxSpeedMultiplier := by
    rw [h5m]; exact h3m.trans hUm
  have hc5s : c5.MistakeState = (Flag, Duration) := by rw [h5s]; exact h3s.trans hUs
  have hc5o : (-1 ≤ c5.RacingData.SteeringInput ∧ c5.RacingData.SteeringInput ≤ 1) := by
    rw [h5i]; exact hsr
  have h6 : (if c5.bEnableRubberBanding then ApplyRubberBanding E c5 W else c5).Config = c.Config ∧
      (if c5.bEnableRubberBanding then ApplyRubberBanding E c5 W else c5).MistakeState
        = (Flag, Duration) ∧
      (if c5.bEnableRubberBanding then ApplyRubberBanding E c5 W else c5).Outputs = c5.Outputs ∧
      ((if c5.bEnableRubberBanding then ApplyRubberBanding E c5 W else c5).MaxSpeedMultiplier
          = c.MaxSpeedMultiplier ∨
        (1 / 2 ≤ (if c5.bEnableRubberBanding then ApplyRubberBanding E c5 W
            else c5).MaxSpeedMultiplier ∧
          (if c5.bEnableRubberBanding then ApplyRubberBanding E c5 W
            else c5).MaxSpeedMultiplier ≤ 12 / 10)) := by
    by_cases hb : c5.bEnableRubberBanding = true
    · simp only [hb, if_true]
      refine ⟨h6c.trans hc5c, h6s.trans hc5s, by simp only [Outputs, h6d], ?_⟩
      rcases h6m with hm | hm
      · left; exact hm.trans hc5m
      · right; exact hm
    · simp only [hb, if_false]
      exact ⟨hc5c, hc5s, rfl, Or.inl hc5m⟩
  obtain ⟨h6c', h6s', h6o', h6m'⟩ := h6
  have hout : (UpdateOvertake (if c5.bEnableRubberBanding then ApplyRubberBanding E c5 W else c5)
      DeltaTime W).Outputs = c5.Outputs := h7o.trans h6o'
  have hstate : (UpdateOvertake (if c5.bEnableRubberBanding then ApplyRubberBanding E c5 W
      else c5) DeltaTime W).MistakeState = (Flag, Duration) := h7s.trans h6s'
  simp only [Outputs, VehicleInputs.mk.injEq] at hout
  simp only [MistakeState, Prod.mk.injEq] at hstate
  refine ⟨?_, h7c.trans h6c', ?_, ?_, ?_, ?_⟩
  · rw [hout.1, hout.2.1, hout.2.2]
    exact ⟨hc5o, h5t, h5b⟩
  · rw [h7m]; exact h6m'
  · rw [hstate.1, hstate.2]; exact hm1
  · rw [hstate.1, hstate.2]; exact hm2
  · rw [hstate.1]; exact hm3

theorem Tick_result (E : Engine) (c c' : AAIRacingController) (DeltaTime : ℚ) (W : TickWorld)
    (w : Option VehicleInputs) (hv : c.ControlledVehicle ≠ none)
    (hw : c.RacelineWaypoints.length ≠ 0) (h : Tick E c DeltaTime W = some (c', w)) :
    UpdateRacingInputs E c DeltaTime W = some c' ∧ w = some c'.Outputs := by
  unfold Tick at h
  rw [if_neg (by simp [hv, hw])] at h
  cases hu : UpdateRacingInputs E c DeltaTime W with
  | none => simp [hu] at h
  | some c1 =>
    simp only [hu, Option.some.injEq, Prod.mk.injEq] at h
    obtain ⟨rfl, rfl⟩ := h
    obtain ⟨_, hc, _⟩ := UpdateRacingInputs_result E c c1 DeltaTime W hv hu
    have hveh : c1.ControlledVehicle = c.ControlledVehicle := by
      simp only [Config, Prod.mk.injEq] at hc
      exact hc.2.2.2.2.2.2.2.2
    refine ⟨rfl, ?_⟩
    simp [ApplyInputsToVehicle, Outputs, hveh, hv]

end AAIRacingController

namespace AAIRacingController

theorem Tick_MaxSpeedMultiplier (E : Engine) (c c' : AAIRacingController) (DeltaTime : ℚ)
    (W : TickWorld) (w : Option VehicleInputs) (h : Tick E c DeltaTime W = some (c', w)) :
    c'.MaxSpeedMultiplier = c.MaxSpeedMultiplier ∨
      (1 / 2 ≤ c'.MaxSpeedMultiplier ∧ c'.MaxSpeedMultiplier ≤ 12 / 10) := by
  by_cases hg : c.ControlledVehicle = none ∨ c.RacelineWaypoints.length = 0
  · unfold Tick at h
    rw [if_pos hg] at h
    simp only [Option.some.injEq, Prod.mk.injEq] at h
    left; rw [← h.1]
  · have hv : c.ControlledVehicle ≠ none := fun hn => hg (Or.inl hn)
    have hw : c.RacelineWaypoints.length ≠ 0 := fun hn => hg (Or.inr hn)
    obtain ⟨hu, _⟩ := Tick_result E c c' DeltaTime W w hv hw h
    exact (UpdateRacingInputs_result E c c' DeltaTime W hv hu).2.2.1

theorem RunTicks_MaxSpeedMultiplier (E : Engine) (ticks : List (ℚ × TickWorld)) :
    ∀ (c c' : AAIRacingController) (ws : List VehicleInputs),
      RunTicks E c ticks = some (c', ws) →
      1 / 2 ≤ c.MaxSpeedMultiplier → c.MaxSpeedMultiplier ≤ 12 / 10 →
      1 / 2 ≤ c'.MaxSpeedMultiplier ∧ c'.MaxSpeedMultiplier ≤ 12 / 10 := by
  induction ticks with
  | nil =>
    intro c c' ws h h1 h2
    simp only [RunTicks, Option.some.injEq, Prod.mk.injEq] at h
    rw [← h.1]; exact ⟨h1, h2⟩
  | cons t rest ih =>
    intro c c' ws h h1 h2
    obtain ⟨DeltaTime, W⟩ := t
    simp only [RunTicks] at h
    cases ht : Tick E c DeltaTime W with
    | none => simp [ht] at h
    | some r =>
      obtain ⟨c1, w⟩ := r
      simp only [ht] at h
      cases hr : RunTicks E c1 rest with
      | none => simp [hr] at h
      | some r2 =>
        obtain ⟨c2, ws2⟩ := r2
        simp only [hr, Option.some.injEq, Prod.mk.injEq] at h
        obtain ⟨rfl, _⟩ := h
        have hm := Tick_MaxSpeedMultiplier E c c1 DeltaTime W w ht
        have hb : 1 / 2 ≤ c1.MaxSpeedMultiplier ∧ c1.MaxSpeedMultiplier ≤ 12 / 10 := by
          rcases hm with hm | hm
          · rw [hm]; exact ⟨h1, h2⟩
          · exact hm
        exact ih c1 c2 ws2 hr hb.1 hb.2

end AAIRacingController

/-- C12: the values a tick writes to the vehicle are clamped: steering lies in [-1, 1],
throttle in [0, 1] and brake in [0, 1], for every pose, speed, waypoint list, obstacle
reading and configuration. -/
theorem C12_written_inputs_clamped (E : Engine) (c c' : AAIRacingController) (DeltaTime : ℚ)
    (W : TickWorld) (w : VehicleInputs)
    (h : AAIRacingController.Tick E c DeltaTime W = some (c', some w)) :
    (-1 ≤ w.Steering ∧ w.Steering ≤ 1) ∧ (0 ≤ w.Throttle ∧ w.Throttle ≤ 1) ∧
      (0 ≤ w.Brake ∧ w.Brake ≤ 1) := by
  by_cases hg : c.ControlledVehicle = none ∨ c.RacelineWaypoints.length = 0
  · unfold AAIRacingController.Tick at h
    rw [if_pos hg] at h
    simp at h
  · have hv : c.ControlledVehicle ≠ none := fun hn => hg (Or.inl hn)
    have hw : c.RacelineWaypoints.length ≠ 0 := fun hn => hg (Or.inr hn)
    obtain ⟨hu, hout⟩ := AAIRacingController.Tick_result E c c' DeltaTime W (some w) hv hw h
    have hr := (AAIRacingController.UpdateRacingInputs_result E c c' DeltaTime W hv hu).1
    simp only [Option.some.injEq] at hout
    rw [hout]
    exact hr

/-- Witness of C12: `drivingController` ticked in `stillWorld` writes (0, 1, 0). -/
theorem C12_written_inputs_clamped_witness :
    ∃ c', AAIRacingController.Tick gridEngine drivingController (1 / 60) stillWorld =
        some (c', some ⟨0, 1, 0⟩) ∧
      ((-1 : ℚ) ≤ 0 ∧ (0 : ℚ) ≤ 1) ∧ ((0 : ℚ) ≤ 1 ∧ (1 : ℚ) ≤ 1) ∧ ((0 : ℚ) ≤ 0 ∧ (0 : ℚ) ≤ 1) := by
  have hs : (AAIRacingController.Tick gridEngine drivingController (1 / 60) stillWorld).map
      (fun r => r.2) = some (some ⟨0, 1, 0⟩) := by decide!
  cases ht : AAIRacingController.Tick gridEngine drivingController (1 / 60) stillWorld with
  | none =>
    rw [ht] at hs
    exact absurd hs (by simp)
  | some r =>
    obtain ⟨c', w⟩ := r
    rw [ht] at hs
    simp only [Option.map_some', Option.some.injEq] at hs
    subst hs
    exact ⟨c', rfl,
      C12_written_inputs_clamped gridEngine drivingController c' (1 / 60) stillWorld ⟨0, 1, 0⟩ ht⟩

/-- C15: an `ApplyRubberBanding` call that finds the player's vehicle leaves
`MaxSpeedMultiplier` in [0.5, 1.2], whatever its value before, the strength and the
distance; and a multiplier inside that interval stays inside it over any run of ticks. -/
theorem C15_rubber_banding_bounds (E : Engine) (c : AAIRacingController) (W : TickWorld)
    (Player : FVector) (hp : W.PlayerVehicleLocation = some Player)
    (hv : c.ControlledVehicle ≠ none) :
    (1 / 2 ≤ (AAIRacingController.ApplyRubberBanding E c W).MaxSpeedMultiplier ∧
      (AAIRacingController.ApplyRubberBanding E c W).MaxSpeedMultiplier ≤ 12 / 10) ∧
    ∀ (ticks : List (ℚ × TickWorld)) (c' : AAIRacingController) (ws : List VehicleInputs),
      AAIRacingController.RunTicks E (AAIRacingController.ApplyRubberBanding E c W) ticks
        = some (c', ws) →
      1 / 2 ≤ c'.MaxSpeedMultiplier ∧ c'.MaxSpeedMultiplier ≤ 12 / 10 := by
  have hb : 1 / 2 ≤ (AAIRacingController.ApplyRubberBanding E c W).MaxSpeedMultiplier ∧
      (AAIRacingController.ApplyRubberBanding E c W).MaxSpeedMultiplier ≤ 12 / 10 := by
    simp only [AAIRacingController.ApplyRubberBanding, hp, if_neg hv]
    exact Clamp_bounds _ _ _ (by norm_num)
  refine ⟨hb, ?_⟩
  intro ticks c' ws h
  exact AAIRacingController.RunTicks_MaxSpeedMultiplier E ticks _ c' ws h hb.1 hb.2

/-- Witness of C15: `drivingController` with the player's vehicle 100 km away. -/
theorem C15_rubber_banding_bounds_witness :
    farPlayerWorld.PlayerVehicleLocation = some ⟨10000000, 0, 0⟩ ∧
      drivingController.ControlledVehicle ≠ none ∧
      1 / 2 ≤ (AAIRacingController.ApplyRubberBanding gridEngine drivingController
        farPlayerWorld).MaxSpeedMultiplier ∧
      (AAIRacingController.ApplyRubberBanding gridEngine drivingController
        farPlayerWorld).MaxSpeedMultiplier ≤ 12 / 10 :=
  ⟨rfl, by decide,
    (C15_rubber_banding_bounds gridEngine drivingController farPlayerWorld ⟨10000000, 0, 0⟩ rfl
      (by decide)).1⟩

/-- C13 (as amended): when the current speed (km/h) exceeds the positive target speed and
the distance to the nearest waypoint (m) is less than the computed braking distance,
`CalculateThrottleBrake` returns throttle 0 and a positive brake and sets the state to
Braking; the brake is `clamp((current - target) / target, 0, 1)` unless the obstacle sensor
reports an obstacle closer than 10 m, in which case it is 1. -/
theorem C13_braking_trigger (c : AAIRacingController) (W : TickWorld) (TargetSpeed : ℚ)
    (hv : c.ControlledVehicle ≠ none) (hn : c.WaypointSpeeds.length ≠ 0)
    (hT : c.LookUpTargetSpeed = some TargetSpeed) (hpos : 0 < TargetSpeed)
    (hfast : W.ForwardSpeed * (36 / 1000) > TargetSpeed)
    (hdist : c.RacingData.DistanceToNextWaypoint * (1 / 100) <
      c.BrakingDistance (W.ForwardSpeed * (36 / 1000)) TargetSpeed) :
    ∃ c', c.CalculateThrottleBrake W = some c' ∧
      c'.RacingData.ThrottleInput = 0 ∧ 0 < c'.RacingData.BrakeInput ∧
      c'.RacingData.CurrentState = EAIRacingState.Braking ∧
      ((∀ d, c.DetectObstaclesAhead W = some d → 10 ≤ d) →
        c'.RacingData.BrakeInput =
          Clamp ((W.ForwardSpeed * (36 / 1000) - TargetSpeed) / TargetSpeed) 0 1) ∧
      (∀ d, c.DetectObstaclesAhead W = some d → d < 10 → c'.RacingData.BrakeInput = 1) := by
  have hg : ¬ (c.ControlledVehicle = none ∨ c.WaypointSpeeds.length = 0) := by
    intro h; rcases h with h | h
    · exact hv h
    · exact hn h
  have hdiv : ClampValue (fquot (W.ForwardSpeed * (36 / 1000) - TargetSpeed) TargetSpeed) 0 1 =
      Clamp ((W.ForwardSpeed * (36 / 1000) - TargetSpeed) / TargetSpeed) 0 1 :=
    ClampValue_fquot_of_ne _ _ _ _ (ne_of_gt hpos)
  have hlaw : c.SpeedLaw (W.ForwardSpeed * (36 / 1000)) TargetSpeed =
      some (0, Clamp ((W.ForwardSpeed * (36 / 1000) - TargetSpeed) / TargetSpeed) 0 1,
        EAIRacingState.Braking) := by
    rw [AAIRacingController.SpeedLaw_eq, if_pos ⟨hfast, hdist⟩, hdiv]
  have hr : 0 < (W.ForwardSpeed * (36 / 1000) - TargetSpeed) / TargetSpeed :=
    div_pos (by linarith) hpos
  have hclamp : 0 < Clamp ((W.ForwardSpeed * (36 / 1000) - TargetSpeed) / TargetSpeed) 0 1 := by
    unfold Clamp
    rw [if_neg (not_lt.mpr (le_of_lt hr))]
    split_ifs
    · exact hr
    · norm_num
  rw [AAIRacingController.CalculateThrottleBrake_eq c W hg, hT]
  simp only [hlaw]
  refine ⟨_, rfl, ?_, ?_, rfl, ?_, ?_⟩
  · cases ho : c.DetectObstaclesAhead W with
    | none => simp [AAIRacingController.ObstacleOverride]
    | some d =>
      simp only [AAIRacingController.ObstacleOverride]
      split_ifs <;> simp
  · cases ho : c.DetectObstaclesAhead W with
    | none => simpa [AAIRacingController.ObstacleOverride] using hclamp
    | some d =>
      simp only [AAIRacingController.ObstacleOverride]
      split_ifs
      · norm_num
      · exact hclamp
      · exact hclamp
  · intro hfar
    cases ho : c.DetectObstaclesAhead W with
    | none => simp [AAIRacingController.ObstacleOverride]
    | some d =>
      have := hfar d ho
      simp only [AAIRacingController.ObstacleOverride]
      rw [if_neg (not_lt.mpr this)]
      split_ifs <;> rfl
  · intro d ho hd
    simp only [ho, AAIRacingController.ObstacleOverride, if_pos hd]

/-- Witness of C13: 200 km/h towards a waypoint of corner speed 50 that is 100 m away,
with a braking distance of more than 900 m: throttle 0, brake 1, state Braking. -/
theorem C13_braking_trigger_witness :
    ∃ c', brakingController.CalculateThrottleBrake fastWorld = some c' ∧
      c'.RacingData.ThrottleInput = 0 ∧ 0 < c'.RacingData.BrakeInput ∧
      c'.RacingData.CurrentState = EAIRacingState.Braking ∧
      c'.RacingData.BrakeInput = Clamp ((fastWorld.ForwardSpeed * (36 / 1000) - 50) / 50) 0 1 := by
  obtain ⟨c', h1, h2, h3, h4, h5, _⟩ := C13_braking_trigger brakingController fastWorld 50
    (by decide) (by decide) (by decide!) (by norm_num) (by decide!) (by decide!)
  refine ⟨c', h1, h2, h3, h4, h5 ?_⟩
  intro d hd
  have : brakingController.DetectObstaclesAhead fastWorld = none := by decide!
  rw [this] at hd
  exact absurd hd (by simp)

/-- Counterexample to C13 as stated: at 60 km/h, standing at a waypoint of corner speed 50
with an obstacle 5 m ahead, the brake is 1 while `clamp((60 - 50) / 50, 0, 1)` is 0.2. -/
theorem C13_counterexample :
    closeBrakingController.LookUpTargetSpeed = some 50 ∧
      blockedWorld.ForwardSpeed * (36 / 1000) = 60 ∧
      closeBrakingController.RacingData.DistanceToNextWaypoint * (1 / 100) <
        closeBrakingController.BrakingDistance 60 50 ∧
      (closeBrakingController.CalculateThrottleBrake blockedWorld).map
        (fun c' => (c'.RacingData.ThrottleInput, c'.RacingData.BrakeInput)) = some (0, 1) ∧
      Clamp (((60 : ℚ) - 50) / 50) 0 1 = 1 / 5 := by
  decide!

namespace AAIRacingController

theorem LookUpTargetSpeed_ApplyRubberBanding (E : Engine) (c : AAIRacingController)
    (W : TickWorld) :
    (ApplyRubberBanding E c W).WaypointSpeeds = c.WaypointSpeeds ∧
      (ApplyRubberBanding E c W).LookUpTargetSpeed = c.LookUpTargetSpeed := by
  obtain ⟨m, h, _⟩ := ApplyRubberBanding_result E c W
  rw [h]
  exact ⟨rfl, rfl⟩

end AAIRacingController

/-- C16 (failing input): `ApplyRubberBanding` never changes `WaypointSpeeds` nor the
target speed `CalculateThrottleBrake` looks up. `rubberController`, ticked with the player
next to it, lowers its multiplier from 0.85 to 0.847 and still looks up the target speed
212.5 computed with 0.85; an initialisation with 0.847 would give 211.75. -/
theorem C16_rubber_banding_not_fed_back :
    (∀ (E : Engine) (c : AAIRacingController) (W : TickWorld),
      (AAIRacingController.ApplyRubberBanding E c W).WaypointSpeeds = c.WaypointSpeeds ∧
      (AAIRacingController.ApplyRubberBanding E c W).LookUpTargetSpeed = c.LookUpTargetSpeed) ∧
    rubberController.MaxSpeedMultiplier = 17 / 20 ∧
    rubberController.LookUpTargetSpeed = some (425 / 2) ∧
    (AAIRacingController.Tick gridEngine rubberController (1 / 60) nearPlayerWorld).map
      (fun r => (r.1.MaxSpeedMultiplier, r.1.WaypointSpeeds, r.1.LookUpTargetSpeed))
      = some (847 / 1000, [425 / 2], some (425 / 2)) ∧
    (AAIRacingController.InitializeRacingAI gridEngine
      { rubberController with MaxSpeedMultiplier := 847 / 1000 }
      [FVector.ZeroVector]).WaypointSpeeds = [847 / 4] := by
  refine ⟨AAIRacingController.LookUpTargetSpeed_ApplyRubberBanding, ?_, ?_, ?_, ?_⟩ <;> decide!

theorem totalTime_cons (t : ℚ × TickWorld) (rest : List (ℚ × TickWorld)) :
    totalTime (t :: rest) = t.1 + totalTime rest := by
  simp [totalTime]

theorem totalTime_append (a b : List (ℚ × TickWorld)) :
    totalTime (a ++ b) = totalTime a + totalTime b := by
  simp [totalTime]

theorem totalTime_nonneg (ticks : List (ℚ × TickWorld)) (h : ∀ t ∈ ticks, 0 < t.1) :
    0 ≤ totalTime ticks := by
  induction ticks with
  | nil => simp [totalTime]
  | cons t rest ih =>
    rw [totalTime_cons]
    have h1 := h t (List.mem_cons_self _ _)
    have h2 := ih (fun x hx => h x (List.mem_cons_of_mem _ hx))
    linarith

namespace AAIRacingController

theorem RunTicks_append (E : Engine) (a b : List (ℚ × TickWorld)) :
    ∀ c : AAIRacingController, RunTicks E c (a ++ b) =
      match RunTicks E c a with
      | none => none
      | some (c1, w1) =>
        match RunTicks E c1 b with
        | none => none
        | some (c2, w2) => some (c2, w1 ++ w2) := by
  induction a with
  | nil =>
    intro c
    simp only [List.nil_append, RunTicks]
    cases RunTicks E c b with
    | none => rfl
    | some r => simp
  | cons t rest ih =>
    intro c
    obtain ⟨DeltaTime, W⟩ := t
    rw [List.cons_append]
    simp only [RunTicks]
    cases Tick E c DeltaTime W with
    | none => rfl
    | some r =>
      obtain ⟨c1, w⟩ := r
      simp only
      rw [ih c1]
      cases RunTicks E c1 rest with
      | none => rfl
      | some r1 =>
        obtain ⟨c2, w2⟩ := r1
        simp only
        cases RunTicks E c2 b with
        | none => rfl
        | some r2 => simp

/-- One tick of a controller with a vehicle and waypoints: the configuration is kept and
the mistake flag and countdown follow the mistake block. -/
theorem Tick_mistake (E : Engine) (c c' : AAIRacingController) (DeltaTime : ℚ) (W : TickWorld)
    (w : Option VehicleInputs) (hv : c.ControlledVehicle ≠ none)
    (hw : c.RacelineWaypoints.length ≠ 0) (h : Tick E c DeltaTime W = some (c', w)) :
    (c'.ControlledVehicle ≠ none ∧ c'.RacelineWaypoints.length ≠ 0 ∧
      c'.MistakeChance = c.MistakeChance) ∧
    (c.bCurrentlyMakingMistake = true →
      c'.bCurrentlyMakingMistake = decide (0 < c.MistakeDuration - DeltaTime) ∧
        c'.MistakeDuration = c.MistakeDuration - DeltaTime) ∧
    (c.bCurrentlyMakingMistake = false → W.FRand < c.MistakeChance * DeltaTime →
      c'.bCurrentlyMakingMistake = decide (0 < W.RandMistakeDuration - DeltaTime) ∧
        c'.MistakeDuration = W.RandMistakeDuration - DeltaTime) := by
  obtain ⟨hu, _⟩ := Tick_result E c c' DeltaTime W w hv hw h
  obtain ⟨_, hc, _, h1, h2, _⟩ := UpdateRacingInputs_result E c c' DeltaTime W hv hu
  simp only [Config, Prod.mk.injEq] at hc
  obtain ⟨_, _, _, _, _, hch, hwp, _, hveh⟩ := hc
  exact ⟨⟨by rw [hveh]; exact hv, by rw [hwp]; exact hw, hch⟩, h1, h2⟩

/-- While the countdown of a running mistake has not run out, the flag stays set. -/
theorem RunTicks_mistake_active (E : Engine) (ticks : List (ℚ × TickWorld)) :
    ∀ (c c' : AAIRacingController) (ws : List VehicleInputs),
      c.ControlledVehicle ≠ none → c.RacelineWaypoints.length ≠ 0 →
      c.bCurrentlyMakingMistake = true → (∀ t ∈ ticks, 0 < t.1) →
      RunTicks E c ticks = some (c', ws) → totalTime ticks < c.MistakeDuration →
      c'.bCurrentlyMakingMistake = true ∧
        c'.MistakeDuration = c.MistakeDuration - totalTime ticks ∧
        c'.ControlledVehicle ≠ none ∧ c'.RacelineWaypoints.length ≠ 0 := by
  induction ticks with
  | nil =>
    intro c c' ws hv hw hf _ h _
    simp only [RunTicks, Option.some.injEq, Prod.mk.injEq] at h
    obtain ⟨rfl, _⟩ := h
    exact ⟨hf, by simp [totalTime], hv, hw⟩
  | cons t rest ih =>
    intro c c' ws hv hw hf hpos h hlt
    obtain ⟨DeltaTime, W⟩ := t
    simp only [RunTicks] at h
    cases ht : Tick E c DeltaTime W with
    | none => simp [ht] at h
    | some r =>
      obtain ⟨c1, w⟩ := r
      simp only [ht] at h
      cases hr : RunTicks E c1 rest with
      | none => simp [hr] at h
      | some r2 =>
        obtain ⟨c2, ws2⟩ := r2
        simp only [hr, Option.some.injEq, Prod.mk.injEq] at h
        obtain ⟨rfl, _⟩ := h
        obtain ⟨⟨hv1, hw1, _⟩, hact, _⟩ := Tick_mistake E c c1 DeltaTime W w hv hw ht
        obtain ⟨hf1, hd1⟩ := hact hf
        have hrest := totalTime_nonneg rest (fun x hx => hpos x (List.mem_cons_of_mem _ hx))
        rw [totalTime_cons] at hlt
        simp only at hlt
        have hf1' : c1.bCurrentlyMakingMistake = true := by
          rw [hf1]; exact decide_eq_true (by linarith)
        obtain ⟨h1, h2, h3, h4⟩ := ih c1 c2 ws2 hv1 hw1 hf1'
          (fun x hx => hpos x (List.mem_cons_of_mem _ hx)) hr (by rw [hd1]; linarith)
        refine ⟨h1, ?_, h3, h4⟩
        rw [h2, hd1, totalTime_cons]
        ring

/-- From the tick that starts a mistake, the flag is set as long as the simulated time is
less than the drawn duration. -/
theorem RunTicks_mistake_started (E : Engine) (c c' : AAIRacingController) (DeltaTime : ℚ)
    (W : TickWorld) (rest : List (ℚ × TickWorld)) (ws : List VehicleInputs)
    (hv : c.ControlledVehicle ≠ none) (hw : c.RacelineWaypoints.length ≠ 0)
    (hflag : c.bCurrentlyMakingMistake = false)
    (htrig : W.FRand < c.MistakeChance * DeltaTime)
    (hpos : ∀ t ∈ (DeltaTime, W) :: rest, 0 < t.1)
    (hrun : RunTicks E c ((DeltaTime, W) :: rest) = some (c', ws))
    (hlt : totalTime ((DeltaTime, W) :: rest) < W.RandMistakeDuration) :
    c'.bCurrentlyMakingMistake = true ∧
      c'.MistakeDuration = W.RandMistakeDuration - totalTime ((DeltaTime, W) :: rest) ∧
      c'.ControlledVehicle ≠ none ∧ c'.RacelineWaypoints.length ≠ 0 := by
  simp only [RunTicks] at hrun
  cases ht : Tick E c DeltaTime W with
  | none => simp [ht] at hrun
  | some r =>
    obtain ⟨c1, w⟩ := r
    simp only [ht] at hrun
    cases hr : RunTicks E c1 rest with
    | none => simp [hr] at hrun
    | some r2 =>
      obtain ⟨c2, ws2⟩ := r2
      simp only [hr, Option.some.injEq, Prod.mk.injEq] at hrun
      obtain ⟨rfl, _⟩ := hrun
      obtain ⟨⟨hv1, hw1, _⟩, _, hstart⟩ := Tick_mistake E c c1 DeltaTime W w hv hw ht
      obtain ⟨hf1, hd1⟩ := hstart hflag htrig
      have hrest := totalTime_nonneg rest (fun x hx => hpos x (List.mem_cons_of_mem _ hx))
      rw [totalTime_cons] at hlt
      simp only at hlt
      have hf1' : c1.bCurrentlyMakingMistake = true := by
        rw [hf1]; exact decide_eq_true (by linarith)
      obtain ⟨h1, h2, h3, h4⟩ := RunTicks_mistake_active E rest c1 c2 ws2 hv1 hw1 hf1'
        (fun x hx => hpos x (List.mem_cons_of_mem _ hx)) hr (by rw [hd1]; linarith)
      refine ⟨h1, ?_, h3, h4⟩
      rw [h2, hd1, totalTime_cons]
      ring

end AAIRacingController

/-! ## Racing controller: the state the overtaking block starts from -/

namespace AAIRacingController

/-- `UpdateRacingInputs` for a controller with a vehicle, with the nearest-waypoint scan
spelled out. -/
theorem UpdateRacingInputs_scan (E : Engine) (c c' : AAIRacingController) (DeltaTime : ℚ)
    (W : TickWorld) (hv : c.ControlledVehicle ≠ none)
    (h : UpdateRacingInputs E c DeltaTime W = some c') :
    ∃ s c3 c5,
      CalculateSteeringInput E
        (UpdateMistake
          { c with RacingData :=
              { c.RacingData with
                CurrentWaypointIndex :=
                  (ScanWaypoints E W.VehicleLocation c.RacelineWaypoints 0
                    (FLT_MAX, c.RacingData.CurrentWaypointIndex)).2
                DistanceToNextWaypoint :=
                  (ScanWaypoints E W.VehicleLocation c.RacelineWaypoints 0
                    (FLT_MAX, c.RacingData.CurrentWaypointIndex)).1 } }
          DeltaTime W) W = some (s, c3) ∧
      CalculateThrottleBrake
        { c3 with RacingData := { c3.RacingData with SteeringInput := s } } W = some c5 ∧
      c' = UpdateOvertake (if c5.bEnableRubberBanding then ApplyRubberBanding E c5 W else c5)
        DeltaTime W := by
  simp only [UpdateRacingInputs, if_neg hv] at h
  split at h
  · exact absurd h (by simp)
  · rename_i s c3 hs
    split at h
    · exact absurd h (by simp)
    · rename_i c5 hc5
      simp only [Option.some.injEq] at h
      exact ⟨s, c3, c5, hs, hc5, h.symm⟩

/-- The mistake block leaves the overtaking members and the nearest waypoint alone. -/
theorem UpdateMistake_overtake (c : AAIRacingController) (DeltaTime : ℚ) (W : TickWorld) :
    (c.UpdateMistake DeltaTime W).RacingData.bIsOvertaking = c.RacingData.bIsOvertaking ∧
      (c.UpdateMistake DeltaTime W).OvertakeTimer = c.OvertakeTimer ∧
      (c.UpdateMistake DeltaTime W).bOvertakeLeft = c.bOvertakeLeft ∧
      (c.UpdateMistake DeltaTime W).RacingData.CurrentWaypointIndex
        = c.RacingData.CurrentWaypointIndex ∧
      (c.UpdateMistake DeltaTime W).RacingData.DistanceToNextWaypoint
        = c.RacingData.DistanceToNextWaypoint := by
  obtain ⟨_, _, _, _, _, h, _⟩ := UpdateMistake_result c DeltaTime W
  rw [h]
  exact ⟨rfl, rfl, rfl, rfl, rfl⟩

/-- The mistake flag after the mistake block does not depend on `RacingData`. -/
theorem UpdateMistake_flag (c : AAIRacingController) (R : FAIRacingData) (DeltaTime : ℚ)
    (W : TickWorld) :
    (UpdateMistake { c with RacingData := R } DeltaTime W).bCurrentlyMakingMistake
      = (c.UpdateMistake DeltaTime W).bCurrentlyMakingMistake := by
  obtain ⟨_, F1, _, _, _, h1, a1, b1, d1⟩ :=
    UpdateMistake_result { c with RacingData := R } DeltaTime W
  obtain ⟨_, F2, _, _, _, h2, a2, b2, d2⟩ := UpdateMistake_result c DeltaTime W
  rw [h1, h2]
  show F1 = F2
  cases hf : c.bCurrentlyMakingMistake with
  | true => rw [(a1 hf).1, (a2 hf).1]
  | false =>
    by_cases ht : W.FRand < c.MistakeChance * DeltaTime
    · rw [(b1 hf ht).1, (b2 hf ht).1]
    · rw [d1 hf ht, d2 hf ht]

/-- `CalculateSteeringInput` past its guard toggles `bOvertakeLeft` exactly when the
controller is overtaking, and writes nothing else. -/
theorem CalculateSteeringInput_toggle (E : Engine) (c c' : AAIRacingController) (W : TickWorld)
    (s : ℚ) (hg : ¬ (c.ControlledVehicle = none ∨ c.RacelineWaypoints.length = 0))
    (h : CalculateSteeringInput E c W = some (s, c')) :
    c' = if c.RacingData.bIsOvertaking then { c with bOvertakeLeft := !c.bOvertakeLeft }
      else c := by
  unfold CalculateSteeringInput at h
  rw [if_neg hg] at h
  simp only at h
  cases hw : indexArray c.RacelineWaypoints
      (c.GetNextWaypointIndex c.RacingData.CurrentWaypointIndex
        (Clamp ⌈W.ForwardSpeed / 100⌉ 1 10)) with
  | none => simp [hw] at h
  | some Waypoint =>
    by_cases ho : c.RacingData.bIsOvertaking = true
    · simp only [hw, ho, if_true, GetOvertakingOffset, Option.some.injEq, Prod.mk.injEq] at h
      rw [if_pos ho]
      exact h.2.symm
    · simp only [hw, ho, if_false, Option.some.injEq, Prod.mk.injEq] at h
      rw [if_neg ho]
      exact h.2.symm

end AAIRacingController

namespace AAIRacingController

/-- The state on which `UpdateRacingInputs` runs its overtaking block: the overtaking flag
and timer are those of the start of the tick, the mistake flag is the one the mistake block
left, the nearest waypoint is the one the scan found, and the side flag was toggled by the
steering step exactly when the controller was overtaking. -/
theorem UpdateRacingInputs_before_overtake (E : Engine) (c c' : AAIRacingController)
    (DeltaTime : ℚ) (W : TickWorld) (hv : c.ControlledVehicle ≠ none)
    (hw : c.RacelineWaypoints.length ≠ 0)
    (h : UpdateRacingInputs E c DeltaTime W = some c') :
    ∃ c6 : AAIRacingController, c' = c6.UpdateOvertake DeltaTime W ∧
      c6.Config = c.Config ∧
      c6.RacingData.bIsOvertaking = c.RacingData.bIsOvertaking ∧
      c6.OvertakeTimer = c.OvertakeTimer ∧
      c6.bCurrentlyMakingMistake = (c.UpdateMistake DeltaTime W).bCurrentlyMakingMistake ∧
      c6.bOvertakeLeft =
        (if c.RacingData.bIsOvertaking then !c.bOvertakeLeft else c.bOvertakeLeft) ∧
      c6.RacingData.CurrentWaypointIndex =
        (ScanWaypoints E W.VehicleLocation c.RacelineWaypoints 0
          (FLT_MAX, c.RacingData.CurrentWaypointIndex)).2 ∧
      c6.RacingData.DistanceToNextWaypoint =
        (ScanWaypoints E W.VehicleLocation c.RacelineWaypoints 0
          (FLT_MAX, c.RacingData.CurrentWaypointIndex)).1 := by
  obtain ⟨s, c3, c5, hs, hc5, rfl⟩ := UpdateRacingInputs_scan E c c' DeltaTime W hv h
  generalize hc1 : ({ c with RacingData :=
      { c.RacingData with
        CurrentWaypointIndex :=
          (ScanWaypoints E W.VehicleLocation c.RacelineWaypoints 0
            (FLT_MAX, c.RacingData.CurrentWaypointIndex)).2
        DistanceToNextWaypoint :=
          (ScanWaypoints E W.VehicleLocation c.RacelineWaypoints 0
            (FLT_MAX, c.RacingData.CurrentWaypointIndex)).1 } } : AAIRacingController) = c1
    at hs
  have e1 : c1.Config = c.Config ∧ c1.RacingData.bIsOvertaking = c.RacingData.bIsOvertaking ∧
      c1.OvertakeTimer = c.OvertakeTimer ∧ c1.bOvertakeLeft = c.bOvertakeLeft ∧
      c1.RacingData.CurrentWaypointIndex =
        (ScanWaypoints E W.VehicleLocation c.RacelineWaypoints 0
          (FLT_MAX, c.RacingData.CurrentWaypointIndex)).2 ∧
      c1.RacingData.DistanceToNextWaypoint =
        (ScanWaypoints E W.VehicleLocation c.RacelineWaypoints 0
          (FLT_MAX, c.RacingData.CurrentWaypointIndex)).1 ∧
      (c1.UpdateMistake DeltaTime W).bCurrentlyMakingMistake
        = (c.UpdateMistake DeltaTime W).bCurrentlyMakingMistake := by
    rw [← hc1]
    exact ⟨rfl, rfl, rfl, rfl, rfl, rfl, UpdateMistake_flag c _ DeltaTime W⟩
  obtain ⟨e1c, e1o, e1t, e1l, e1i, e1d, e1f⟩ := e1
  obtain ⟨e2c, _⟩ := UpdateMistake_frame c1 DeltaTime W
  obtain ⟨e2o, e2t, e2l, e2i, e2d⟩ := UpdateMistake_overtake c1 DeltaTime W
  generalize hc2 : c1.UpdateMistake DeltaTime W = c2 at hs e1f e2c e2o e2t e2l e2i e2d
  have hg2 : ¬ (c2.ControlledVehicle = none ∨ c2.RacelineWaypoints.length = 0) := by
    have hcfg := e2c.trans e1c
    simp only [Config, Prod.mk.injEq] at hcfg
    rw [hcfg.2.2.2.2.2.2.1, hcfg.2.2.2.2.2.2.2.2]
    exact fun hn => hn.elim hv hw
  have h3 := CalculateSteeringInput_toggle E c2 c3 W s hg2 hs
  have e3 : c3.Config = c2.Config ∧ c3.RacingData = c2.RacingData ∧
      c3.OvertakeTimer = c2.OvertakeTimer ∧
      c3.bCurrentlyMakingMistake = c2.bCurrentlyMakingMistake ∧
      c3.bOvertakeLeft =
        (if c2.RacingData.bIsOvertaking then !c2.bOvertakeLeft else c2.bOvertakeLeft) := by
    rw [h3]
    cases c2.RacingData.bIsOvertaking
    · exact ⟨rfl, rfl, rfl, rfl, rfl⟩
    · exact ⟨rfl, rfl, rfl, rfl, rfl⟩
  obtain ⟨e3c, e3r, e3t, e3f, e3l⟩ := e3
  obtain ⟨T, B, S, h5, _, _⟩ := CalculateThrottleBrake_result _ c5 W hc5
  have e5 : c5.Config = c3.Config ∧
      c5.RacingData.bIsOvertaking = c3.RacingData.bIsOvertaking ∧
      c5.OvertakeTimer = c3.OvertakeTimer ∧
      c5.bCurrentlyMakingMistake = c3.bCurrentlyMakingMistake ∧
      c5.bOvertakeLeft = c3.bOvertakeLeft ∧
      c5.RacingData.CurrentWaypointIndex = c3.RacingData.CurrentWaypointIndex ∧
      c5.RacingData.DistanceToNextWaypoint = c3.RacingData.DistanceToNextWaypoint := by
    rw [h5]
    exact ⟨rfl, rfl, rfl, rfl, rfl, rfl, rfl⟩
  obtain ⟨e5c, e5o, e5t, e5f, e5l, e5i, e5d⟩ := e5
  have e6 : (if c5.bEnableRubberBanding then ApplyRubberBanding E c5 W else c5).Config
        = c5.Config ∧
      (if c5.bEnableRubberBanding then ApplyRubberBanding E c5 W else c5).RacingData
        = c5.RacingData ∧
      (if c5.bEnableRubberBanding then ApplyRubberBanding E c5 W else c5).OvertakeTimer
        = c5.OvertakeTimer ∧
      (if c5.bEnableRubberBanding then ApplyRubberBanding E c5 W
        else c5).bCurrentlyMakingMistake = c5.bCurrentlyMakingMistake ∧
      (if c5.bEnableRubberBanding then ApplyRubberBanding E c5 W else c5).bOvertakeLeft
        = c5.bOvertakeLeft := by
    by_cases hb : c5.bEnableRubberBanding = true
    · rw [if_pos hb]
      obtain ⟨m, hm, _⟩ := ApplyRubberBanding_result E c5 W
      rw [hm]
      exact ⟨rfl, rfl, rfl, rfl, rfl⟩
    · rw [if_neg hb]
      exact ⟨rfl, rfl, rfl, rfl, rfl⟩
  obtain ⟨e6c, e6r, e6t, e6f, e6l⟩ := e6
  refine ⟨_, rfl, ?_, ?_, ?_, ?_, ?_, ?_, ?_⟩
  · exact e6c.trans (e5c.trans (e3c.trans (e2c.trans e1c)))
  · rw [e6r, e5o, e3r, e2o, e1o]
  · rw [e6t, e5t, e3t, e2t, e1t]
  · rw [e6f, e5f, e3f, e1f]
  · rw [e6l, e5l, e3l, e2o, e2l, e1o, e1l]
  · rw [e6r, e5i, e3r, e2i, e1i]
  · rw [e6r, e5d, e3r, e2d, e1d]

end AAIRacingController

namespace AAIRacingController

/-- `CalculateSteeringInput` past its guard, in terms of the offset added to the target
point and the steering toward it. -/
theorem CalculateSteeringInput_eq (E : Engine) (c : AAIRacingController) (W : TickWorld)
    (hg : ¬ (c.ControlledVehicle = none ∨ c.RacelineWaypoints.length = 0)) :
    CalculateSteeringInput E c W =
      match indexArray c.RacelineWaypoints
        (c.GetNextWaypointIndex c.RacingData.CurrentWaypointIndex
          (Clamp ⌈W.ForwardSpeed / 100⌉ 1 10)) with
      | none => none
      | some Waypoint =>
        some (SteeringToward E c W
            (match c.SteeringTargetOffset with
              | some Offset => FVector.add Waypoint (FVector.scale W.VehicleRight Offset)
              | none => Waypoint),
          if c.RacingData.bIsOvertaking then { c with bOvertakeLeft := !c.bOvertakeLeft }
          else c) := by
  unfold CalculateSteeringInput
  rw [if_neg hg]
  simp only
  cases indexArray c.RacelineWaypoints
      (c.GetNextWaypointIndex c.RacingData.CurrentWaypointIndex
        (Clamp ⌈W.ForwardSpeed / 100⌉ 1 10)) with
  | none => rfl
  | some Waypoint =>
    cases hb : c.RacingData.bIsOvertaking with
    | true => simp only [SteeringTargetOffset, hb, if_true, GetOvertakingOffset]; rfl
    | false => simp [SteeringTargetOffset, hb, SteeringToward]

end AAIRacingController

/-! ## Racing controller: obstacle override and overtaking, claims -/

/-- C25: when `CalculateThrottleBrake` reaches its speed law and the law yields
`Throttle` and `Brake`, the call returns, and the obstacle sensor decides the outputs: an
obstacle closer than 10 m gives brake 1 and throttle 0; an obstacle at 10 m or more and
closer than 30 m gives half the law's throttle and the law's brake; no reported obstacle
leaves both outputs of the law unchanged. -/
theorem C25_obstacle_override (c : AAIRacingController) (W : TickWorld)
    (TargetSpeed Throttle Brake : ℚ) (State : EAIRacingState)
    (hv : c.ControlledVehicle ≠ none) (hn : c.WaypointSpeeds.length ≠ 0)
    (hT : c.LookUpTargetSpeed = some TargetSpeed)
    (hlaw : c.SpeedLaw (W.ForwardSpeed * (36 / 1000)) TargetSpeed
      = some (Throttle, Brake, State)) :
    ∃ c', c.CalculateThrottleBrake W = some c' ∧
      (∀ d, c.DetectObstaclesAhead W = some d → d < 10 →
        c'.RacingData.BrakeInput = 1 ∧ c'.RacingData.ThrottleInput = 0) ∧
      (∀ d, c.DetectObstaclesAhead W = some d → 10 ≤ d → d < 30 →
        c'.RacingData.ThrottleInput = Throttle / 2 ∧ c'.RacingData.BrakeInput = Brake) ∧
      (c.DetectObstaclesAhead W = none →
        c'.RacingData.ThrottleInput = Throttle ∧ c'.RacingData.BrakeInput = Brake) := by
  have hg : ¬ (c.ControlledVehicle = none ∨ c.WaypointSpeeds.length = 0) :=
    fun h => h.elim hv hn
  rw [AAIRacingController.CalculateThrottleBrake_eq c W hg, hT]
  simp only [hlaw]
  refine ⟨_, rfl, ?_, ?_, ?_⟩
  · intro d hd h10
    simp only [hd, AAIRacingController.ObstacleOverride, if_pos h10]
    exact ⟨trivial, trivial⟩
  · intro d hd h10 h30
    simp only [hd, AAIRacingController.ObstacleOverride, if_neg (not_lt.mpr h10), if_pos h30]
    exact ⟨by ring, trivial⟩
  · intro hd
    simp only [hd, AAIRacingController.ObstacleOverride]
    exact ⟨trivial, trivial⟩

/-- Witness of C25: `drivingController` with an obstacle 15 m ahead: the speed law gives
throttle 1 and brake 0, the call writes throttle 1/2 and brake 0. -/
theorem C25_obstacle_override_witness :
    ∃ c', drivingController.CalculateThrottleBrake obstacleWorld = some c' ∧
      c'.RacingData.ThrottleInput = 1 / 2 ∧ c'.RacingData.BrakeInput = 0 := by
  obtain ⟨c', h, _, h2, _⟩ := C25_obstacle_override drivingController obstacleWorld (425 / 2) 1 0
    EAIRacingState.FollowingRaceline (by decide) (by decide) (by decide!) (by decide!)
  exact ⟨c', h, h2 15 (by decide!) (by norm_num) (by norm_num)⟩

/-- C29: after every `CalculateThrottleBrake` call that returns, throttle and brake are
never both non-zero: their product is 0, whatever the speed, the target speed, the
distance to the waypoint and the obstacle reading. -/
theorem C29_throttle_brake_exclusive (c c' : AAIRacingController) (W : TickWorld)
    (h : c.CalculateThrottleBrake W = some c') :
    c'.RacingData.ThrottleInput * c'.RacingData.BrakeInput = 0 := by
  by_cases hg : c.ControlledVehicle = none ∨ c.WaypointSpeeds.length = 0
  · unfold AAIRacingController.CalculateThrottleBrake at h
    rw [if_pos hg] at h
    simp only [Option.some.injEq] at h
    rw [← h]
    exact zero_mul _
  · rw [AAIRacingController.CalculateThrottleBrake_eq c W hg] at h
    cases hT : c.LookUpTargetSpeed with
    | none => simp [hT] at h
    | some T =>
      cases hlaw : c.SpeedLaw (W.ForwardSpeed * (36 / 1000)) T with
      | none => simp [hT, hlaw] at h
      | some r =>
        obtain ⟨Throttle, Brake, State⟩ := r
        simp only [hT, hlaw, Option.some.injEq] at h
        obtain ⟨_, _, hz⟩ := AAIRacingController.SpeedLaw_range c _ _ Throttle Brake State hlaw
        rw [← h]
        show (AAIRacingController.ObstacleOverride (c.DetectObstaclesAhead W) Throttle Brake).1 *
          (AAIRacingController.ObstacleOverride (c.DetectObstaclesAhead W) Throttle Brake).2 = 0
        unfold AAIRacingController.ObstacleOverride
        cases c.DetectObstaclesAhead W with
        | none =>
          rcases hz with hz | hz
          · simp [hz]
          · simp [hz]
        | some d =>
          simp only
          by_cases h10 : d < 10
          · rw [if_pos h10]
            exact zero_mul _
          · rw [if_neg h10]
            by_cases h30 : d < 30
            · rw [if_pos h30]
              rcases hz with hz | hz
              · simp [hz]
              · simp [hz]
            · rw [if_neg h30]
              rcases hz with hz | hz
              · simp [hz]
              · simp [hz]

/-- Witness of C29: `drivingController` with an obstacle 15 m ahead writes throttle 1/2 and
brake 0. -/
theorem C29_throttle_brake_exclusive_witness :
    ∃ c', drivingController.CalculateThrottleBrake obstacleWorld = some c' ∧
      c'.RacingData.ThrottleInput = 1 / 2 ∧
      c'.RacingData.ThrottleInput * c'.RacingData.BrakeInput = 0 := by
  have hs : (drivingController.CalculateThrottleBrake obstacleWorld).map
      (fun r => r.RacingData.ThrottleInput) = some (1 / 2) := by decide!
  cases hc : drivingController.CalculateThrottleBrake obstacleWorld with
  | none =>
    rw [hc] at hs
    exact absurd hs (by simp)
  | some c' =>
    rw [hc] at hs
    simp only [Option.map_some', Option.some.injEq] at hs
    exact ⟨c', rfl, hs, C29_throttle_brake_exclusive drivingController c' obstacleWorld hc⟩

namespace AAIRacingController

theorem ShouldAttemptOvertake_iff (c : AAIRacingController) (W : TickWorld) :
    c.ShouldAttemptOvertake W = true ↔
      c.RacingData.bIsOvertaking = false ∧ c.bCurrentlyMakingMistake = false ∧
        ∃ d, c.DetectObstaclesAhead W = some d ∧ d < 20 * c.GetOvertakingAggression := by
  unfold ShouldAttemptOvertake
  cases ho : c.RacingData.bIsOvertaking with
  | true => simp
  | false =>
    cases hm : c.bCurrentlyMakingMistake with
    | true => simp
    | false =>
      cases hd : c.DetectObstaclesAhead W with
      | none => simp
      | some d => simp

/-- The overtaking block on a controller that is overtaking only decrements the timer. -/
theorem UpdateOvertake_of_overtaking (c : AAIRacingController) (DeltaTime : ℚ) (W : TickWorld)
    (ho : c.RacingData.bIsOvertaking = true) :
    (c.UpdateOvertake DeltaTime W).OvertakeTimer = c.OvertakeTimer - DeltaTime := by
  have hs : c.ShouldAttemptOvertake W = false := by
    simp [ShouldAttemptOvertake, ho]
  unfold UpdateOvertake
  simp only [hs, Bool.false_eq_true, if_false, ho, if_true]
  by_cases ht : c.OvertakeTimer - DeltaTime ≤ 0
  · rw [if_pos ht]
  · rw [if_neg ht]

/-- The overtaking block on a controller that is not overtaking and is making a mistake
changes nothing. -/
theorem UpdateOvertake_of_mistake (c : AAIRacingController) (DeltaTime : ℚ) (W : TickWorld)
    (ho : c.RacingData.bIsOvertaking = false) (hm : c.bCurrentlyMakingMistake = true) :
    c.UpdateOvertake DeltaTime W = c := by
  have hs : c.ShouldAttemptOvertake W = false := by
    simp [ShouldAttemptOvertake, hm]
  unfold UpdateOvertake
  simp only [hs, Bool.false_eq_true, if_false, ho]

/-- The overtaking block leaves the side flag alone. -/
theorem UpdateOvertake_side (c : AAIRacingController) (DeltaTime : ℚ) (W : TickWorld) :
    (c.UpdateOvertake DeltaTime W).bOvertakeLeft = c.bOvertakeLeft := by
  obtain ⟨_, _, _, h⟩ := UpdateOvertake_result c DeltaTime W
  rw [h]

end AAIRacingController

/-- C26: `ShouldAttemptOvertake` returns true exactly when the controller is not
overtaking, is not making a mistake, and the obstacle sensor reports a distance strictly
below 20 × the overtaking aggression, in metres; so the overtaking block of a controller
that is overtaking only decrements the timer, and a tick that starts with an overtake in
progress either returns at the guard, changing nothing, or decrements the timer by the
step: the 3 s countdown is not restarted. -/
theorem C26_overtake_trigger (E : Engine) (c : AAIRacingController) (DeltaTime : ℚ)
    (W : TickWorld) :
    (c.ShouldAttemptOvertake W = true ↔
      c.RacingData.bIsOvertaking = false ∧ c.bCurrentlyMakingMistake = false ∧
        ∃ d, c.DetectObstaclesAhead W = some d ∧ d < 20 * c.GetOvertakingAggression) ∧
    (c.RacingData.bIsOvertaking = true →
      (c.UpdateOvertake DeltaTime W).OvertakeTimer = c.OvertakeTimer - DeltaTime) ∧
    (∀ c' w, c.RacingData.bIsOvertaking = true →
      AAIRacingController.Tick E c DeltaTime W = some (c', w) →
      c' = c ∨ c'.OvertakeTimer = c.OvertakeTimer - DeltaTime) := by
  refine ⟨AAIRacingController.ShouldAttemptOvertake_iff c W,
    AAIRacingController.UpdateOvertake_of_overtaking c DeltaTime W, ?_⟩
  intro c' w ho h
  by_cases hg : c.ControlledVehicle = none ∨ c.RacelineWaypoints.length = 0
  · unfold AAIRacingController.Tick at h
    rw [if_pos hg] at h
    simp only [Option.some.injEq, Prod.mk.injEq] at h
    exact Or.inl h.1.symm
  · have hv : c.ControlledVehicle ≠ none := fun hn => hg (Or.inl hn)
    have hw : c.RacelineWaypoints.length ≠ 0 := fun hn => hg (Or.inr hn)
    obtain ⟨hu, _⟩ := AAIRacingController.Tick_result E c c' DeltaTime W w hv hw h
    obtain ⟨c6, rfl, _, h6o, h6t, _⟩ :=
      AAIRacingController.UpdateRacingInputs_before_overtake E c _ DeltaTime W hv hw hu
    right
    rw [AAIRacingController.UpdateOvertake_of_overtaking c6 DeltaTime W (h6o.trans ho), h6t]

/-- Witness of C26: `overtakingController`, whose timer stands at 3 - 1/60, ticked with
the obstacle still 15 m ahead: the timer goes to 3 - 2/60. -/
theorem C26_overtake_trigger_witness :
    overtakingController.RacingData.bIsOvertaking = true ∧
      overtakingController.OvertakeTimer = 3 - 1 / 60 ∧
      (overtakingController.UpdateOvertake (1 / 60) obstacleWorld).OvertakeTimer
        = overtakingController.OvertakeTimer - 1 / 60 :=
  ⟨by decide!, by decide!,
    (C26_overtake_trigger gridEngine overtakingController (1 / 60) obstacleWorld).2.1
      (by decide!)⟩

/-- C27: two ticks of `drivingController`, the first with an obstacle 15 m ahead, the
second with a random draw of 0, end with the overtaking flag and the mistake flag both
set: the mistake started during the overtake. An overtake never starts during a mistake:
`ShouldAttemptOvertake` is false while the mistake flag is set, and a tick that starts
without an overtake and ends with the mistake flag set ends without an overtake. -/
theorem C27_overtake_and_mistake_together :
    (∃ c1 w1 c2 w2,
      AAIRacingController.Tick gridEngine drivingController (1 / 60) obstacleWorld
        = some (c1, w1) ∧
      c1.RacingData.bIsOvertaking = true ∧ c1.bCurrentlyMakingMistake = false ∧
      AAIRacingController.Tick gridEngine c1 (1 / 60) unluckyWorld = some (c2, w2) ∧
      c2.RacingData.bIsOvertaking = true ∧ c2.bCurrentlyMakingMistake = true) ∧
    (∀ (c : AAIRacingController) (W : TickWorld), c.bCurrentlyMakingMistake = true →
      c.ShouldAttemptOvertake W = false) ∧
    (∀ (E : Engine) (c c' : AAIRacingController) (DeltaTime : ℚ) (W : TickWorld)
      (w : Option VehicleInputs),
      AAIRacingController.Tick E c DeltaTime W = some (c', w) →
      c.RacingData.bIsOvertaking = false → c'.bCurrentlyMakingMistake = true →
      c'.RacingData.bIsOvertaking = false) := by
  refine ⟨?_, ?_, ?_⟩
  · have h1 : (AAIRacingController.Tick gridEngine drivingController (1 / 60)
        obstacleWorld).isSome = true := by decide!
    cases ht : AAIRacingController.Tick gridEngine drivingController (1 / 60) obstacleWorld with
    | none =>
      rw [ht] at h1
      exact absurd h1 (by simp)
    | some r1 =>
      obtain ⟨c1, w1⟩ := r1
      have hc1 : overtakingController = c1 := by
        unfold overtakingController
        rw [ht]
        rfl
      have h2 : (AAIRacingController.Tick gridEngine overtakingController (1 / 60)
          unluckyWorld).isSome = true := by decide!
      rw [hc1] at h2
      cases ht2 : AAIRacingController.Tick gridEngine c1 (1 / 60) unluckyWorld with
      | none =>
        rw [ht2] at h2
        exact absurd h2 (by simp)
      | some r2 =>
        obtain ⟨c2, w2⟩ := r2
        have hf : (AAIRacingController.Tick gridEngine overtakingController (1 / 60)
            unluckyWorld).map (fun r => (r.1.RacingData.bIsOvertaking,
              r.1.bCurrentlyMakingMistake)) = some (true, true) := by decide!
        rw [hc1, ht2] at hf
        simp only [Option.map_some', Option.some.injEq, Prod.mk.injEq] at hf
        have hs : overtakingController.RacingData.bIsOvertaking = true ∧
            overtakingController.bCurrentlyMakingMistake = false := by decide!
        rw [hc1] at hs
        exact ⟨c1, w1, c2, w2, rfl, hs.1, hs.2, ht2, hf.1, hf.2⟩
  · intro c W hm
    simp [AAIRacingController.ShouldAttemptOvertake, hm]
  · intro E c c' DeltaTime W w h ho hm
    by_cases hg : c.ControlledVehicle = none ∨ c.RacelineWaypoints.length = 0
    · unfold AAIRacingController.Tick at h
      rw [if_pos hg] at h
      simp only [Option.some.injEq, Prod.mk.injEq] at h
      rw [← h.1]
      exact ho
    · have hv : c.ControlledVehicle ≠ none := fun hn => hg (Or.inl hn)
      have hw : c.RacelineWaypoints.length ≠ 0 := fun hn => hg (Or.inr hn)
      obtain ⟨hu, _⟩ := AAIRacingController.Tick_result E c c' DeltaTime W w hv hw h
      obtain ⟨c6, rfl, _, h6o, _⟩ :=
        AAIRacingController.UpdateRacingInputs_before_overtake E c _ DeltaTime W hv hw hu
      have h6m : c6.bCurrentlyMakingMistake = true := by
        have hf := (AAIRacingController.UpdateOvertake_frame c6 DeltaTime W).2.2.1
        simp only [AAIRacingController.MistakeState, Prod.mk.injEq] at hf
        rw [← hf.1]
        exact hm
      rw [AAIRacingController.UpdateOvertake_of_mistake c6 DeltaTime W (h6o.trans ho) h6m]
      exact h6o.trans ho

/-- Witness of C27: a tick of `drivingController` in which a mistake starts while an
obstacle is 15 m ahead ends with the mistake flag set and no overtake. -/
theorem C27_overtake_and_mistake_together_witness :
    ∃ c' w, AAIRacingController.Tick gridEngine drivingController (1 / 60) unluckyObstacleWorld
        = some (c', w) ∧
      c'.bCurrentlyMakingMistake = true ∧ c'.RacingData.bIsOvertaking = false := by
  have hf : (AAIRacingController.Tick gridEngine drivingController (1 / 60)
      unluckyObstacleWorld).map (fun r => r.1.bCurrentlyMakingMistake) = some true := by
    decide!
  cases ht : AAIRacingController.Tick gridEngine drivingController (1 / 60)
      unluckyObstacleWorld with
  | none =>
    rw [ht] at hf
    exact absurd hf (by simp)
  | some r =>
    obtain ⟨c', w⟩ := r
    rw [ht] at hf
    simp only [Option.map_some', Option.some.injEq] at hf
    exact ⟨c', w, rfl, hf,
      C27_overtake_and_mistake_together.2.2 gridEngine drivingController c' (1 / 60)
        unluckyObstacleWorld w ht (by decide!) hf⟩

/-- C21 (as amended): the side flag is toggled by every steering computation made while an
overtake is in progress, once per tick and not once per attempt: a tick past the guard
toggles `bOvertakeLeft` exactly when it starts with the overtaking flag set, and when the
overtake is still in progress after the tick, the lateral offset the next tick adds to the
steering target is the negation of the one this tick added. -/
theorem C21_overtake_side_toggles_every_tick (E : Engine) (c c' : AAIRacingController)
    (DeltaTime : ℚ) (W : TickWorld) (w : Option VehicleInputs)
    (hv : c.ControlledVehicle ≠ none) (hw : c.RacelineWaypoints.length ≠ 0)
    (h : AAIRacingController.Tick E c DeltaTime W = some (c', w)) :
    c'.bOvertakeLeft =
      (if c.RacingData.bIsOvertaking then !c.bOvertakeLeft else c.bOvertakeLeft) ∧
    (c.RacingData.bIsOvertaking = true → c'.RacingData.bIsOvertaking = true →
      ∃ Offset, c.SteeringTargetOffset = some Offset ∧
        c'.SteeringTargetOffset = some (-Offset)) := by
  obtain ⟨hu, _⟩ := AAIRacingController.Tick_result E c c' DeltaTime W w hv hw h
  obtain ⟨c6, rfl, h6c, _, _, _, h6l, _⟩ :=
    AAIRacingController.UpdateRacingInputs_before_overtake E c _ DeltaTime W hv hw hu
  have hside : (c6.UpdateOvertake DeltaTime W).bOvertakeLeft =
      (if c.RacingData.bIsOvertaking then !c.bOvertakeLeft else c.bOvertakeLeft) := by
    rw [AAIRacingController.UpdateOvertake_side, h6l]
  refine ⟨hside, ?_⟩
  intro ho ho'
  have hb : (c6.UpdateOvertake DeltaTime W).RacingBehavior = c.RacingBehavior := by
    have hcfg := (AAIRacingController.UpdateOvertake_frame c6 DeltaTime W).1.trans h6c
    simp only [AAIRacingController.Config, Prod.mk.injEq] at hcfg
    exact hcfg.1
  rw [ho, if_pos rfl] at hside
  have h1 : c.SteeringTargetOffset = some c.GetOvertakingOffset.1 := by
    simp only [AAIRacingController.SteeringTargetOffset, ho, if_true]
  refine ⟨c.GetOvertakingOffset.1, h1, ?_⟩
  simp only [AAIRacingController.SteeringTargetOffset, ho', if_true,
    AAIRacingController.GetOvertakingOffset, AAIRacingController.GetOvertakingAggression,
    hside, hb, Option.some.injEq]
  cases c.bOvertakeLeft
  · simp
  · simp

/-- Witness of C21: `overtakingController` ticked once more: the flag has been
toggled, and the offsets of the two ticks are 400 and -400 cm. -/
theorem C21_overtake_side_toggles_every_tick_witness :
    ∃ c' w, AAIRacingController.Tick gridEngine overtakingController (1 / 60) stillWorld
        = some (c', w) ∧
      c'.bOvertakeLeft = (!overtakingController.bOvertakeLeft) ∧
      overtakingController.SteeringTargetOffset = some 400 ∧
      c'.RacingData.bIsOvertaking = true := by
  have hf : (AAIRacingController.Tick gridEngine overtakingController (1 / 60)
      stillWorld).map (fun r => r.1.RacingData.bIsOvertaking) = some true := by decide!
  cases ht : AAIRacingController.Tick gridEngine overtakingController (1 / 60) stillWorld with
  | none =>
    rw [ht] at hf
    exact absurd hf (by simp)
  | some r =>
    obtain ⟨c', w⟩ := r
    rw [ht] at hf
    simp only [Option.map_some', Option.some.injEq] at hf
    have ho : overtakingController.RacingData.bIsOvertaking = true := by decide!
    have h := (C21_overtake_side_toggles_every_tick gridEngine overtakingController c' (1 / 60)
      stillWorld w (by decide!) (by decide!) ht).1
    rw [ho, if_pos rfl] at h
    exact ⟨c', w, rfl, h, by decide!, hf⟩

/-- Counterexample to C21 as stated: after an obstacle 15 m ahead triggered an overtake of
`drivingController`, the next two ticks belong to the same attempt (the flag stays set and
the timer runs down from 3 - 1/60 to 3 - 3/60), and the lateral offsets they add to the
steering target are 400 cm and -400 cm: the sign changes within the attempt. -/
theorem C21_counterexample :
    overtakingController.RacingData.bIsOvertaking = true ∧
      overtakingController.OvertakeTimer = 3 - 1 / 60 ∧
      overtakingController.SteeringTargetOffset = some 400 ∧
      (AAIRacingController.Tick gridEngine overtakingController (1 / 60) stillWorld).map
        (fun r => (r.1.RacingData.bIsOvertaking, r.1.OvertakeTimer, r.1.SteeringTargetOffset))
        = some (true, 3 - 2 / 60, some (-400)) ∧
      (AAIRacingController.RunTicks gridEngine overtakingController
        [(1 / 60, stillWorld), (1 / 60, stillWorld)]).map
        (fun r => (r.1.RacingData.bIsOvertaking, r.1.OvertakeTimer))
        = some (true, 3 - 3 / 60) := by
  decide!

/-! ## Racing controller: the nearest-waypoint scan -/

namespace AAIRacingController

/-- The scan over `l`, started with the running minimum `cd`: it keeps `(cd, idx)` when no
waypoint of `l` is closer than `cd`, and otherwise ends on the first waypoint of `l` that
attains the least distance. -/
theorem ScanWaypoints_spec (E : Engine) (loc : FVector) :
    ∀ (l : List FVector) (i : Nat) (cd : ℚ) (idx : Int),
      ((∀ w ∈ l, cd ≤ E.Dist loc w) → ScanWaypoints E loc l i (cd, idx) = (cd, idx)) ∧
      ((∃ w ∈ l, E.Dist loc w < cd) →
        ∃ k wp, l.get? k = some wp ∧
          ScanWaypoints E loc l i (cd, idx) = (E.Dist loc wp, ((i + k : Nat) : Int)) ∧
          E.Dist loc wp < cd ∧
          (∀ j w, l.get? j = some w → E.Dist loc wp ≤ E.Dist loc w) ∧
          (∀ j w, j < k → l.get? j = some w → E.Dist loc wp < E.Dist loc w)) := by
  intro l
  induction l with
  | nil =>
    intro i cd idx
    refine ⟨fun _ => rfl, ?_⟩
    rintro ⟨w, hw, _⟩
    exact absurd hw (List.not_mem_nil w)
  | cons x rest ih =>
    intro i cd idx
    constructor
    · intro hall
      have hx : ¬ E.Dist loc x < cd := not_lt.mpr (hall x (List.mem_cons_self x rest))
      simp only [ScanWaypoints, if_neg hx]
      exact (ih (i + 1) cd idx).1 (fun w hw => hall w (List.mem_cons_of_mem x hw))
    · intro hex
      by_cases hx : E.Dist loc x < cd
      · simp only [ScanWaypoints, if_pos hx]
        by_cases hr : ∃ w ∈ rest, E.Dist loc w < E.Dist loc x
        · obtain ⟨k, wp, hk, hscan, hlt, hmin, hfirst⟩ :=
            (ih (i + 1) (E.Dist loc x) (i : Int)).2 hr
          refine ⟨k + 1, wp, by simpa using hk, ?_, lt_trans hlt hx, ?_, ?_⟩
          · rw [hscan]
            have : i + 1 + k = i + (k + 1) := by omega
            rw [this]
          · intro j w hj
            cases j with
            | zero =>
              simp only [List.get?_cons_zero, Option.some.injEq] at hj
              rw [← hj]
              exact le_of_lt hlt
            | succ j =>
              simp only [List.get?_cons_succ] at hj
              exact hmin j w hj
          · intro j w hjk hj
            cases j with
            | zero =>
              simp only [List.get?_cons_zero, Option.some.injEq] at hj
              rw [← hj]
              exact hlt
            | succ j =>
              simp only [List.get?_cons_succ] at hj
              exact hfirst j w (by omega) hj
        · have hall : ∀ w ∈ rest, E.Dist loc x ≤ E.Dist loc w := by
            intro w hw
            by_contra hcon
            exact hr ⟨w, hw, not_le.mp hcon⟩
          refine ⟨0, x, rfl, ?_, hx, ?_, ?_⟩
          · rw [(ih (i + 1) (E.Dist loc x) (i : Int)).1 hall]
            rfl
          · intro j w hj
            cases j with
            | zero =>
              simp only [List.get?_cons_zero, Option.some.injEq] at hj
              rw [← hj]
            | succ j =>
              simp only [List.get?_cons_succ] at hj
              exact hall w (List.get?_mem hj)
          · intro j w hjk _
            exact absurd hjk (Nat.not_lt_zero j)
      · simp only [ScanWaypoints, if_neg hx]
        have hr : ∃ w ∈ rest, E.Dist loc w < cd := by
          obtain ⟨w, hw, hlt⟩ := hex
          rcases List.mem_cons.mp hw with rfl | hw'
          · exact absurd hlt hx
          · exact ⟨w, hw', hlt⟩
        obtain ⟨k, wp, hk, hscan, hlt, hmin, hfirst⟩ := (ih (i + 1) cd idx).2 hr
        refine ⟨k + 1, wp, by simpa using hk, ?_, hlt, ?_, ?_⟩
        · rw [hscan]
          have : i + 1 + k = i + (k + 1) := by omega
          rw [this]
        · intro j w hj
          cases j with
          | zero =>
            simp only [List.get?_cons_zero, Option.some.injEq] at hj
            rw [← hj]
            exact le_of_lt (lt_of_lt_of_le hlt (not_lt.mp hx))
          | succ j =>
            simp only [List.get?_cons_succ] at hj
            exact hmin j w hj
        · intro j w hjk hj
          cases j with
          | zero =>
            simp only [List.get?_cons_zero, Option.some.injEq] at hj
            rw [← hj]
            exact lt_of_lt_of_le hlt (not_lt.mp hx)
          | succ j =>
            simp only [List.get?_cons_succ] at hj
            exact hfirst j w (by omega) hj

/-- The overtaking block leaves the nearest waypoint alone. -/
theorem UpdateOvertake_waypoint (c : AAIRacingController) (DeltaTime : ℚ) (W : TickWorld) :
    (c.UpdateOvertake DeltaTime W).RacingData.CurrentWaypointIndex
        = c.RacingData.CurrentWaypointIndex ∧
      (c.UpdateOvertake DeltaTime W).RacingData.DistanceToNextWaypoint
        = c.RacingData.DistanceToNextWaypoint := by
  obtain ⟨_, _, _, h⟩ := UpdateOvertake_result c DeltaTime W
  rw [h]
  exact ⟨rfl, rfl⟩

end AAIRacingController

/-- C23: after every `UpdateRacingInputs` of a controller with a vehicle, on a waypoint list
that holds a waypoint closer than `FLT_MAX`, `CurrentWaypointIndex` is a valid index `k`
whose waypoint is at least as close to the vehicle as every waypoint and strictly closer
than every waypoint of lower index, and `DistanceToNextWaypoint` is its distance; the
previous value of the index plays no part. -/
theorem C23_nearest_waypoint (E : Engine) (c c' : AAIRacingController) (DeltaTime : ℚ)
    (W : TickWorld) (hv : c.ControlledVehicle ≠ none)
    (hd : ∃ wp ∈ c.RacelineWaypoints, E.Dist W.VehicleLocation wp < FLT_MAX)
    (h : AAIRacingController.UpdateRacingInputs E c DeltaTime W = some c') :
    ∃ (k : Nat) (wp : FVector), c.RacelineWaypoints.get? k = some wp ∧
      k < c'.RacelineWaypoints.length ∧
      c'.RacingData.CurrentWaypointIndex = (k : Int) ∧
      c'.RacingData.DistanceToNextWaypoint = E.Dist W.VehicleLocation wp ∧
      (∀ j w, c.RacelineWaypoints.get? j = some w →
        E.Dist W.VehicleLocation wp ≤ E.Dist W.VehicleLocation w) ∧
      (∀ j w, j < k → c.RacelineWaypoints.get? j = some w →
        E.Dist W.VehicleLocation wp < E.Dist W.VehicleLocation w) := by
  have hw : c.RacelineWaypoints.length ≠ 0 := by
    obtain ⟨wp, hm, _⟩ := hd
    intro h0
    rw [List.length_eq_zero.mp h0] at hm
    exact absurd hm (List.not_mem_nil wp)
  obtain ⟨c6, rfl, h6c, _, _, _, _, h6i, h6d⟩ :=
    AAIRacingController.UpdateRacingInputs_before_overtake E c _ DeltaTime W hv hw h
  obtain ⟨k, wp, hk, hscan, _, hmin, hfirst⟩ :=
    (AAIRacingController.ScanWaypoints_spec E W.VehicleLocation c.RacelineWaypoints 0 FLT_MAX
      c.RacingData.CurrentWaypointIndex).2 hd
  obtain ⟨hoi, hod⟩ := AAIRacingController.UpdateOvertake_waypoint c6 DeltaTime W
  have hlist : (c6.UpdateOvertake DeltaTime W).RacelineWaypoints = c.RacelineWaypoints := by
    have hcfg := (AAIRacingController.UpdateOvertake_frame c6 DeltaTime W).1.trans h6c
    simp only [AAIRacingController.Config, Prod.mk.injEq] at hcfg
    exact hcfg.2.2.2.2.2.2.1
  refine ⟨k, wp, hk, ?_, ?_, ?_, hmin, hfirst⟩
  · rw [hlist]
    exact (List.get?_eq_some.mp hk).1
  · rw [hoi, h6i, hscan]
    simp
  · rw [hod, h6d, hscan]

/-- Witness of C23: `hairpinDriver`, whose index was 3, standing on waypoints 1 and 3 of
`hairpinLoop`: the update moves the index back to 1, the lower of the two nearest, at
distance 0. -/
theorem C23_nearest_waypoint_witness :
    ∃ c', AAIRacingController.UpdateRacingInputs gridEngine hairpinDriver (1 / 60) hairpinWorld
        = some c' ∧
      hairpinDriver.RacingData.CurrentWaypointIndex = 3 ∧
      c'.RacingData.CurrentWaypointIndex = 1 ∧ c'.RacingData.DistanceToNextWaypoint = 0 ∧
      ∃ (k : Nat) (wp : FVector), hairpinDriver.RacelineWaypoints.get? k = some wp ∧
        k < c'.RacelineWaypoints.length ∧
        c'.RacingData.CurrentWaypointIndex = (k : Int) ∧
        c'.RacingData.DistanceToNextWaypoint = gridEngine.Dist hairpinWorld.VehicleLocation wp ∧
        (∀ j w, hairpinDriver.RacelineWaypoints.get? j = some w →
          gridEngine.Dist hairpinWorld.VehicleLocation wp
            ≤ gridEngine.Dist hairpinWorld.VehicleLocation w) ∧
        (∀ j w, j < k → hairpinDriver.RacelineWaypoints.get? j = some w →
          gridEngine.Dist hairpinWorld.VehicleLocation wp
            < gridEngine.Dist hairpinWorld.VehicleLocation w) := by
  have hf : (AAIRacingController.UpdateRacingInputs gridEngine hairpinDriver (1 / 60)
      hairpinWorld).map (fun r => (r.RacingData.CurrentWaypointIndex,
        r.RacingData.DistanceToNextWaypoint)) = some (1, 0) := by decide!
  cases hu : AAIRacingController.UpdateRacingInputs gridEngine hairpinDriver (1 / 60)
      hairpinWorld with
  | none =>
    rw [hu] at hf
    exact absurd hf (by simp)
  | some c' =>
    rw [hu] at hf
    simp only [Option.map_some', Option.some.injEq, Prod.mk.injEq] at hf
    exact ⟨c', rfl, by decide!, hf.1, hf.2,
      C23_nearest_waypoint gridEngine hairpinDriver c' (1 / 60) hairpinWorld (by decide!)
        ⟨⟨1, 0, 0⟩, by decide!, by decide!⟩ hu⟩

/-! ## Racing controller: the target speed -/

namespace AAIRacingController

/-- The corner speed `GetNextWaypointIndex` selects `LookAhead` waypoints past waypoint `m`
of `n`. -/
theorem GetNextWaypointIndex_lookup (c : AAIRacingController) (n m : Nat) (LookAhead : Int)
    (hn : 1 ≤ n) (hw : c.RacelineWaypoints.length = n) (hm : m < n)
    (hk0 : 0 ≤ LookAhead) (hk1 : LookAhead ≤ 3) (hint : (n : Int) + 3 ≤ 2147483647) :
    indexArray c.WaypointSpeeds (c.GetNextWaypointIndex (m : Int) LookAhead)
      = c.WaypointSpeeds.get? ((m + LookAhead.toNat) % n) := by
  have hne : c.RacelineWaypoints.length ≠ 0 := by omega
  obtain ⟨k, rfl⟩ := Int.eq_ofNat_of_zero_le hk0
  unfold GetNextWaypointIndex
  rw [if_neg hne, hw, wrapInt32_of_inRange _ (by omega) (by omega)]
  have h1 : Int.tmod ((m : Int) + (k : Int)) (n : Int) = (((m + k) % n : Nat) : Int) := by
    rw [Int.tmod_eq_emod (by omega) (by omega)]
    push_cast
    rfl
  rw [h1]
  unfold indexArray
  rw [if_pos (Int.natCast_nonneg _)]
  simp only [Int.toNat_ofNat]

theorem GetBehaviorSpeedMultiplier_pos (c : AAIRacingController) :
    0 < c.GetBehaviorSpeedMultiplier := by
  unfold GetBehaviorSpeedMultiplier
  cases c.RacingBehavior <;> norm_num

end AAIRacingController

/-- C24 (as amended): for a controller with `n ≥ 1` waypoints, `n` corner speeds and a
valid `CurrentWaypointIndex` `cur` (`0 ≤ cur < n`), the corner speeds at indices
`(cur + k) mod n`, `k = 0..3`, exist, the target speed of `CalculateThrottleBrake` is their
minimum times the behaviour speed multiplier, it does not exceed any of the four scaled
corner speeds, and a call with a vehicle returns the outputs of the speed law at that
target speed, passed through the obstacle override. -/
theorem C24_target_speed_lookahead (c : AAIRacingController) (n : Nat) (hn : 1 ≤ n)
    (hw : c.RacelineWaypoints.length = n) (hs : c.WaypointSpeeds.length = n)
    (h0 : 0 ≤ c.RacingData.CurrentWaypointIndex)
    (h1 : c.RacingData.CurrentWaypointIndex < (n : Int))
    (hint : (n : Int) + 3 ≤ 2147483647) :
    ∃ s0 s1 s2 s3 : ℚ,
      c.WaypointSpeeds.get? (c.RacingData.CurrentWaypointIndex.toNat % n) = some s0 ∧
      c.WaypointSpeeds.get? ((c.RacingData.CurrentWaypointIndex.toNat + 1) % n) = some s1 ∧
      c.WaypointSpeeds.get? ((c.RacingData.CurrentWaypointIndex.toNat + 2) % n) = some s2 ∧
      c.WaypointSpeeds.get? ((c.RacingData.CurrentWaypointIndex.toNat + 3) % n) = some s3 ∧
      c.LookUpTargetSpeed
        = some (min (min (min s0 s1) s2) s3 * c.GetBehaviorSpeedMultiplier) ∧
      (min (min (min s0 s1) s2) s3 * c.GetBehaviorSpeedMultiplier
          ≤ s0 * c.GetBehaviorSpeedMultiplier ∧
        min (min (min s0 s1) s2) s3 * c.GetBehaviorSpeedMultiplier
          ≤ s1 * c.GetBehaviorSpeedMultiplier ∧
        min (min (min s0 s1) s2) s3 * c.GetBehaviorSpeedMultiplier
          ≤ s2 * c.GetBehaviorSpeedMultiplier ∧
        min (min (min s0 s1) s2) s3 * c.GetBehaviorSpeedMultiplier
          ≤ s3 * c.GetBehaviorSpeedMultiplier) ∧
      (∀ W, c.ControlledVehicle ≠ none →
        ∃ Throttle Brake State,
          c.SpeedLaw (W.ForwardSpeed * (36 / 1000))
            (min (min (min s0 s1) s2) s3 * c.GetBehaviorSpeedMultiplier)
            = some (Throttle, Brake, State) ∧
          c.CalculateThrottleBrake W =
            some { c with
                   RacingData :=
                     { c.RacingData with
                       ThrottleInput :=
                         (AAIRacingController.ObstacleOverride (c.DetectObstaclesAhead W)
                           Throttle Brake).1
                       BrakeInput :=
                         (AAIRacingController.ObstacleOverride (c.DetectObstaclesAhead W)
                           Throttle Brake).2
                       CurrentState := State } }) := by
  obtain ⟨m, hm⟩ := Int.eq_ofNat_of_zero_le h0
  have hmn : m < n := by
    rw [hm] at h1
    exact Int.ofNat_lt.mp h1
  have hget : ∀ j : Nat, ∃ s, c.WaypointSpeeds.get? (j % n) = some s := by
    intro j
    have hlt : j % n < c.WaypointSpeeds.length := by
      rw [hs]
      exact Nat.mod_lt j (by omega)
    exact ⟨c.WaypointSpeeds.get ⟨j % n, hlt⟩, List.get?_eq_get hlt⟩
  obtain ⟨s0, e0⟩ := hget m
  obtain ⟨s1, e1⟩ := hget (m + 1)
  obtain ⟨s2, e2⟩ := hget (m + 2)
  obtain ⟨s3, e3⟩ := hget (m + 3)
  have l0 : indexArray c.WaypointSpeeds c.RacingData.CurrentWaypointIndex = some s0 := by
    rw [hm]
    unfold indexArray
    rw [if_pos (Int.natCast_nonneg _), Int.toNat_ofNat, ← e0, Nat.mod_eq_of_lt hmn]
  have l1 : indexArray c.WaypointSpeeds
      (c.GetNextWaypointIndex c.RacingData.CurrentWaypointIndex 1) = some s1 := by
    rw [hm, AAIRacingController.GetNextWaypointIndex_lookup c n m 1 hn hw hmn (by norm_num)
      (by norm_num) hint]
    exact e1
  have l2 : indexArray c.WaypointSpeeds
      (c.GetNextWaypointIndex c.RacingData.CurrentWaypointIndex 2) = some s2 := by
    rw [hm, AAIRacingController.GetNextWaypointIndex_lookup c n m 2 hn hw hmn (by norm_num)
      (by norm_num) hint]
    exact e2
  have l3 : indexArray c.WaypointSpeeds
      (c.GetNextWaypointIndex c.RacingData.CurrentWaypointIndex 3) = some s3 := by
    rw [hm, AAIRacingController.GetNextWaypointIndex_lookup c n m 3 hn hw hmn (by norm_num)
      (by norm_num) hint]
    exact e3
  have hT : c.LookUpTargetSpeed
      = some (min (min (min s0 s1) s2) s3 * c.GetBehaviorSpeedMultiplier) := by
    unfold AAIRacingController.LookUpTargetSpeed AAIRacingController.LookAheadTargetSpeed
    rw [l0]
    simp only [l1, l2, l3]
  have hpos := le_of_lt (AAIRacingController.GetBehaviorSpeedMultiplier_pos c)
  have htoNat : c.RacingData.CurrentWaypointIndex.toNat = m := by
    rw [hm, Int.toNat_ofNat]
  rw [htoNat]
  refine ⟨s0, s1, s2, s3, e0, e1, e2, e3, hT, ⟨?_, ?_, ?_, ?_⟩, ?_⟩
  · exact mul_le_mul_of_nonneg_right
      (le_trans (min_le_left _ _) (le_trans (min_le_left _ _) (min_le_left _ _))) hpos
  · exact mul_le_mul_of_nonneg_right
      (le_trans (min_le_left _ _) (le_trans (min_le_left _ _) (min_le_right _ _))) hpos
  · exact mul_le_mul_of_nonneg_right (le_trans (min_le_left _ _) (min_le_right _ _)) hpos
  · exact mul_le_mul_of_nonneg_right (min_le_right _ _) hpos
  · intro W hv
    have hg : ¬ (c.ControlledVehicle = none ∨ c.WaypointSpeeds.length = 0) := by
      rw [hs]
      exact fun hh => hh.elim hv (by omega)
    obtain ⟨Throttle, Brake, State, hlaw⟩ := AAIRacingController.SpeedLaw_returns c
      (W.ForwardSpeed * (36 / 1000))
      (min (min (min s0 s1) s2) s3 * c.GetBehaviorSpeedMultiplier)
    refine ⟨Throttle, Brake, State, hlaw, ?_⟩
    rw [AAIRacingController.CalculateThrottleBrake_eq c W hg, hT]
    simp only [hlaw]

/-- Witness of C24: `lookaheadDriver` at waypoint 3 of 4 reads the corner speeds at indices
3, 0, 1, 2 (280, 250, 220, 300 km/h): its target speed is 220 km/h. -/
theorem C24_target_speed_lookahead_witness :
    lookaheadDriver.LookUpTargetSpeed = some 220 ∧
    ∃ s0 s1 s2 s3 : ℚ,
      lookaheadDriver.WaypointSpeeds.get?
        (lookaheadDriver.RacingData.CurrentWaypointIndex.toNat % 4) = some s0 ∧
      lookaheadDriver.WaypointSpeeds.get?
        ((lookaheadDriver.RacingData.CurrentWaypointIndex.toNat + 1) % 4) = some s1 ∧
      lookaheadDriver.WaypointSpeeds.get?
        ((lookaheadDriver.RacingData.CurrentWaypointIndex.toNat + 2) % 4) = some s2 ∧
      lookaheadDriver.WaypointSpeeds.get?
        ((lookaheadDriver.RacingData.CurrentWaypointIndex.toNat + 3) % 4) = some s3 ∧
      lookaheadDriver.LookUpTargetSpeed
        = some (min (min (min s0 s1) s2) s3 * lookaheadDriver.GetBehaviorSpeedMultiplier) := by
  refine ⟨by decide!, ?_⟩
  obtain ⟨s0, s1, s2, s3, e0, e1, e2, e3, hT, _⟩ :=
    C24_target_speed_lookahead lookaheadDriver 4 (by norm_num) (by decide) (by decide)
      (by decide) (by decide) (by norm_num)
  exact ⟨s0, s1, s2, s3, e0, e1, e2, e3, hT⟩

/-- Counterexample to C24 as stated: `staleDriver` has four waypoints and four corner
speeds, and its `CurrentWaypointIndex` is still 4, the waypoint found nearest on the five
waypoints it had before `InitializeRacingAI` was called again. Index `(4 + 0) mod 4 = 0` is
in range, but the code reads `WaypointSpeeds[4]`: the lookup is out of range, no target
speed is computed and `CalculateThrottleBrake` faults. -/
theorem C24_counterexample :
    staleDriver.RacelineWaypoints.length = 4 ∧ staleDriver.WaypointSpeeds.length = 4 ∧
      staleDriver.ControlledVehicle = some 7 ∧
      staleDriver.RacingData.CurrentWaypointIndex = 4 ∧
      (staleDriver.WaypointSpeeds.get? ((4 + 0) % 4)).isSome = true ∧
      indexArray staleDriver.WaypointSpeeds staleDriver.RacingData.CurrentWaypointIndex = none ∧
      staleDriver.LookUpTargetSpeed = none ∧
      staleDriver.CalculateThrottleBrake stillWorld = none := by
  decide!

/-! ## Checkpoint graph: removing checkpoints -/

/-- C22 (as amended): `RemoveCheckpoint` with a valid index and `ClearAllCheckpoints` set
`TotalCheckpoints` to the new list length, so lap completion is decided against the new
last index; they leave the per-vehicle progress records as they were, so a tracked
vehicle's expected index is a valid index of the shortened list exactly when it is below
the new length, and is never one after a clear. -/
theorem C22_remove_and_clear (m : ARaceTrackManager) (Index : Int)
    (hi : m.IsValidIndex Index = true) :
    ((m.RemoveCheckpoint Index).TotalCheckpoints
        = ((m.RemoveCheckpoint Index).Checkpoints.length : Int) ∧
      (m.RemoveCheckpoint Index).Checkpoints.length + 1 = m.Checkpoints.length ∧
      (∀ v k, (m.RemoveCheckpoint Index).IsLapComplete v k = true ↔
        k = wrapInt32 (((m.RemoveCheckpoint Index).Checkpoints.length : Int) - 1)) ∧
      (m.RemoveCheckpoint Index).VehicleCheckpoints = m.VehicleCheckpoints ∧
      (∀ v e, m.VehicleCheckpoints v = some e →
        ((m.RemoveCheckpoint Index).IsValidIndex e = true ↔
          0 ≤ e ∧ e + 1 < (m.Checkpoints.length : Int)))) ∧
    (m.ClearAllCheckpoints.TotalCheckpoints
        = (m.ClearAllCheckpoints.Checkpoints.length : Int) ∧
      m.ClearAllCheckpoints.Checkpoints = [] ∧
      m.ClearAllCheckpoints.VehicleCheckpoints = m.VehicleCheckpoints ∧
      (∀ e, m.ClearAllCheckpoints.IsValidIndex e = false)) := by
  have hi' := hi
  simp only [ARaceTrackManager.IsValidIndex, Bool.and_eq_true, decide_eq_true_eq] at hi'
  obtain ⟨h0, h1⟩ := hi'
  have hlt : Index.toNat < m.Checkpoints.length := by omega
  have hlen : (m.Checkpoints.eraseIdx Index.toNat).length + 1 = m.Checkpoints.length := by
    rw [List.length_eraseIdx, if_pos hlt]
    omega
  have hr : m.RemoveCheckpoint Index =
      { m with
        Checkpoints := m.Checkpoints.eraseIdx Index.toNat
        TotalCheckpoints := ((m.Checkpoints.eraseIdx Index.toNat).length : Int) } := by
    unfold ARaceTrackManager.RemoveCheckpoint
    rw [if_pos hi]
  refine ⟨?_, ?_⟩
  · rw [hr]
    refine ⟨rfl, hlen, ?_, rfl, ?_⟩
    · intro v k
      simp only [ARaceTrackManager.IsLapComplete, decide_eq_true_eq]
    · intro v e _
      simp only [ARaceTrackManager.IsValidIndex, Bool.and_eq_true, decide_eq_true_eq]
      constructor
      · rintro ⟨ha, hb⟩
        exact ⟨ha, by omega⟩
      · rintro ⟨ha, hb⟩
        exact ⟨ha, by omega⟩
  · refine ⟨rfl, rfl, rfl, ?_⟩
    intro e
    simp only [ARaceTrackManager.ClearAllCheckpoints, ARaceTrackManager.IsValidIndex,
      List.length_nil, Nat.cast_zero, Bool.and_eq_false_iff, decide_eq_false_iff_not]
    omega

/-- Witness of C22: removing checkpoint 0 of the four-checkpoint loop on which
vehicle 7 expects checkpoint 3 leaves three checkpoints and `TotalCheckpoints = 3`. -/
theorem C22_remove_and_clear_witness :
    loopExpectingLast.IsValidIndex 0 = true ∧
      (loopExpectingLast.RemoveCheckpoint 0).TotalCheckpoints
        = ((loopExpectingLast.RemoveCheckpoint 0).Checkpoints.length : Int) ∧
      (loopExpectingLast.RemoveCheckpoint 0).Checkpoints.length + 1
        = loopExpectingLast.Checkpoints.length :=
  ⟨by decide!,
    (C22_remove_and_clear loopExpectingLast 0 (by decide!)).1.1,
    (C22_remove_and_clear loopExpectingLast 0 (by decide!)).1.2.1⟩

/-- Counterexample to C22 as stated: on the four-checkpoint loop vehicle 7 expects
checkpoint 3; after `RemoveCheckpoint(0)` the list has three checkpoints, the vehicle still
expects index 3, which is not a valid index, and its contacts with checkpoints 0, 1 and 2
are all dropped: it makes no progress. After `ClearAllCheckpoints` it still expects
index 3 of an empty list. -/
theorem C22_counterexample :
    loopExpectingLast.VehicleCheckpoints (some 7) = some 3 ∧
      loopExpectingLast.IsValidIndex 0 = true ∧
      (loopExpectingLast.RemoveCheckpoint 0).Checkpoints.length = 3 ∧
      (loopExpectingLast.RemoveCheckpoint 0).TotalCheckpoints = 3 ∧
      (loopExpectingLast.RemoveCheckpoint 0).VehicleCheckpoints (some 7) = some 3 ∧
      (loopExpectingLast.RemoveCheckpoint 0).IsValidIndex 3 = false ∧
      [0, 1, 2].map (fun (k : Int) =>
        ((loopExpectingLast.RemoveCheckpoint 0).HandleVehicleCheckpoint 10 (some 7) k).map
          (fun r => (r.1.VehicleCheckpoints (some 7), r.2)))
        = [some (some 3, []), some (some 3, []), some (some 3, [])] ∧
      loopExpectingLast.ClearAllCheckpoints.Checkpoints.length = 0 ∧
      loopExpectingLast.ClearAllCheckpoints.VehicleCheckpoints (some 7) = some 3 ∧
      loopExpectingLast.ClearAllCheckpoints.IsValidIndex 3 = false := by
  decide!

/-! ## Checkpoint graph: the records of one vehicle along a run -/

theorem passedCount_append (v : VehiclePtr) (a b : List TrackEvent) :
    passedCount v (a ++ b) = passedCount v a + passedCount v b := by
  simp [passedCount, checkpointPassedEvents_append]

theorem lapCount_append (v : VehiclePtr) (a b : List TrackEvent) :
    lapCount v (a ++ b) = lapCount v a + lapCount v b := by
  simp [lapCount, lapTimes_append]

/-- One more checkpoint passed: the quotient and the remainder of the count by `n`. -/
theorem succ_div_mod (P n : Nat) (hn : 0 < n) :
    (P % n + 1 < n → (P + 1) % n = P % n + 1 ∧ (P + 1) / n = P / n) ∧
    (P % n + 1 = n → (P + 1) % n = 0 ∧ (P + 1) / n = P / n + 1) := by
  have h := Nat.div_add_mod P n
  constructor
  · intro hlt
    have e : P + 1 = (P % n + 1) + n * (P / n) := by omega
    rw [e, Nat.add_mul_mod_self_left, Nat.add_mul_div_left _ _ hn, Nat.mod_eq_of_lt hlt,
      Nat.div_eq_of_lt hlt]
    exact ⟨rfl, by omega⟩
  · intro heq
    have e : P + 1 = n * (P / n + 1) := by
      rw [Nat.mul_add, Nat.mul_one]
      omega
    rw [e, Nat.mul_mod_right, Nat.mul_div_cancel_left _ hn]
    exact ⟨rfl, rfl⟩

namespace ARaceTrackManager

/-- Creating the record of vehicle `u` leaves the records of every other vehicle alone. -/
theorem InitVehicleTracking_other (m : ARaceTrackManager) (t : ℚ) (u v : VehiclePtr)
    (huv : v ≠ u) :
    (m.InitVehicleTracking t u).VehicleCheckpoints v = m.VehicleCheckpoints v ∧
      (m.InitVehicleTracking t u).VehicleLapStartTimes v = m.VehicleLapStartTimes v ∧
      (m.InitVehicleTracking t u).VehicleBestLaps v = m.VehicleBestLaps v := by
  cases h : m.VehicleCheckpoints u with
  | some e =>
    rw [InitVehicleTracking_of_key m t u e h]
    exact ⟨rfl, rfl, rfl⟩
  | none =>
    rw [InitVehicleTracking_of_no_key m t u h]
    simp [TMap.Add, huv]

/-- A contact of vehicle `u` leaves the records of every other vehicle alone and
broadcasts no event of theirs. -/
theorem HandleVehicleCheckpoint_other (m m' : ARaceTrackManager) (t : ℚ) (u v : VehiclePtr)
    (k : Int) (evs : List TrackEvent) (huv : v ≠ u)
    (h : m.HandleVehicleCheckpoint t u k = some (m', evs)) :
    m'.VehicleCheckpoints v = m.VehicleCheckpoints v ∧
      m'.VehicleLapStartTimes v = m.VehicleLapStartTimes v ∧
      m'.VehicleBestLaps v = m.VehicleBestLaps v ∧
      passedCount v evs = 0 ∧ lapTimes v evs = [] := by
  rw [HandleVehicleCheckpoint_init] at h
  obtain ⟨i1, i2, i3⟩ := InitVehicleTracking_other m t u v huv
  have hvu : ¬ u = v := fun hh => huv hh.symm
  rcases HandleVehicleCheckpoint_cases _ m' t u k _ evs (InitVehicleTracking_key m t u) h with
    ⟨_, rfl, rfl⟩ | ⟨_, nx, rfl, rfl⟩ | ⟨_, nx, s, b, _, _, rfl, rfl⟩
  · exact ⟨i1, i2, i3, rfl, rfl⟩
  · refine ⟨?_, i2, i3, ?_, ?_⟩
    · simp [TMap.Add, huv, i1]
    · simp [passedCount, checkpointPassedEvents, hvu]
    · simp [lapTimes]
  · refine ⟨?_, ?_, ?_, ?_, ?_⟩
    · simp [TMap.Add, huv, i1]
    · simp [TMap.Add, huv, i2]
    · by_cases hlt : t - s < b
      · simp [hlt, TMap.Add, huv, i3]
      · simp [hlt, i3]
    · simp [passedCount, checkpointPassedEvents, hvu]
    · simp [lapTimes, hvu]

end ARaceTrackManager

namespace ARaceTrackManager

/-- A contact of vehicle `u` on a graph of `n ≥ 1` checkpoints, when the record of `u`
(created if need be) expects a checkpoint `e` in `[0, n)`: the call returns, and the
contact is dropped, or passes `e`, or passes `e = n - 1` and completes a lap. -/
theorem HandleVehicleCheckpoint_total (m : ARaceTrackManager) (t : ℚ) (u : VehiclePtr)
    (k : Int) (n : Nat) (e : Int) (s b : ℚ) (hT : m.TotalCheckpoints = (n : Int))
    (hn31 : (n : Int) < 2147483648)
    (he : (m.InitVehicleTracking t u).VehicleCheckpoints u = some e)
    (he0 : 0 ≤ e) (he1 : e < (n : Int))
    (hs : (m.InitVehicleTracking t u).VehicleLapStartTimes u = some s)
    (hb : (m.InitVehicleTracking t u).VehicleBestLaps u = some b) :
    (k ≠ e ∧ m.HandleVehicleCheckpoint t u k = some (m.InitVehicleTracking t u, [])) ∨
    (k = e ∧ e + 1 < (n : Int) ∧
      m.HandleVehicleCheckpoint t u k =
        some ({ m.InitVehicleTracking t u with
                VehicleCheckpoints :=
                  (m.InitVehicleTracking t u).VehicleCheckpoints.Add u (e + 1) },
          [TrackEvent.CheckpointPassed u e])) ∨
    (k = e ∧ e + 1 = (n : Int) ∧
      m.HandleVehicleCheckpoint t u k =
        some ({ m.InitVehicleTracking t u with
                VehicleCheckpoints := (m.InitVehicleTracking t u).VehicleCheckpoints.Add u 0
                VehicleBestLaps :=
                  if t - s < b then (m.InitVehicleTracking t u).VehicleBestLaps.Add u (t - s)
                  else (m.InitVehicleTracking t u).VehicleBestLaps
                VehicleLapStartTimes :=
                  (m.InitVehicleTracking t u).VehicleLapStartTimes.Add u t },
          [TrackEvent.CheckpointPassed u e, TrackEvent.LapCompleted u (t - s)])) := by
  have hT1 : (m.InitVehicleTracking t u).TotalCheckpoints = (n : Int) := by
    rw [InitVehicleTracking_TotalCheckpoints, hT]
  rw [HandleVehicleCheckpoint_init]
  by_cases hk : k = e
  · subst hk
    have hnx : modInt32 (wrapInt32 (k + 1)) (m.InitVehicleTracking t u).TotalCheckpoints
        = some ((k + 1) % (n : Int)) := by
      rw [hT1]
      exact modInt32_succ_of_nonneg k n he0 (by omega) (by omega)
    have hw : wrapInt32 ((m.InitVehicleTracking t u).TotalCheckpoints - 1) = (n : Int) - 1 := by
      rw [hT1]
      exact wrapInt32_of_inRange _ (by omega) (by omega)
    by_cases hlast : k + 1 = (n : Int)
    · right
      right
      have hmod : (k + 1) % (n : Int) = 0 := by
        rw [hlast]
        exact Int.emod_self
      rw [hmod] at hnx
      refine ⟨rfl, hlast, ?_⟩
      exact HandleVehicleCheckpoint_lap _ t u k 0 s b he hnx (by rw [hw]; omega) hs hb
    · right
      left
      have hlt : k + 1 < (n : Int) := by omega
      have hmod : (k + 1) % (n : Int) = k + 1 := Int.emod_eq_of_lt (by omega) hlt
      rw [hmod] at hnx
      refine ⟨rfl, hlt, ?_⟩
      exact HandleVehicleCheckpoint_pass _ t u k (k + 1) he hnx (by rw [hw]; omega)
  · left
    exact ⟨hk, HandleVehicleCheckpoint_mismatch _ t u k e he hk⟩

/-- The expected index of a vehicle with `P` checkpoints passed and `L` laps completed on a
graph of `n` checkpoints: none yet, or `P mod n` with `L = P div n`. -/
theorem progress_step (m : ARaceTrackManager) (t : ℚ) (u v : VehiclePtr) (k : Int)
    (n P : Nat) (hn : 1 ≤ n) (hn31 : (n : Int) < 2147483648)
    (hT : m.TotalCheckpoints = (n : Int)) (hcons : m.RecordsConsistent)
    (hinv : ∀ e, m.VehicleCheckpoints v = some e → e = ((P % n : Nat) : Int))
    (hnone : m.VehicleCheckpoints v = none → P = 0)
    (hrange : ∀ w e, m.VehicleCheckpoints w = some e → 0 ≤ e ∧ e < (n : Int)) :
    ∃ m' evs, m.HandleVehicleCheckpoint t u k = some (m', evs) ∧
      m'.TotalCheckpoints = (n : Int) ∧ m'.RecordsConsistent ∧
      (∀ w e, m'.VehicleCheckpoints w = some e → 0 ≤ e ∧ e < (n : Int)) ∧
      (∀ e, m'.VehicleCheckpoints v = some e →
        e = (((P + passedCount v evs) % n : Nat) : Int)) ∧
      (m'.VehicleCheckpoints v = none → P + passedCount v evs = 0) ∧
      (P + passedCount v evs) / n = P / n + lapCount v evs := by
  have hkey := InitVehicleTracking_key m t u
  have he0 : 0 ≤ m.GetVehicleCheckpointIndex u ∧ m.GetVehicleCheckpointIndex u < (n : Int) := by
    unfold GetVehicleCheckpointIndex
    cases hc : m.VehicleCheckpoints u with
    | none =>
      show (0 : Int) ≤ 0 ∧ (0 : Int) < (n : Int)
      exact ⟨le_refl _, by omega⟩
    | some e => exact hrange u e hc
  obtain ⟨_, hs, hb⟩ := InitVehicleTracking_tracked m t u hcons
  obtain ⟨s, hs⟩ := Option.ne_none_iff_exists'.mp hs
  obtain ⟨b, hb⟩ := Option.ne_none_iff_exists'.mp hb
  have hT1 : (m.InitVehicleTracking t u).TotalCheckpoints = (n : Int) := by
    rw [InitVehicleTracking_TotalCheckpoints, hT]
  obtain ⟨m', evs, h, hm'⟩ : ∃ m' evs, m.HandleVehicleCheckpoint t u k = some (m', evs) ∧
      ((k ≠ m.GetVehicleCheckpointIndex u ∧ m' = m.InitVehicleTracking t u ∧ evs = []) ∨
       (m.GetVehicleCheckpointIndex u + 1 < (n : Int) ∧
          m' = { m.InitVehicleTracking t u with
                 VehicleCheckpoints :=
                   (m.InitVehicleTracking t u).VehicleCheckpoints.Add u
                     (m.GetVehicleCheckpointIndex u + 1) } ∧
          evs = [TrackEvent.CheckpointPassed u (m.GetVehicleCheckpointIndex u)]) ∨
       (m.GetVehicleCheckpointIndex u + 1 = (n : Int) ∧
          m' = { m.InitVehicleTracking t u with
                 VehicleCheckpoints := (m.InitVehicleTracking t u).VehicleCheckpoints.Add u 0
                 VehicleBestLaps :=
                   if t - s < b then
                     (m.InitVehicleTracking t u).VehicleBestLaps.Add u (t - s)
                   else (m.InitVehicleTracking t u).VehicleBestLaps
                 VehicleLapStartTimes :=
                   (m.InitVehicleTracking t u).VehicleLapStartTimes.Add u t } ∧
          evs = [TrackEvent.CheckpointPassed u (m.GetVehicleCheckpointIndex u),
            TrackEvent.LapCompleted u (t - s)])) := by
    rcases HandleVehicleCheckpoint_total m t u k n _ s b hT hn31 hkey he0.1 he0.2 hs hb with
      ⟨h1, h2⟩ | ⟨_, h1, h2⟩ | ⟨_, h1, h2⟩
    · exact ⟨_, _, h2, Or.inl ⟨h1, rfl, rfl⟩⟩
    · exact ⟨_, _, h2, Or.inr (Or.inl ⟨h1, rfl, rfl⟩)⟩
    · exact ⟨_, _, h2, Or.inr (Or.inr ⟨h1, rfl, rfl⟩)⟩
  refine ⟨m', evs, h, ?_⟩
  have hcons1 : (m.InitVehicleTracking t u).RecordsConsistent := by
    intro w hw
    by_cases hwu : w = u
    · subst hwu
      exact InitVehicleTracking_tracked m t w hcons
    · obtain ⟨i1, i2, i3⟩ := InitVehicleTracking_other m t u w hwu
      have := hcons w (by rw [← i1]; exact hw)
      exact ⟨by rw [i1]; exact this.1, by rw [i2]; exact this.2.1, by rw [i3]; exact this.2.2⟩
  have hrange1 : ∀ w e, (m.InitVehicleTracking t u).VehicleCheckpoints w = some e →
      0 ≤ e ∧ e < (n : Int) := by
    intro w e hw
    by_cases hwu : w = u
    · subst hwu
      rw [hkey] at hw
      simp only [Option.some.injEq] at hw
      rw [← hw]
      exact he0
    · rw [(InitVehicleTracking_other m t u w hwu).1] at hw
      exact hrange w e hw
  by_cases hvu : v = u
  · subst hvu
    have hev : m.GetVehicleCheckpointIndex v = ((P % n : Nat) : Int) := by
      unfold GetVehicleCheckpointIndex
      cases hc : m.VehicleCheckpoints v with
      | none =>
        rw [hnone hc]
        simp
      | some e => exact hinv e hc
    rcases hm' with ⟨_, rfl, rfl⟩ | ⟨hlt, rfl, rfl⟩ | ⟨heq, rfl, rfl⟩
    · refine ⟨hT1, hcons1, hrange1, ?_, ?_, ?_⟩
      · intro e he
        rw [hkey] at he
        simp only [Option.some.injEq] at he
        rw [← he, hev]
        simp [passedCount, checkpointPassedEvents]
      · intro hn0
        rw [hkey] at hn0
        exact absurd hn0 (by simp)
      · simp [passedCount, lapCount, checkpointPassedEvents, lapTimes]
    · have hP : P % n + 1 < n := by
        rw [hev] at hlt
        exact_mod_cast hlt
      obtain ⟨hmod, hdiv⟩ := (succ_div_mod P n (by omega)).1 hP
      have hpc : passedCount v [TrackEvent.CheckpointPassed v (m.GetVehicleCheckpointIndex v)]
          = 1 := by
        simp [passedCount, checkpointPassedEvents]
      refine ⟨hT1, ?_, ?_, ?_, ?_, ?_⟩
      · intro w hw
        by_cases hwv : w = v
        · subst hwv
          have := hcons1 w (by rw [hkey]; simp)
          exact ⟨by simp [TMap.Add], this.2.1, this.2.2⟩
        · have hw' : (m.InitVehicleTracking t v).VehicleCheckpoints w ≠ none := by
            simpa [TMap.Add, hwv] using hw
          have := hcons1 w hw'
          exact ⟨hw, this.2.1, this.2.2⟩
      · intro w e hw
        by_cases hwv : w = v
        · subst hwv
          simp only [TMap.Add, if_true, Option.some.injEq] at hw
          rw [← hw]
          exact ⟨by omega, hlt⟩
        · simp only [TMap.Add, if_neg hwv] at hw
          exact hrange1 w e hw
      · intro e he
        simp only [TMap.Add, if_true, Option.some.injEq] at he
        rw [← he, hpc, hmod, hev]
        push_cast
        rfl
      · intro hn0
        simp [TMap.Add] at hn0
      · rw [hpc, hdiv]
        simp [lapCount, lapTimes]
    · have hP : P % n + 1 = n := by
        rw [hev] at heq
        exact_mod_cast heq
      obtain ⟨hmod, hdiv⟩ := (succ_div_mod P n (by omega)).2 hP
      have hpc : passedCount v [TrackEvent.CheckpointPassed v (m.GetVehicleCheckpointIndex v),
          TrackEvent.LapCompleted v (t - s)] = 1 := by
        simp [passedCount, checkpointPassedEvents]
      refine ⟨hT1, ?_, ?_, ?_, ?_, ?_⟩
      · intro w hw
        by_cases hwv : w = v
        · subst hwv
          refine ⟨by simp [TMap.Add], by simp [TMap.Add], ?_⟩
          by_cases hlt : t - s < b
          · simp [hlt, TMap.Add]
          · simp [hlt, hb]
        · have hw' : (m.InitVehicleTracking t v).VehicleCheckpoints w ≠ none := by
            simpa [TMap.Add, hwv] using hw
          have := hcons1 w hw'
          refine ⟨hw, ?_, ?_⟩
          · simpa [TMap.Add, hwv] using this.2.1
          · by_cases hlt : t - s < b
            · simpa [hlt, TMap.Add, hwv] using this.2.2
            · simpa [hlt] using this.2.2
      · intro w e hw
        by_cases hwv : w = v
        · subst hwv
          simp only [TMap.Add, if_true, Option.some.injEq] at hw
          rw [← hw]
          exact ⟨le_refl _, by omega⟩
        · simp only [TMap.Add, if_neg hwv] at hw
          exact hrange1 w e hw
      · intro e he
        simp only [TMap.Add, if_true, Option.some.injEq] at he
        rw [← he, hpc, hmod]
        rfl
      · intro hn0
        simp [TMap.Add] at hn0
      · rw [hpc, hdiv]
        simp [lapCount, lapTimes]
  · obtain ⟨o1, _, _, o4, o5⟩ := HandleVehicleCheckpoint_other m m' t u v k evs hvu h
    have hT' : m'.TotalCheckpoints = (n : Int) := by
      rcases hm' with ⟨_, rfl, _⟩ | ⟨_, rfl, _⟩ | ⟨_, rfl, _⟩
      · exact hT1
      · exact hT1
      · exact hT1
    have hcons' : m'.RecordsConsistent := by
      intro w hw
      by_cases hwu : w = u
      · subst hwu
        have ht := hcons1 w (by rw [hkey]; simp)
        rcases hm' with ⟨_, rfl, _⟩ | ⟨_, rfl, _⟩ | ⟨_, rfl, _⟩
        · exact ht
        · exact ⟨hw, ht.2.1, ht.2.2⟩
        · refine ⟨hw, by simp [TMap.Add], ?_⟩
          by_cases hlt : t - s < b
          · simp [hlt, TMap.Add]
          · simp [hlt, hb]
      · obtain ⟨p1, p2, p3, _⟩ := HandleVehicleCheckpoint_other m m' t u w k evs hwu h
        have := hcons w (by rw [← p1]; exact hw)
        exact ⟨hw, by rw [p2]; exact this.2.1, by rw [p3]; exact this.2.2⟩
    have hrange' : ∀ w e, m'.VehicleCheckpoints w = some e → 0 ≤ e ∧ e < (n : Int) := by
      intro w e hw
      by_cases hwu : w = u
      · subst hwu
        rcases hm' with ⟨_, rfl, _⟩ | ⟨hlt, rfl, _⟩ | ⟨_, rfl, _⟩
        · exact hrange1 w e hw
        · simp only [TMap.Add, if_true, Option.some.injEq] at hw
          rw [← hw]
          exact ⟨by omega, hlt⟩
        · simp only [TMap.Add, if_true, Option.some.injEq] at hw
          rw [← hw]
          exact ⟨le_refl _, by omega⟩
      · rw [(HandleVehicleCheckpoint_other m m' t u w k evs hwu h).1] at hw
        exact hrange w e hw
    refine ⟨hT', hcons', hrange', ?_, ?_, ?_⟩
    · intro e he
      rw [o1] at he
      rw [o4, Nat.add_zero]
      exact hinv e he
    · intro hn0
      rw [o1] at hn0
      rw [o4, Nat.add_zero]
      exact hnone hn0
    · rw [o4, Nat.add_zero]
      simp [lapCount, o5]

end ARaceTrackManager

namespace ARaceTrackManager

/-- The invariant of `progress_step` along a sequence of contacts. -/
theorem progress_run (v : VehiclePtr) (n : Nat) (hn : 1 ≤ n) (hn31 : (n : Int) < 2147483648) :
    ∀ (cs : List Contact) (m : ARaceTrackManager) (P : Nat),
      m.TotalCheckpoints = (n : Int) → m.RecordsConsistent →
      (∀ e, m.VehicleCheckpoints v = some e → e = ((P % n : Nat) : Int)) →
      (m.VehicleCheckpoints v = none → P = 0) →
      (∀ w e, m.VehicleCheckpoints w = some e → 0 ≤ e ∧ e < (n : Int)) →
      ∃ m' evs, m.HandleContacts cs = some (m', evs) ∧
        (∀ w e, m'.VehicleCheckpoints w = some e → 0 ≤ e ∧ e < (n : Int)) ∧
        (∀ e, m'.VehicleCheckpoints v = some e →
          e = (((P + passedCount v evs) % n : Nat) : Int)) ∧
        (P + passedCount v evs) / n = P / n + lapCount v evs := by
  intro cs
  induction cs with
  | nil =>
    intro m P _ _ hinv _ hrange
    refine ⟨m, [], rfl, hrange, ?_, ?_⟩
    · intro e he
      simpa [passedCount, checkpointPassedEvents] using hinv e he
    · simp [passedCount, lapCount, checkpointPassedEvents, lapTimes]
  | cons c rest ih =>
    intro m P hT hcons hinv hnone hrange
    obtain ⟨m1, e1, h1, hT1, hcons1, hrange1, hinv1, hnone1, hdiv1⟩ :=
      progress_step m c.TimeSeconds c.Vehicle v c.CheckpointIndex n P hn hn31 hT hcons hinv
        hnone hrange
    obtain ⟨m2, e2, h2, hrange2, hinv2, hdiv2⟩ :=
      ih m1 (P + passedCount v e1) hT1 hcons1 hinv1 hnone1 hrange1
    refine ⟨m2, e1 ++ e2, ?_, hrange2, ?_, ?_⟩
    · simp only [HandleContacts, h1, h2]
    · intro e he
      rw [passedCount_append, ← Nat.add_assoc]
      exact hinv2 e he
    · rw [passedCount_append, lapCount_append, ← Nat.add_assoc, hdiv2, hdiv1, Nat.add_assoc]

end ARaceTrackManager

/-- C28: on a graph whose checkpoint count `n ≥ 1` does not change, started with no vehicle
tracked, every sequence of contacts (any vehicles, any checkpoint indices) is handled, and
afterwards every tracked vehicle's expected checkpoint index lies in `[0, n)` and, for
each vehicle, the number of lap-completed events broadcast equals the number of its
checkpoint-passed events divided by `n`, rounded down; the expected index is the
remainder. -/
theorem C28_progress_invariant (m : ARaceTrackManager) (n : Nat) (hn : 1 ≤ n)
    (hn31 : (n : Int) < 2147483648) (hT : m.TotalCheckpoints = (n : Int))
    (hfresh : ∀ v, m.VehicleCheckpoints v = none) (cs : List ARaceTrackManager.Contact) :
    ∃ m' evs, m.HandleContacts cs = some (m', evs) ∧
      (∀ v e, m'.VehicleCheckpoints v = some e → 0 ≤ e ∧ e < (n : Int)) ∧
      (∀ v, lapCount v evs = passedCount v evs / n) ∧
      (∀ v e, m'.VehicleCheckpoints v = some e → e = ((passedCount v evs % n : Nat) : Int)) := by
  have hcons : m.RecordsConsistent := fun v hv => absurd (hfresh v) hv
  have hrange : ∀ w e, m.VehicleCheckpoints w = some e → 0 ≤ e ∧ e < (n : Int) := by
    intro w e hw
    rw [hfresh w] at hw
    exact absurd hw (by simp)
  have hrun : ∀ v, ∃ m' evs, m.HandleContacts cs = some (m', evs) ∧
      (∀ w e, m'.VehicleCheckpoints w = some e → 0 ≤ e ∧ e < (n : Int)) ∧
      (∀ e, m'.VehicleCheckpoints v = some e →
        e = (((0 + passedCount v evs) % n : Nat) : Int)) ∧
      (0 + passedCount v evs) / n = 0 / n + lapCount v evs := by
    intro v
    refine ARaceTrackManager.progress_run v n hn hn31 cs m 0 hT hcons ?_ (fun _ => rfl) hrange
    intro e he
    rw [hfresh v] at he
    exact absurd he (by simp)
  obtain ⟨m', evs, h, hr, _, _⟩ := hrun none
  refine ⟨m', evs, h, hr, ?_, ?_⟩
  · intro v
    obtain ⟨m2, evs2, h2, _, _, hdiv⟩ := hrun v
    rw [h] at h2
    simp only [Option.some.injEq, Prod.mk.injEq] at h2
    rw [← h2.2] at hdiv
    simp only [Nat.zero_add, Nat.zero_div] at hdiv
    exact hdiv.symm
  · intro v e he
    obtain ⟨m2, evs2, h2, _, hinv, _⟩ := hrun v
    rw [h] at h2
    simp only [Option.some.injEq, Prod.mk.injEq] at h2
    rw [← h2.1, ← h2.2] at hinv
    simpa using hinv e he

/-- Witness of C28: the contacts `mixedContacts` on a fresh two-checkpoint loop: vehicle 7
passes 4 checkpoints and completes 2 laps, vehicle 8 passes 1 and completes none. -/
theorem C28_progress_invariant_witness :
    ((trackOf 2 FVector.ZeroVector).HandleContacts mixedContacts).map
        (fun r => (passedCount (some 7) r.2, lapCount (some 7) r.2,
          passedCount (some 8) r.2, lapCount (some 8) r.2)) = some (4, 2, 1, 0) ∧
    ∃ m' evs, (trackOf 2 FVector.ZeroVector).HandleContacts mixedContacts = some (m', evs) ∧
      (∀ v e, m'.VehicleCheckpoints v = some e → 0 ≤ e ∧ e < ((2 : Nat) : Int)) ∧
      (∀ v, lapCount v evs = passedCount v evs / 2) ∧
      (∀ v e, m'.VehicleCheckpoints v = some e → e = ((passedCount v evs % 2 : Nat) : Int)) :=
  ⟨by decide!,
    C28_progress_invariant (trackOf 2 FVector.ZeroVector) 2 (by norm_num) (by norm_num) rfl
      (fun _ => rfl) mixedContacts⟩

/-! ## Checkpoint graph: lap times along a run -/

theorem firstContactTime_append_of_vehicle (v : VehiclePtr) (c : ARaceTrackManager.Contact)
    (hc : c.Vehicle = v) (post : List ARaceTrackManager.Contact) :
    ∀ pre : List ARaceTrackManager.Contact,
      firstContactTime v (pre ++ c :: post) = firstContactTime v (pre ++ [c]) := by
  intro pre
  induction pre with
  | nil => simp [firstContactTime, hc]
  | cons d rest ih =>
    by_cases hd : d.Vehicle = v
    · simp [firstContactTime, hd]
    · simp only [List.cons_append, firstContactTime, if_neg hd]
      exact ih

namespace ARaceTrackManager

/-- A contact of vehicle `v`: afterwards `v` has a record, and either no lap time of `v` is
broadcast and the lap start is the one of the record (created if need be), or the one lap
time broadcast is the current time minus that lap start, and the lap start is reset to the
current time. -/
theorem HandleVehicleCheckpoint_lap_start (m m' : ARaceTrackManager) (t : ℚ) (v : VehiclePtr)
    (k : Int) (evs : List TrackEvent) (h : m.HandleVehicleCheckpoint t v k = some (m', evs)) :
    m'.VehicleCheckpoints v ≠ none ∧
    ((lapTimes v evs = [] ∧
        m'.VehicleLapStartTimes v = (m.InitVehicleTracking t v).VehicleLapStartTimes v) ∨
      (∃ s0, (m.InitVehicleTracking t v).VehicleLapStartTimes v = some s0 ∧
        lapTimes v evs = [t - s0] ∧ m'.VehicleLapStartTimes v = some t)) := by
  rw [HandleVehicleCheckpoint_init] at h
  have hkey := InitVehicleTracking_key m t v
  rcases HandleVehicleCheckpoint_cases _ m' t v k _ evs hkey h with
    ⟨_, rfl, rfl⟩ | ⟨_, nx, rfl, rfl⟩ | ⟨_, nx, s, b, hs, _, rfl, rfl⟩
  · exact ⟨by rw [hkey]; simp, Or.inl ⟨rfl, rfl⟩⟩
  · exact ⟨by simp [TMap.Add], Or.inl ⟨by simp [lapTimes], rfl⟩⟩
  · exact ⟨by simp [TMap.Add], Or.inr ⟨s, hs, by simp [lapTimes], by simp [TMap.Add]⟩⟩

/-- A run of a tracked vehicle whose lap start `s` is not later than any contact, under a
clock that does not run backward: the lap times are non-negative and the final lap start is
`s` plus their sum. -/
theorem lap_start_run_tracked (v : VehiclePtr) :
    ∀ (cs : List Contact) (m m' : ARaceTrackManager) (evs : List TrackEvent) (s : ℚ),
      m.VehicleCheckpoints v ≠ none → m.VehicleLapStartTimes v = some s →
      cs.Pairwise (fun a b => a.TimeSeconds ≤ b.TimeSeconds) →
      (∀ c ∈ cs, s ≤ c.TimeSeconds) →
      m.HandleContacts cs = some (m', evs) →
      m'.VehicleLapStartTimes v = some (s + (lapTimes v evs).sum) ∧
        (∀ l ∈ lapTimes v evs, 0 ≤ l) ∧ m'.VehicleCheckpoints v ≠ none := by
  intro cs
  induction cs with
  | nil =>
    intro m m' evs s hk hs _ _ h
    simp only [HandleContacts, Option.some.injEq, Prod.mk.injEq] at h
    rw [← h.1, ← h.2]
    exact ⟨by simp [lapTimes, hs], by simp [lapTimes], hk⟩
  | cons c rest ih =>
    intro m m' evs s hk hs hclock hlb h
    simp only [HandleContacts] at h
    cases h1 : m.HandleVehicleCheckpoint c.TimeSeconds c.Vehicle c.CheckpointIndex with
    | none => simp [h1] at h
    | some r1 =>
      obtain ⟨m1, e1⟩ := r1
      cases h2 : m1.HandleContacts rest with
      | none => simp [h1, h2] at h
      | some r2 =>
        obtain ⟨m2, e2⟩ := r2
        simp only [h1, h2, Option.some.injEq, Prod.mk.injEq] at h
        obtain ⟨rfl, rfl⟩ := h
        rw [List.pairwise_cons] at hclock
        have hlbr : ∀ d ∈ rest, s ≤ d.TimeSeconds :=
          fun d hd => hlb d (List.mem_cons_of_mem c hd)
        by_cases hcv : c.Vehicle = v
        · rw [hcv] at h1
          obtain ⟨e, he⟩ := Option.ne_none_iff_exists'.mp hk
          have hinit : (m.InitVehicleTracking c.TimeSeconds v).VehicleLapStartTimes v
              = some s := by
            rw [InitVehicleTracking_of_key m _ v e he]
            exact hs
          obtain ⟨hk1, hcase⟩ := HandleVehicleCheckpoint_lap_start m m1 _ v _ e1 h1
          rcases hcase with ⟨hl, hs1⟩ | ⟨s0, hs0, hl, hs1⟩
          · rw [hinit] at hs1
            obtain ⟨r1, r2, r3⟩ := ih m1 m2 e2 s hk1 hs1 hclock.2 hlbr h2
            refine ⟨?_, ?_, r3⟩
            · rw [lapTimes_append, hl, List.nil_append]
              exact r1
            · rw [lapTimes_append, hl, List.nil_append]
              exact r2
          · rw [hinit] at hs0
            simp only [Option.some.injEq] at hs0
            subst hs0
            obtain ⟨r1, r2, r3⟩ := ih m1 m2 e2 c.TimeSeconds hk1 hs1 hclock.2 hclock.1 h2
            refine ⟨?_, ?_, r3⟩
            · rw [lapTimes_append, hl, r1]
              simp only [List.singleton_append, List.sum_cons, Option.some.injEq]
              ring
            · rw [lapTimes_append, hl]
              intro l hlmem
              rcases List.mem_append.mp hlmem with hm1 | hm2
              · simp only [List.mem_singleton] at hm1
                rw [hm1]
                have := hlb c (List.mem_cons_self c rest)
                linarith
              · exact r2 l hm2
        · have hvc : v ≠ c.Vehicle := fun hh => hcv hh.symm
          obtain ⟨o1, o2, _, _, o5⟩ := HandleVehicleCheckpoint_other m m1 _ _ v _ e1 hvc h1
          obtain ⟨r1, r2, r3⟩ :=
            ih m1 m2 e2 s (by rw [o1]; exact hk) (by rw [o2]; exact hs) hclock.2 hlbr h2
          refine ⟨?_, ?_, r3⟩
          · rw [lapTimes_append, o5, List.nil_append]
            exact r1
          · rw [lapTimes_append, o5, List.nil_append]
            exact r2

/-- A run started with vehicle `v` untracked, under a clock that does not run backward:
the lap times of `v` are non-negative, and once `v` has made a contact its lap start is the
time of its first contact plus the sum of its lap times. -/
theorem lap_start_run (v : VehiclePtr) :
    ∀ (cs : List Contact) (m m' : ARaceTrackManager) (evs : List TrackEvent),
      m.VehicleCheckpoints v = none →
      cs.Pairwise (fun a b => a.TimeSeconds ≤ b.TimeSeconds) →
      m.HandleContacts cs = some (m', evs) →
      (∀ l ∈ lapTimes v evs, 0 ≤ l) ∧
        (∀ tf, firstContactTime v cs = some tf →
          m'.VehicleLapStartTimes v = some (tf + (lapTimes v evs).sum)) := by
  intro cs
  induction cs with
  | nil =>
    intro m m' evs _ _ h
    simp only [HandleContacts, Option.some.injEq, Prod.mk.injEq] at h
    rw [← h.2]
    exact ⟨by simp [lapTimes], by simp [firstContactTime]⟩
  | cons c rest ih =>
    intro m m' evs hk hclock h
    simp only [HandleContacts] at h
    cases h1 : m.HandleVehicleCheckpoint c.TimeSeconds c.Vehicle c.CheckpointIndex with
    | none => simp [h1] at h
    | some r1 =>
      obtain ⟨m1, e1⟩ := r1
      cases h2 : m1.HandleContacts rest with
      | none => simp [h1, h2] at h
      | some r2 =>
        obtain ⟨m2, e2⟩ := r2
        simp only [h1, h2, Option.some.injEq, Prod.mk.injEq] at h
        obtain ⟨rfl, rfl⟩ := h
        rw [List.pairwise_cons] at hclock
        by_cases hcv : c.Vehicle = v
        · rw [hcv] at h1
          have hinit : (m.InitVehicleTracking c.TimeSeconds v).VehicleLapStartTimes v
              = some c.TimeSeconds := by
            rw [InitVehicleTracking_of_no_key m _ v hk]
            simp [TMap.Add]
          obtain ⟨hk1, hcase⟩ := HandleVehicleCheckpoint_lap_start m m1 _ v _ e1 h1
          have hs1 : m1.VehicleLapStartTimes v = some c.TimeSeconds ∧
              (lapTimes v e1).sum = 0 ∧ ∀ l ∈ lapTimes v e1, 0 ≤ l := by
            rcases hcase with ⟨hl, hs1⟩ | ⟨s0, hs0, hl, hs1⟩
            · rw [hinit] at hs1
              rw [hl]
              exact ⟨hs1, by simp, by simp⟩
            · rw [hinit] at hs0
              simp only [Option.some.injEq] at hs0
              subst hs0
              rw [hl]
              exact ⟨hs1, by simp, by simp⟩
          obtain ⟨r1, r2, _⟩ :=
            lap_start_run_tracked v rest m1 m2 e2 c.TimeSeconds hk1 hs1.1 hclock.2 hclock.1 h2
          refine ⟨?_, ?_⟩
          · rw [lapTimes_append]
            intro l hlmem
            rcases List.mem_append.mp hlmem with hm1 | hm2
            · exact hs1.2.2 l hm1
            · exact r2 l hm2
          · intro tf htf
            simp only [firstContactTime, if_pos hcv, Option.some.injEq] at htf
            rw [← htf, lapTimes_append, List.sum_append, hs1.2.1, zero_add]
            exact r1
        · have hvc : v ≠ c.Vehicle := fun hh => hcv hh.symm
          obtain ⟨o1, _, _, _, o5⟩ := HandleVehicleCheckpoint_other m m1 _ _ v _ e1 hvc h1
          obtain ⟨r1, r2⟩ := ih m1 m2 e2 (by rw [o1]; exact hk) hclock.2 h2
          refine ⟨?_, ?_⟩
          · rw [lapTimes_append, o5, List.nil_append]
            exact r1
          · intro tf htf
            simp only [firstContactTime, if_neg hcv] at htf
            rw [lapTimes_append, o5, List.nil_append]
            exact r2 tf htf

end ARaceTrackManager

/-! ## Single-precision rounding: lemmas -/

theorem roundHalfEven_cases (q : ℚ) : roundHalfEven q = ⌊q⌋ ∨ roundHalfEven q = ⌊q⌋ + 1 := by
  unfold roundHalfEven
  split_ifs <;> simp

theorem roundHalfEven_error (q : ℚ) : |(roundHalfEven q : ℚ) - q| ≤ 1 / 2 := by
  have h0 : (⌊q⌋ : ℚ) ≤ q := Int.floor_le q
  have h1 : q < (⌊q⌋ : ℚ) + 1 := Int.lt_floor_add_one q
  unfold roundHalfEven
  rw [abs_le]
  split_ifs with a b c
  · constructor <;> linarith
  · push_cast
    constructor <;> linarith
  · have : q - (⌊q⌋ : ℚ) = 1 / 2 := le_antisymm (not_lt.mp b) (not_lt.mp a)
    constructor <;> linarith
  · have : q - (⌊q⌋ : ℚ) = 1 / 2 := le_antisymm (not_lt.mp b) (not_lt.mp a)
    push_cast
    constructor <;> linarith

theorem roundHalfEven_intCast (n : Int) : roundHalfEven (n : ℚ) = n := by
  unfold roundHalfEven
  rw [Int.floor_intCast, if_pos (by norm_num)]

theorem roundHalfEven_mono {a b : ℚ} (h : a ≤ b) : roundHalfEven a ≤ roundHalfEven b := by
  have hf : ⌊a⌋ ≤ ⌊b⌋ := Int.floor_mono h
  rcases lt_or_eq_of_le hf with hlt | heq
  · have h1 : roundHalfEven a ≤ ⌊a⌋ + 1 := by
      rcases roundHalfEven_cases a with e | e
      · rw [e]; omega
      · rw [e]
    have h2 : ⌊b⌋ ≤ roundHalfEven b := by
      rcases roundHalfEven_cases b with e | e
      · rw [e]
      · rw [e]; omega
    omega
  · have hfr : a - (⌊a⌋ : ℚ) ≤ b - (⌊a⌋ : ℚ) := by linarith
    unfold roundHalfEven
    rw [← heq]
    by_cases a1 : a - (⌊a⌋ : ℚ) < 1 / 2
    · rw [if_pos a1]
      split_ifs <;> omega
    · rw [if_neg a1]
      have b1 : ¬ b - (⌊a⌋ : ℚ) < 1 / 2 := fun hb => a1 (lt_of_le_of_lt hfr hb)
      rw [if_neg b1]
      by_cases a2 : a - (⌊a⌋ : ℚ) > 1 / 2
      · rw [if_pos a2, if_pos (lt_of_lt_of_le a2 hfr)]
      · rw [if_neg a2]
        by_cases b2 : b - (⌊a⌋ : ℚ) > 1 / 2
        · rw [if_pos b2]
          split_ifs <;> omega
        · rw [if_neg b2]

theorem two_zpow_pos (e : Int) : (0 : ℚ) < (2 : ℚ) ^ e := zpow_pos (by norm_num) e

theorem two_zpow_split (e : Int) (k : Int) : (2 : ℚ) ^ e = (2 : ℚ) ^ k * (2 : ℚ) ^ (e - k) := by
  rw [← zpow_add₀ (by norm_num : (2 : ℚ) ≠ 0)]
  congr 1
  omega

theorem log2Fuel_eq : ∀ (fuel n : Nat), n ≤ fuel → log2Fuel fuel n = Nat.log 2 n := by
  intro fuel
  induction fuel with
  | zero =>
    intro n hn
    have : n = 0 := by omega
    subst this
    simp [log2Fuel]
  | succ k ih =>
    intro n hn
    unfold log2Fuel
    by_cases h : n < 2
    · rw [if_pos h, Nat.log_of_lt h]
    · rw [if_neg h, Nat.log_of_one_lt_of_le (by norm_num) (by omega), ih (n / 2) (by omega)]

theorem clog2Fuel_eq : ∀ (fuel n : Nat), n ≤ fuel → clog2Fuel fuel n = Nat.clog 2 n := by
  intro fuel
  induction fuel with
  | zero =>
    intro n hn
    have : n = 0 := by omega
    subst this
    simp [clog2Fuel]
  | succ k ih =>
    intro n hn
    unfold clog2Fuel
    by_cases h : n < 2
    · rw [if_pos h, Nat.clog_of_right_le_one (by omega)]
    · have hc : Nat.clog 2 n = Nat.clog 2 ((n + 1) / 2) + 1 :=
        Nat.clog_of_two_le (by norm_num) (by omega)
      rw [if_neg h, ih ((n + 1) / 2) (by omega), hc]

/-- The binary exponent is the integer logarithm to base 2. -/
theorem binaryExponent_eq (x : ℚ) : binaryExponent x = Int.log 2 x := by
  unfold binaryExponent Int.log
  rw [log2Fuel_eq _ _ le_rfl, clog2Fuel_eq _ _ le_rfl]

theorem log_bounds {x : ℚ} (hx : 0 < x) :
    (2 : ℚ) ^ Int.log 2 x ≤ x ∧ x < (2 : ℚ) ^ (Int.log 2 x + 1) := by
  have h1 := Int.zpow_log_le_self (b := 2) (by norm_num) hx
  have h2 := Int.lt_zpow_succ_log_self (b := 2) (by norm_num) x
  simp only [Nat.cast_ofNat] at h1 h2
  exact ⟨h1, h2⟩

theorem roundPos_of_pos {x : ℚ} (hx : 0 < x) :
    roundPos x = (roundHalfEven (x * (2 : ℚ) ^ (23 - Int.log 2 x)) : ℚ)
      * (2 : ℚ) ^ (Int.log 2 x - 23) := by
  unfold roundPos
  rw [if_neg (ne_of_gt hx), binaryExponent_eq]

theorem scaled_mul {x : ℚ} (e : Int) :
    x * (2 : ℚ) ^ (23 - e) * (2 : ℚ) ^ (e - 23) = x := by
  rw [mul_assoc, ← zpow_add₀ (by norm_num : (2 : ℚ) ≠ 0)]
  have : (23 - e) + (e - 23) = 0 := by omega
  rw [this, zpow_zero, mul_one]

theorem scaled_bounds {x : ℚ} (hx : 0 < x) :
    (8388608 : ℚ) ≤ x * (2 : ℚ) ^ (23 - Int.log 2 x) ∧
      x * (2 : ℚ) ^ (23 - Int.log 2 x) ≤ 16777216 := by
  obtain ⟨h1, h2⟩ := log_bounds hx
  have hp := two_zpow_pos (23 - Int.log 2 x)
  have e1 : (2 : ℚ) ^ Int.log 2 x * (2 : ℚ) ^ (23 - Int.log 2 x) = 8388608 := by
    rw [← zpow_add₀ (by norm_num : (2 : ℚ) ≠ 0)]
    have : Int.log 2 x + (23 - Int.log 2 x) = 23 := by omega
    rw [this]
    norm_num
  have e2 : (2 : ℚ) ^ (Int.log 2 x + 1) * (2 : ℚ) ^ (23 - Int.log 2 x) = 16777216 := by
    rw [← zpow_add₀ (by norm_num : (2 : ℚ) ≠ 0)]
    have : Int.log 2 x + 1 + (23 - Int.log 2 x) = 24 := by omega
    rw [this]
    norm_num
  constructor
  · rw [← e1]
    exact mul_le_mul_of_nonneg_right h1 (le_of_lt hp)
  · rw [← e2]
    exact mul_le_mul_of_nonneg_right (le_of_lt h2) (le_of_lt hp)

theorem roundHalfEven_scaled_bounds {x : ℚ} (hx : 0 < x) :
    (8388608 : ℚ) ≤ (roundHalfEven (x * (2 : ℚ) ^ (23 - Int.log 2 x)) : ℚ) ∧
      (roundHalfEven (x * (2 : ℚ) ^ (23 - Int.log 2 x)) : ℚ) ≤ 16777216 := by
  obtain ⟨h1, h2⟩ := scaled_bounds hx
  have a := roundHalfEven_mono (a := ((8388608 : Int) : ℚ)) (by push_cast; exact h1)
  have b := roundHalfEven_mono (b := ((16777216 : Int) : ℚ)) (by push_cast; exact h2)
  rw [roundHalfEven_intCast] at a b
  exact ⟨by exact_mod_cast a, by exact_mod_cast b⟩

/-- A positive number and its rounding lie in the same binade. -/
theorem roundPos_binade {x : ℚ} (hx : 0 < x) :
    (2 : ℚ) ^ Int.log 2 x ≤ roundPos x ∧ roundPos x ≤ (2 : ℚ) ^ (Int.log 2 x + 1) := by
  obtain ⟨h1, h2⟩ := roundHalfEven_scaled_bounds hx
  have hp := two_zpow_pos (Int.log 2 x - 23)
  rw [roundPos_of_pos hx]
  have e1 : (2 : ℚ) ^ Int.log 2 x = 8388608 * (2 : ℚ) ^ (Int.log 2 x - 23) := by
    rw [two_zpow_split (Int.log 2 x) 23]
    norm_num
  have e2 : (2 : ℚ) ^ (Int.log 2 x + 1) = 16777216 * (2 : ℚ) ^ (Int.log 2 x - 23) := by
    rw [two_zpow_split (Int.log 2 x + 1) 24]
    have : Int.log 2 x + 1 - 24 = Int.log 2 x - 23 := by omega
    rw [this]
    norm_num
  rw [e1, e2]
  exact ⟨mul_le_mul_of_nonneg_right h1 (le_of_lt hp),
    mul_le_mul_of_nonneg_right h2 (le_of_lt hp)⟩

theorem roundPos_zero : roundPos 0 = 0 := by simp [roundPos]

theorem roundPos_nonneg {x : ℚ} (hx : 0 ≤ x) : 0 ≤ roundPos x := by
  rcases eq_or_lt_of_le hx with h | h
  · rw [← h, roundPos_zero]
  · exact le_trans (le_of_lt (two_zpow_pos _)) (roundPos_binade h).1

theorem roundPos_mono {x y : ℚ} (hx : 0 ≤ x) (h : x ≤ y) : roundPos x ≤ roundPos y := by
  rcases eq_or_lt_of_le hx with h0 | h0
  · rw [← h0, roundPos_zero]
    exact roundPos_nonneg (le_trans hx h)
  · have hy : 0 < y := lt_of_lt_of_le h0 h
    have hlog : Int.log 2 x ≤ Int.log 2 y := Int.log_mono_right h0 h
    rcases lt_or_eq_of_le hlog with hlt | heq
    · calc roundPos x ≤ (2 : ℚ) ^ (Int.log 2 x + 1) := (roundPos_binade h0).2
        _ ≤ (2 : ℚ) ^ Int.log 2 y := zpow_le_zpow_right₀ (by norm_num) (by omega)
        _ ≤ roundPos y := (roundPos_binade hy).1
    · rw [roundPos_of_pos h0, roundPos_of_pos hy, heq]
      apply mul_le_mul_of_nonneg_right _ (le_of_lt (two_zpow_pos _))
      have : roundHalfEven (x * (2 : ℚ) ^ (23 - Int.log 2 y)) ≤
          roundHalfEven (y * (2 : ℚ) ^ (23 - Int.log 2 y)) :=
        roundHalfEven_mono (mul_le_mul_of_nonneg_right h (le_of_lt (two_zpow_pos _)))
      exact_mod_cast this

theorem roundPos_error {x : ℚ} (hx : 0 ≤ x) : |roundPos x - x| ≤ x / 16777216 := by
  rcases eq_or_lt_of_le hx with h0 | h0
  · rw [← h0, roundPos_zero]
    simp
  · have herr := roundHalfEven_error (x * (2 : ℚ) ^ (23 - Int.log 2 x))
    have hp := two_zpow_pos (Int.log 2 x - 23)
    have hx' : x = x * (2 : ℚ) ^ (23 - Int.log 2 x) * (2 : ℚ) ^ (Int.log 2 x - 23) :=
      (scaled_mul (Int.log 2 x)).symm
    have e1 : roundPos x - x =
        ((roundHalfEven (x * (2 : ℚ) ^ (23 - Int.log 2 x)) : ℚ)
          - x * (2 : ℚ) ^ (23 - Int.log 2 x)) * (2 : ℚ) ^ (Int.log 2 x - 23) := by
      rw [roundPos_of_pos h0, sub_mul, scaled_mul]
    rw [e1, abs_mul, abs_of_pos hp]
    have hu : (2 : ℚ) ^ (Int.log 2 x - 23) ≤ x / 8388608 := by
      have h1 := (log_bounds h0).1
      rw [two_zpow_split (Int.log 2 x) 23] at h1
      rw [le_div_iff₀ (by norm_num)]
      have : (2 : ℚ) ^ (23 : ℤ) = 8388608 := by norm_num
      rw [this] at h1
      linarith
    calc |(roundHalfEven (x * (2 : ℚ) ^ (23 - Int.log 2 x)) : ℚ)
            - x * (2 : ℚ) ^ (23 - Int.log 2 x)| * (2 : ℚ) ^ (Int.log 2 x - 23)
        ≤ 1 / 2 * (2 : ℚ) ^ (Int.log 2 x - 23) :=
          mul_le_mul_of_nonneg_right herr (le_of_lt hp)
      _ ≤ 1 / 2 * (x / 8388608) := mul_le_mul_of_nonneg_left hu (by norm_num)
      _ = x / 16777216 := by ring

theorem roundF32_zero : roundF32 0 = 0 := by simp [roundF32, roundPos_zero]

theorem roundF32_mono {x y : ℚ} (h : x ≤ y) : roundF32 x ≤ roundF32 y := by
  unfold roundF32
  by_cases hx : x < 0
  · rw [if_pos hx]
    by_cases hy : y < 0
    · rw [if_pos hy]
      exact neg_le_neg (roundPos_mono (by linarith) (by linarith))
    · rw [if_neg hy]
      have h1 := roundPos_nonneg (x := -x) (by linarith)
      have h2 := roundPos_nonneg (x := y) (not_lt.mp hy)
      linarith
  · rw [if_neg hx, if_neg (by linarith)]
    exact roundPos_mono (not_lt.mp hx) h

theorem roundF32_error (x : ℚ) : |roundF32 x - x| ≤ |x| / 16777216 := by
  unfold roundF32
  by_cases hx : x < 0
  · rw [if_pos hx, abs_of_neg hx]
    have := roundPos_error (x := -x) (by linarith)
    have e : -roundPos (-x) - x = -(roundPos (-x) - -x) := by ring
    rw [e, abs_neg]
    exact this
  · rw [if_neg hx, abs_of_nonneg (not_lt.mp hx)]
    exact roundPos_error (not_lt.mp hx)


theorem roundF32_isFloatRounding : IsFloatRounding roundF32 :=
  ⟨fun _ _ h => roundF32_mono h, roundF32_error⟩

theorem id_isFloatRounding : IsFloatRounding (fun x => x) :=
  ⟨fun _ _ h => h, fun x => by simp only [sub_self, abs_zero]; positivity⟩

namespace IsFloatRounding

theorem zero {Round : ℚ → ℚ} (h : IsFloatRounding Round) : Round 0 = 0 := by
  have := h.error 0
  simp only [sub_zero, abs_zero, zero_div] at this
  exact abs_nonpos_iff.mp this

theorem nonneg {Round : ℚ → ℚ} (h : IsFloatRounding Round) {x : ℚ} (hx : 0 ≤ x) :
    0 ≤ Round x := by
  rw [← h.zero]
  exact h.mono 0 x hx

theorem nonpos {Round : ℚ → ℚ} (h : IsFloatRounding Round) {x : ℚ} (hx : x ≤ 0) :
    Round x ≤ 0 := by
  rw [← h.zero]
  exact h.mono x 0 hx

theorem pos {Round : ℚ → ℚ} (h : IsFloatRounding Round) {x : ℚ} (hx : 0 < x) :
    0 < Round x := by
  have he := h.error x
  rw [abs_of_pos hx, abs_le] at he
  have : x / 16777216 < x := by
    rw [div_lt_iff₀ (by norm_num)]
    linarith
  linarith [he.1]

/-- The error of rounding a non-negative number. -/
theorem error_nonneg {Round : ℚ → ℚ} (h : IsFloatRounding Round) {x : ℚ} (hx : 0 ≤ x) :
    x - x / 16777216 ≤ Round x ∧ Round x ≤ x + x / 16777216 := by
  have he := h.error x
  rw [abs_of_nonneg hx, abs_le] at he
  exact ⟨by linarith [he.1], by linarith [he.2]⟩

end IsFloatRounding

/-! ## Racing controller: corner speeds in single precision -/

namespace AAIRacingController

/-- Without rounding, `WaypointSpeedRounded` is the entry `InitializeRacingAI` stores. -/
theorem InitializeRacingAI_speed_rounded (E : Engine) (c : AAIRacingController)
    (Waypoints : List FVector) (i : Nat) (hi : i < Waypoints.length) :
    (InitializeRacingAI E c Waypoints).WaypointSpeeds.get? i =
      some (WaypointSpeedRounded (fun x => x) (specSharpness E Waypoints i)
        c.MaxSpeedMultiplier) := by
  rw [InitializeRacingAI_speed E c Waypoints i hi]
  simp only [WaypointSpeedRounded, Option.some.injEq]
  ring

theorem WaypointSpeedRounded_mono (Round : ℚ → ℚ) (hR : IsFloatRounding Round)
    (s1 s2 M : ℚ) (hM : 0 ≤ M) (h : s1 ≤ s2) :
    WaypointSpeedRounded Round s1 M ≤ WaypointSpeedRounded Round s2 M := by
  unfold WaypointSpeedRounded
  have h100 : 0 ≤ Round (300 - 200) := hR.nonneg (by norm_num)
  apply hR.mono
  apply mul_le_mul_of_nonneg_right _ hM
  apply hR.mono
  apply add_le_add_left
  apply hR.mono
  apply mul_le_mul_of_nonneg_right _ h100
  apply hR.mono
  apply mul_le_mul_of_nonneg_right _ (by norm_num)
  apply hR.mono
  linarith

end AAIRacingController

/-- C11 (as amended): in `float` arithmetic, with a positive `MaxSpeedMultiplier` for
which `300 * MaxSpeedMultiplier` does not exceed `FLT_MAX`, the corner speed
`InitializeRacingAI` stores is non-decreasing in the corner sharpness (not strictly
increasing: see the counterexample); a hairpin (sharpness -1) gets the `float` product
`200 * MaxSpeedMultiplier`, a waypoint on a straight (sharpness 1) gets
`300 * MaxSpeedMultiplier`, which does not overflow, and the hairpin's speed is strictly
less than the straight's. `Round` is any rounding that is monotone, has relative error at
most `2^-24` and is exact on 1, 2, 100, 200 and 300, as the rounding of `float` is. -/
theorem C11_corner_speed_nondecreasing_in_sharpness (Round : ℚ → ℚ)
    (hR : IsFloatRounding Round)
    (hexact : Round 1 = 1 ∧ Round 2 = 2 ∧ Round 100 = 100 ∧ Round 200 = 200 ∧ Round 300 = 300)
    (MaxSpeedMultiplier : ℚ) (hM : 0 < MaxSpeedMultiplier)
    (hfin : 300 * MaxSpeedMultiplier ≤ FLT_MAX) :
    (∀ s1 s2, s1 ≤ s2 →
      AAIRacingController.WaypointSpeedRounded Round s1 MaxSpeedMultiplier ≤
        AAIRacingController.WaypointSpeedRounded Round s2 MaxSpeedMultiplier) ∧
    AAIRacingController.WaypointSpeedRounded Round (-1) MaxSpeedMultiplier
      = Round (200 * MaxSpeedMultiplier) ∧
    AAIRacingController.WaypointSpeedRounded Round 1 MaxSpeedMultiplier
      = Round (300 * MaxSpeedMultiplier) ∧
    AAIRacingController.WaypointSpeedRounded Round 1 MaxSpeedMultiplier ≤ Round FLT_MAX ∧
    AAIRacingController.WaypointSpeedRounded Round (-1) MaxSpeedMultiplier <
      AAIRacingController.WaypointSpeedRounded Round 1 MaxSpeedMultiplier := by
  obtain ⟨h1, h2, h100, h200, h300⟩ := hexact
  have hlow : AAIRacingController.WaypointSpeedRounded Round (-1) MaxSpeedMultiplier
      = Round (200 * MaxSpeedMultiplier) := by
    simp only [AAIRacingController.WaypointSpeedRounded]
    norm_num [hR.zero, h100, h200]
  have hhigh : AAIRacingController.WaypointSpeedRounded Round 1 MaxSpeedMultiplier
      = Round (300 * MaxSpeedMultiplier) := by
    simp only [AAIRacingController.WaypointSpeedRounded]
    norm_num [h1, h2, h100, h300]
  refine ⟨fun s1 s2 h => AAIRacingController.WaypointSpeedRounded_mono Round hR s1 s2
    MaxSpeedMultiplier (le_of_lt hM) h, hlow, hhigh, ?_, ?_⟩
  · rw [hhigh]
    exact hR.mono _ _ hfin
  rw [hlow, hhigh]
  have a := (hR.error_nonneg (x := 200 * MaxSpeedMultiplier) (by positivity)).2
  have b := (hR.error_nonneg (x := 300 * MaxSpeedMultiplier) (by positivity)).1
  have : 200 * MaxSpeedMultiplier + 200 * MaxSpeedMultiplier / 16777216 <
      300 * MaxSpeedMultiplier - 300 * MaxSpeedMultiplier / 16777216 := by
    have e : 300 * MaxSpeedMultiplier - 300 * MaxSpeedMultiplier / 16777216
        - (200 * MaxSpeedMultiplier + 200 * MaxSpeedMultiplier / 16777216)
        = MaxSpeedMultiplier * (1677721100 / 16777216) := by ring
    have : 0 < MaxSpeedMultiplier * (1677721100 / 16777216) := by positivity
    linarith
  linarith

/-- Witness of C11: with the rounding of `float` and the multiplier 0.85f, the hairpin gets
170 and the straight gets 255. -/
theorem C11_corner_speed_nondecreasing_in_sharpness_witness :
    roundF32 FLT_MAX = FLT_MAX ∧
      AAIRacingController.WaypointSpeedRounded roundF32 (-1) (roundF32 (85 / 100)) = 170 ∧
      AAIRacingController.WaypointSpeedRounded roundF32 1 (roundF32 (85 / 100)) = 255 ∧
      AAIRacingController.WaypointSpeedRounded roundF32 (-1) (roundF32 (85 / 100)) <
        AAIRacingController.WaypointSpeedRounded roundF32 1 (roundF32 (85 / 100)) :=
  ⟨by decide!, by decide!, by decide!,
    (C11_corner_speed_nondecreasing_in_sharpness roundF32 roundF32_isFloatRounding
      (by decide!) (roundF32 (85 / 100)) (by decide!) (by decide!)).2.2.2.2⟩

/-- Counterexample to C11 as stated: the sharpness `1 - 2^-24`, the `float` just below 1,
is smaller than the sharpness 1, yet both get the corner speed 255 at the multiplier 0.85f
(and 300 at the multiplier 1): `(1 - 2^-24) + 1` rounds to 2. -/
theorem C11_counterexample :
    (1 - 1 / 16777216 : ℚ) < 1 ∧
      roundF32 (1 - 1 / 16777216) = 1 - 1 / 16777216 ∧
      roundF32 ((1 - 1 / 16777216) + 1) = 2 ∧
      AAIRacingController.WaypointSpeedRounded roundF32 (1 - 1 / 16777216)
        (roundF32 (85 / 100)) = 255 ∧
      AAIRacingController.WaypointSpeedRounded roundF32 1 (roundF32 (85 / 100)) = 255 ∧
      AAIRacingController.WaypointSpeedRounded roundF32 (1 - 1 / 16777216) 1 = 300 ∧
      AAIRacingController.WaypointSpeedRounded roundF32 1 1 = 300 := by
  decide!

/-! ## Racing controller: the mistake countdown in `float` arithmetic -/

namespace AAIRacingController

/-- Without rounding, `UpdateMistakeRounded` is `UpdateMistake`. -/
theorem UpdateMistakeRounded_id (c : AAIRacingController) (DeltaTime : ℚ) (W : TickWorld) :
    c.UpdateMistakeRounded (fun x => x) DeltaTime W = c.UpdateMistake DeltaTime W := rfl

theorem UpdateMistakeRounded_active (Round : ℚ → ℚ) (c : AAIRacingController)
    (DeltaTime : ℚ) (W : TickWorld) (hf : c.bCurrentlyMakingMistake = true) :
    (c.UpdateMistakeRounded Round DeltaTime W).bCurrentlyMakingMistake
        = decide (0 < Round (c.MistakeDuration - DeltaTime)) ∧
      (c.UpdateMistakeRounded Round DeltaTime W).MistakeDuration
        = Round (c.MistakeDuration - DeltaTime) := by
  unfold UpdateMistakeRounded
  by_cases hd : Round (c.MistakeDuration - DeltaTime) ≤ 0
  · simp [hf, hd, not_lt.mpr hd]
  · simp [hf, hd, not_le.mp hd]

theorem UpdateMistakeRounded_started (Round : ℚ → ℚ) (c : AAIRacingController)
    (DeltaTime : ℚ) (W : TickWorld) (hf : c.bCurrentlyMakingMistake = false)
    (ht : W.FRand < Round (c.MistakeChance * DeltaTime)) :
    (c.UpdateMistakeRounded Round DeltaTime W).bCurrentlyMakingMistake
        = decide (0 < Round (W.RandMistakeDuration - DeltaTime)) ∧
      (c.UpdateMistakeRounded Round DeltaTime W).MistakeDuration
        = Round (W.RandMistakeDuration - DeltaTime) := by
  unfold UpdateMistakeRounded SimulateMistake
  by_cases hd : Round (W.RandMistakeDuration - DeltaTime) ≤ 0
  · simp [hf, ht, hd, not_lt.mpr hd]
  · simp [hf, ht, hd, not_le.mp hd]

/-- One rounded decrement of a countdown `D` in `(0, 2]` that tracks the exact remainder
`R` within `err`. -/
theorem countdown_step (Round : ℚ → ℚ) (hR : IsFloatRounding Round) (h2 : Round 2 = 2)
    (D dt R err : ℚ) (hD : D ≤ 2) (hdt : 0 < dt) (herr : |D - R| ≤ err) :
    (D - dt ≤ 0 → Round (D - dt) ≤ 0) ∧
    (0 < D - dt → 0 < Round (D - dt) ∧ Round (D - dt) ≤ 2 ∧
      |Round (D - dt) - (R - dt)| ≤ err + 1 / 8388608) := by
  refine ⟨fun h => hR.nonpos h, ?_⟩
  intro hx
  refine ⟨hR.pos hx, ?_, ?_⟩
  · rw [← h2]
    exact hR.mono _ _ (by linarith)
  · have he := hR.error (D - dt)
    rw [abs_of_pos hx] at he
    have hsmall : (D - dt) / 16777216 ≤ 1 / 8388608 := by
      rw [div_le_iff₀ (by norm_num)]
      linarith
    have e : Round (D - dt) - (R - dt) = (Round (D - dt) - (D - dt)) + (D - R) := by ring
    rw [e]
    calc |Round (D - dt) - (D - dt) + (D - R)|
        ≤ |Round (D - dt) - (D - dt)| + |D - R| := abs_add _ _
      _ ≤ 1 / 8388608 + err := add_le_add (le_trans he hsmall) herr
      _ = err + 1 / 8388608 := by ring

/-- While the exact remainder, less the rounding errors that can have built up, has not
run out, the flag stays set. -/
theorem RunMistakeRounded_active (Round : ℚ → ℚ) (hR : IsFloatRounding Round)
    (h2 : Round 2 = 2) :
    ∀ (ticks : List (ℚ × TickWorld)) (c : AAIRacingController) (R err : ℚ),
      c.bCurrentlyMakingMistake = true → c.MistakeDuration ≤ 2 →
      |c.MistakeDuration - R| ≤ err → (∀ t ∈ ticks, 0 < t.1) →
      totalTime ticks + err + (ticks.length : ℚ) * (1 / 8388608) < R →
      (RunMistakeRounded Round c ticks).bCurrentlyMakingMistake = true := by
  intro ticks
  induction ticks with
  | nil =>
    intro c R err hf _ _ _ _
    exact hf
  | cons t rest ih =>
    intro c R err hf hD herr hpos hlt
    obtain ⟨dt, W⟩ := t
    have hdt : 0 < dt := hpos (dt, W) (List.mem_cons_self _ _)
    have hrest := totalTime_nonneg rest (fun x hx => hpos x (List.mem_cons_of_mem _ hx))
    rw [totalTime_cons] at hlt
    simp only [List.length_cons, Nat.cast_add, Nat.cast_one] at hlt
    have hlen : (0 : ℚ) ≤ (rest.length : ℚ) := Nat.cast_nonneg _
    have hle := (abs_le.mp herr)
    have hx : 0 < c.MistakeDuration - dt := by nlinarith [hle.1, hle.2]
    obtain ⟨hpos1, hle2, herr1⟩ := (countdown_step Round hR h2 c.MistakeDuration dt R err hD hdt
      herr).2 hx
    obtain ⟨hflag, hdur⟩ := UpdateMistakeRounded_active Round c dt W hf
    simp only [RunMistakeRounded]
    apply ih (c.UpdateMistakeRounded Round dt W) (R - dt) (err + 1 / 8388608)
    · rw [hflag]
      exact decide_eq_true hpos1
    · rw [hdur]
      exact hle2
    · rw [hdur]
      exact herr1
    · exact fun x hx => hpos x (List.mem_cons_of_mem _ hx)
    · linarith

/-- Once the simulated time exceeds the exact remainder by more than the rounding errors
that can have built up, the flag has been cleared by some tick. -/
theorem RunMistakeRounded_ends (Round : ℚ → ℚ) (hR : IsFloatRounding Round)
    (h2 : Round 2 = 2) :
    ∀ (ticks : List (ℚ × TickWorld)) (c : AAIRacingController) (R err : ℚ),
      c.bCurrentlyMakingMistake = true → 0 < c.MistakeDuration → c.MistakeDuration ≤ 2 →
      |c.MistakeDuration - R| ≤ err → (∀ t ∈ ticks, 0 < t.1) →
      R + err + (ticks.length : ℚ) * (1 / 8388608) ≤ totalTime ticks →
      ∃ pre post, ticks = pre ++ post ∧ pre ≠ [] ∧
        (RunMistakeRounded Round c pre).bCurrentlyMakingMistake = false := by
  intro ticks
  induction ticks with
  | nil =>
    intro c R err _ hD0 _ herr _ hge
    exfalso
    simp only [totalTime, List.map_nil, List.sum_nil, List.length_nil, Nat.cast_zero,
      zero_mul, add_zero] at hge
    have hle := (abs_le.mp herr)
    linarith [hle.2]
  | cons t rest ih =>
    intro c R err hf hD0 hD herr hpos hge
    obtain ⟨dt, W⟩ := t
    have hdt : 0 < dt := hpos (dt, W) (List.mem_cons_self _ _)
    rw [totalTime_cons] at hge
    simp only [List.length_cons, Nat.cast_add, Nat.cast_one] at hge
    obtain ⟨hflag, hdur⟩ := UpdateMistakeRounded_active Round c dt W hf
    obtain ⟨hstep0, hstep1⟩ := countdown_step Round hR h2 c.MistakeDuration dt R err hD hdt herr
    by_cases hx : c.MistakeDuration - dt ≤ 0
    · refine ⟨[(dt, W)], rest, rfl, by simp, ?_⟩
      simp only [RunMistakeRounded]
      rw [hflag]
      exact decide_eq_false (not_lt.mpr (hstep0 hx))
    · obtain ⟨hpos1, hle2, herr1⟩ := hstep1 (not_le.mp hx)
      obtain ⟨pre, post, hsplit, hne, hend⟩ :=
        ih (c.UpdateMistakeRounded Round dt W) (R - dt) (err + 1 / 8388608)
          (by rw [hflag]; exact decide_eq_true hpos1) (by rw [hdur]; exact hpos1)
          (by rw [hdur]; exact hle2) (by rw [hdur]; exact herr1)
          (fun x hx => hpos x (List.mem_cons_of_mem _ hx)) (by linarith)
      refine ⟨(dt, W) :: pre, post, by rw [hsplit]; rfl, by simp, ?_⟩
      simp only [RunMistakeRounded]
      exact hend


theorem UpdateMistakeRounded_SameMistake (Round : ℚ → ℚ) (a b : AAIRacingController)
    (DeltaTime : ℚ) (W : TickWorld) (h : SameMistake a b) :
    SameMistake (a.UpdateMistakeRounded Round DeltaTime W)
      (b.UpdateMistakeRounded Round DeltaTime W) := by
  obtain ⟨h1, h2, h3⟩ := h
  unfold UpdateMistakeRounded SimulateMistake SameMistake
  simp only [h1, h2, h3]
  cases b.bCurrentlyMakingMistake with
  | true =>
    by_cases hd : Round (b.MistakeDuration - DeltaTime) ≤ 0
    · simp [hd]
    · simp [hd]
  | false =>
    by_cases ht : W.FRand < Round (b.MistakeChance * DeltaTime)
    · by_cases hd : Round (W.RandMistakeDuration - DeltaTime) ≤ 0
      · simp [ht, hd]
      · simp [ht, hd]
    · simp [ht, h2, h3]

theorem RunMistakeRounded_SameMistake (Round : ℚ → ℚ) :
    ∀ (ticks : List (ℚ × TickWorld)) (a b : AAIRacingController), SameMistake a b →
      SameMistake (RunMistakeRounded Round a ticks) (RunMistakeRounded Round b ticks) := by
  intro ticks
  induction ticks with
  | nil => exact fun _ _ h => h
  | cons t rest ih =>
    intro a b h
    obtain ⟨dt, W⟩ := t
    simp only [RunMistakeRounded]
    exact ih _ _ (UpdateMistakeRounded_SameMistake Round a b dt W h)

/-- In the exact model, a tick of a controller with a vehicle and waypoints leaves the
mistake flag, countdown and chance as the mistake block alone does. -/
theorem Tick_SameMistake (E : Engine) (c c' : AAIRacingController) (DeltaTime : ℚ)
    (W : TickWorld) (w : Option VehicleInputs) (hv : c.ControlledVehicle ≠ none)
    (hw : c.RacelineWaypoints.length ≠ 0) (h : Tick E c DeltaTime W = some (c', w)) :
    SameMistake c' (c.UpdateMistakeRounded (fun x => x) DeltaTime W) := by
  obtain ⟨hu, _⟩ := Tick_result E c c' DeltaTime W w hv hw h
  obtain ⟨s, c3, c5, hs, hc5, rfl⟩ := UpdateRacingInputs_scan E c c' DeltaTime W hv hu
  obtain ⟨h3c, _, h3s, _⟩ := CalculateSteeringInput_frame E _ c3 W s hs
  obtain ⟨h5c, _, h5s, _⟩ := CalculateThrottleBrake_frame _ c5 W hc5
  obtain ⟨h7c, _, h7s, _⟩ := UpdateOvertake_frame
    (if c5.bEnableRubberBanding then ApplyRubberBanding E c5 W else c5) DeltaTime W
  have h6 : (if c5.bEnableRubberBanding then ApplyRubberBanding E c5 W else c5).Config
        = c5.Config ∧
      (if c5.bEnableRubberBanding then ApplyRubberBanding E c5 W else c5).MistakeState
        = c5.MistakeState := by
    by_cases hb : c5.bEnableRubberBanding = true
    · rw [if_pos hb]
      obtain ⟨k1, k2, _⟩ := ApplyRubberBanding_frame E c5 W
      exact ⟨k1, k2⟩
    · rw [if_neg hb]
      exact ⟨rfl, rfl⟩
  have hstate := h7s.trans (h6.2.trans (h5s.trans h3s))
  have hcfg := h7c.trans (h6.1.trans (h5c.trans h3c))
  have hsame : SameMistake
      (UpdateMistake
        { c with RacingData :=
            { c.RacingData with
              CurrentWaypointIndex :=
                (ScanWaypoints E W.VehicleLocation c.RacelineWaypoints 0
                  (FLT_MAX, c.RacingData.CurrentWaypointIndex)).2
              DistanceToNextWaypoint :=
                (ScanWaypoints E W.VehicleLocation c.RacelineWaypoints 0
                  (FLT_MAX, c.RacingData.CurrentWaypointIndex)).1 } } DeltaTime W)
      (c.UpdateMistakeRounded (fun x => x) DeltaTime W) :=
    UpdateMistakeRounded_SameMistake (fun x => x) _ c DeltaTime W ⟨rfl, rfl, rfl⟩
  simp only [MistakeState, Prod.mk.injEq] at hstate
  simp only [Config, Prod.mk.injEq] at hcfg
  exact ⟨hstate.1.trans hsame.1, hstate.2.trans hsame.2.1, hcfg.2.2.2.2.2.1.trans hsame.2.2⟩

/-- In the exact model, a run of ticks of a controller with a vehicle and waypoints leaves
the mistake flag and countdown as the run of the mistake block alone does. -/
theorem RunTicks_SameMistake (E : Engine) :
    ∀ (ticks : List (ℚ × TickWorld)) (c c' : AAIRacingController) (ws : List VehicleInputs),
      c.ControlledVehicle ≠ none → c.RacelineWaypoints.length ≠ 0 →
      RunTicks E c ticks = some (c', ws) →
      SameMistake c' (RunMistakeRounded (fun x => x) c ticks) := by
  intro ticks
  induction ticks with
  | nil =>
    intro c c' ws _ _ h
    simp only [RunTicks, Option.some.injEq, Prod.mk.injEq] at h
    rw [← h.1]
    exact ⟨rfl, rfl, rfl⟩
  | cons t rest ih =>
    intro c c' ws hv hw h
    obtain ⟨dt, W⟩ := t
    simp only [RunTicks] at h
    cases ht : Tick E c dt W with
    | none => simp [ht] at h
    | some r =>
      obtain ⟨c1, w⟩ := r
      simp only [ht] at h
      cases hr : RunTicks E c1 rest with
      | none => simp [hr] at h
      | some r2 =>
        obtain ⟨c2, ws2⟩ := r2
        simp only [hr, Option.some.injEq, Prod.mk.injEq] at h
        obtain ⟨rfl, _⟩ := h
        obtain ⟨⟨hv1, hw1, _⟩, _⟩ := Tick_mistake E c c1 dt W w hv hw ht
        have h1 := Tick_SameMistake E c c1 dt W w hv hw ht
        have h2 := ih c1 c2 ws2 hv1 hw1 hr
        have h3 := RunMistakeRounded_SameMistake (fun x => x) rest _ _ h1
        simp only [RunMistakeRounded]
        exact ⟨h2.1.trans h3.1, h2.2.1.trans h3.2.1, h2.2.2.trans h3.2.2⟩

end AAIRacingController

/-- C14 (as amended): in `float` arithmetic, from the tick that starts a mistake with a
drawn duration `D` in [0.5, 2.0], after `n` ticks (the starting tick included) of positive
steps whose sum is `T`, the flag is still set if `T + n 2^-23 < D`, and it has been cleared
by one of these ticks if `D + n 2^-23 ≤ T`. So the mistake ends at a tick, the `k`-th,
whose total time is at least `D - k 2^-23` and less than `D` plus `k 2^-23` plus the last
step: it can last longer than 2.0 s by up to one step. `Round` is any rounding that is
monotone, has relative error at most `2^-24` and is exact on 2, as the rounding of `float`
is. -/
theorem C14_mistake_ends_when_countdown_expires (Round : ℚ → ℚ) (hR : IsFloatRounding Round)
    (h2 : Round 2 = 2) (c : AAIRacingController) (DeltaTime : ℚ) (W : TickWorld)
    (rest : List (ℚ × TickWorld))
    (hflag : c.bCurrentlyMakingMistake = false)
    (htrig : W.FRand < Round (c.MistakeChance * DeltaTime))
    (hD : 1 / 2 ≤ W.RandMistakeDuration ∧ W.RandMistakeDuration ≤ 2)
    (hpos : ∀ t ∈ (DeltaTime, W) :: rest, 0 < t.1) :
    (totalTime ((DeltaTime, W) :: rest)
        + (((DeltaTime, W) :: rest).length : ℚ) * (1 / 8388608) < W.RandMistakeDuration →
      (AAIRacingController.RunMistakeRounded Round c
        ((DeltaTime, W) :: rest)).bCurrentlyMakingMistake = true) ∧
    (W.RandMistakeDuration + (((DeltaTime, W) :: rest).length : ℚ) * (1 / 8388608)
        ≤ totalTime ((DeltaTime, W) :: rest) →
      ∃ pre post, (DeltaTime, W) :: rest = pre ++ post ∧ pre ≠ [] ∧
        (AAIRacingController.RunMistakeRounded Round c pre).bCurrentlyMakingMistake
          = false) := by
  have hdt : 0 < DeltaTime := hpos (DeltaTime, W) (List.mem_cons_self _ _)
  have hposr : ∀ t ∈ rest, 0 < t.1 := fun x hx => hpos x (List.mem_cons_of_mem _ hx)
  have hrest := totalTime_nonneg rest hposr
  have hlen : (0 : ℚ) ≤ (rest.length : ℚ) := Nat.cast_nonneg _
  obtain ⟨hf1, hd1⟩ :=
    AAIRacingController.UpdateMistakeRounded_started Round c DeltaTime W hflag htrig
  obtain ⟨hstep0, hstep1⟩ := AAIRacingController.countdown_step Round hR h2
    W.RandMistakeDuration DeltaTime W.RandMistakeDuration 0 hD.2 hdt (by simp)
  rw [totalTime_cons]
  simp only [List.length_cons, Nat.cast_add, Nat.cast_one, AAIRacingController.RunMistakeRounded]
  constructor
  · intro hlt
    have hx : 0 < W.RandMistakeDuration - DeltaTime := by nlinarith
    obtain ⟨hpos1, hle2, herr1⟩ := hstep1 hx
    exact AAIRacingController.RunMistakeRounded_active Round hR h2 rest _
      (W.RandMistakeDuration - DeltaTime) (0 + 1 / 8388608)
      (by rw [hf1]; exact decide_eq_true hpos1) (by rw [hd1]; exact hle2)
      (by rw [hd1]; exact herr1) hposr (by linarith)
  · intro hge
    by_cases hx : W.RandMistakeDuration - DeltaTime ≤ 0
    · refine ⟨[(DeltaTime, W)], rest, rfl, by simp, ?_⟩
      simp only [AAIRacingController.RunMistakeRounded]
      rw [hf1]
      exact decide_eq_false (not_lt.mpr (hstep0 hx))
    · obtain ⟨hpos1, hle2, herr1⟩ := hstep1 (not_le.mp hx)
      obtain ⟨pre, post, hsplit, _, hend⟩ :=
        AAIRacingController.RunMistakeRounded_ends Round hR h2 rest _
          (W.RandMistakeDuration - DeltaTime) (0 + 1 / 8388608)
          (by rw [hf1]; exact decide_eq_true hpos1) (by rw [hd1]; exact hpos1)
          (by rw [hd1]; exact hle2) (by rw [hd1]; exact herr1) hposr (by linarith)
      refine ⟨(DeltaTime, W) :: pre, post, by rw [hsplit]; rfl, by simp, ?_⟩
      simp only [AAIRacingController.RunMistakeRounded]
      exact hend


/-- Witness of C14: with the rounding of `float`, a mistake of 0.5 s started by a tick of
`0.1f` s is still running after 3 such ticks, and has been cleared by one of the first 6
such ticks. -/
theorem C14_mistake_ends_when_countdown_expires_witness :
    (totalTime (floatTicks (1 / 10) (1 / 2) 2)
        + ((floatTicks (1 / 10) (1 / 2) 2).length : ℚ) * (1 / 8388608) < 1 / 2 ∧
      (AAIRacingController.RunMistakeRounded roundF32 drivingController
        (floatTicks (1 / 10) (1 / 2) 2)).bCurrentlyMakingMistake = true) ∧
    (1 / 2 + ((floatTicks (1 / 10) (1 / 2) 5).length : ℚ) * (1 / 8388608)
        ≤ totalTime (floatTicks (1 / 10) (1 / 2) 5) ∧
      ∃ pre post, floatTicks (1 / 10) (1 / 2) 5 = pre ++ post ∧ pre ≠ [] ∧
        (AAIRacingController.RunMistakeRounded roundF32 drivingController
          pre).bCurrentlyMakingMistake = false) := by
  have hlt : totalTime (floatTicks (1 / 10) (1 / 2) 2)
      + ((floatTicks (1 / 10) (1 / 2) 2).length : ℚ) * (1 / 8388608) < 1 / 2 := by decide!
  have hge : 1 / 2 + ((floatTicks (1 / 10) (1 / 2) 5).length : ℚ) * (1 / 8388608)
      ≤ totalTime (floatTicks (1 / 10) (1 / 2) 5) := by decide!
  exact ⟨⟨hlt, (C14_mistake_ends_when_countdown_expires roundF32 roundF32_isFloatRounding
      (by decide!) drivingController (roundF32 (1 / 10))
      { stillWorld with FRand := 0, RandMistakeDuration := 1 / 2 }
      (List.replicate 2 (roundF32 (1 / 10), stillWorld))
      (by decide) (by decide!) (by decide!) (by decide!)).1 hlt⟩,
    ⟨hge, (C14_mistake_ends_when_countdown_expires roundF32 roundF32_isFloatRounding
      (by decide!) drivingController (roundF32 (1 / 10))
      { stillWorld with FRand := 0, RandMistakeDuration := 1 / 2 }
      (List.replicate 5 (roundF32 (1 / 10), stillWorld))
      (by decide) (by decide!) (by decide!) (by decide!)).2 hge⟩⟩

/-- Counterexample to C14 as stated: with ticks of 0.3 s and a drawn duration of 2 s, the
mistake is still running after 1.8 s and ends after 2.1 s, outside [0.5, 2.0]; this is so
with exact arithmetic and with the arithmetic of `float`. In `float` arithmetic the lower
bound fails as well: with ticks of `0.02f` s a mistake of 0.5 s is over after 25 ticks,
whose steps sum to 0.49999998882412910461425781250 s, and with ticks of `(1/60)f` s a
mistake of 1 s is still running after 60 ticks, whose steps sum to more than 1 s. -/
theorem C14_counterexample :
    longMistakeWorld.RandMistakeDuration = 2 ∧
      drivingController.bCurrentlyMakingMistake = false ∧
      (AAIRacingController.RunTicks gridEngine drivingController (slowTicks 0)).map
        (fun r => r.1.bCurrentlyMakingMistake) = some true ∧
      (AAIRacingController.RunTicks gridEngine drivingController (slowTicks 5)).map
        (fun r => r.1.bCurrentlyMakingMistake) = some true ∧
      totalTime (slowTicks 5) = 18 / 10 ∧
      (AAIRacingController.RunTicks gridEngine drivingController (slowTicks 6)).map
        (fun r => r.1.bCurrentlyMakingMistake) = some false ∧
      totalTime (slowTicks 6) = 21 / 10 ∧
      ¬ (totalTime (slowTicks 6) ≤ 2) ∧
      (AAIRacingController.RunMistakeRounded roundF32 drivingController
        (floatTicks (3 / 10) 2 5)).bCurrentlyMakingMistake = true ∧
      (AAIRacingController.RunMistakeRounded roundF32 drivingController
        (floatTicks (3 / 10) 2 6)).bCurrentlyMakingMistake = false ∧
      totalTime (floatTicks (3 / 10) 2 6) = 35232155 / 16777216 ∧
      ¬ (totalTime (floatTicks (3 / 10) 2 6) ≤ 2) ∧
      (AAIRacingController.RunMistakeRounded roundF32 drivingController
        (floatTicks (2 / 100) (1 / 2) 23)).bCurrentlyMakingMistake = true ∧
      (AAIRacingController.RunMistakeRounded roundF32 drivingController
        (floatTicks (2 / 100) (1 / 2) 24)).bCurrentlyMakingMistake = false ∧
      totalTime (floatTicks (2 / 100) (1 / 2) 24) = 134217725 / 268435456 ∧
      totalTime (floatTicks (2 / 100) (1 / 2) 24) < 1 / 2 ∧
      (AAIRacingController.RunMistakeRounded roundF32 drivingController
        (floatTicks (1 / 60) 1 59)).bCurrentlyMakingMistake = true ∧
      1 < totalTime (floatTicks (1 / 60) 1 59) := by
  decide!

/-! ## Track manager: lap times in `float` arithmetic -/

theorem lapTimes_map_roundLapEvent (Round : ℚ → ℚ) (v : VehiclePtr) (evs : List TrackEvent) :
    lapTimes v (evs.map (roundLapEvent Round)) = (lapTimes v evs).map Round := by
  induction evs with
  | nil => rfl
  | cons e rest ih =>
    cases e with
    | CheckpointPassed u i => simpa [lapTimes, roundLapEvent] using ih
    | LapCompleted u t =>
      by_cases h : u = v
      · simp [lapTimes, roundLapEvent, h, ih]
      · simp [lapTimes, roundLapEvent, h, ih]

namespace ARaceTrackManager

/-- Without rounding, `HandleVehicleCheckpointRounded` is `HandleVehicleCheckpoint`. -/
theorem HandleVehicleCheckpointRounded_id (m : ARaceTrackManager) (TimeSeconds : ℚ)
    (Vehicle : VehiclePtr) (CheckpointIndex : Int) :
    m.HandleVehicleCheckpointRounded (fun x => x) TimeSeconds Vehicle CheckpointIndex
      = m.HandleVehicleCheckpoint TimeSeconds Vehicle CheckpointIndex := rfl

/-- Without rounding, `HandleContactsRounded` is `HandleContacts`. -/
theorem HandleContactsRounded_id (m : ARaceTrackManager) (cs : List Contact) :
    m.HandleContactsRounded (fun x => x) cs = m.HandleContacts cs := by
  induction cs generalizing m with
  | nil => rfl
  | cons c rest ih =>
    simp only [HandleContactsRounded, HandleContacts, HandleVehicleCheckpointRounded_id, ih]

theorem SameProgress_refl (m : ARaceTrackManager) : SameProgress m m :=
  ⟨rfl, rfl, rfl, fun _ => rfl⟩

theorem SameProgress_InitVehicleTracking (a b : ARaceTrackManager) (hs : SameProgress a b)
    (t : ℚ) (u : VehiclePtr) :
    SameProgress (a.InitVehicleTracking t u) (b.InitVehicleTracking t u) := by
  obtain ⟨h1, h2, h3, h4⟩ := hs
  cases hb : b.VehicleCheckpoints u with
  | none =>
    have ha : a.VehicleCheckpoints u = none := by rw [h2]; exact hb
    rw [InitVehicleTracking_of_no_key a t u ha, InitVehicleTracking_of_no_key b t u hb]
    refine ⟨h1, ?_, ?_, ?_⟩
    · show a.VehicleCheckpoints.Add u 0 = b.VehicleCheckpoints.Add u 0
      rw [h2]
    · show a.VehicleLapStartTimes.Add u t = b.VehicleLapStartTimes.Add u t
      rw [h3]
    · intro v
      show ((a.VehicleBestLaps.Add u FLT_MAX) v).isSome = ((b.VehicleBestLaps.Add u FLT_MAX) v).isSome
      by_cases hv : v = u
      · simp [TMap.Add, hv]
      · simp [TMap.Add, hv, h4 v]
  | some e =>
    have ha : a.VehicleCheckpoints u = some e := by rw [h2]; exact hb
    rw [InitVehicleTracking_of_key a t u e ha, InitVehicleTracking_of_key b t u e hb]
    exact ⟨h1, h2, h3, h4⟩

/-- Handling a contact in `float` arithmetic when the clock reading is a `float`: the call
returns exactly when the exact one does, the events are the same with the lap time rounded,
and the states agree on the progress records. -/
theorem HandleVehicleCheckpointRounded_sim (Round : ℚ → ℚ) (a b : ARaceTrackManager)
    (hs : SameProgress a b) (t : ℚ) (ht : Round t = t) (u : VehiclePtr) (k : Int) :
    match b.HandleVehicleCheckpoint t u k with
    | none => a.HandleVehicleCheckpointRounded Round t u k = none
    | some (b1, evs) =>
      ∃ a1, a.HandleVehicleCheckpointRounded Round t u k
          = some (a1, evs.map (roundLapEvent Round)) ∧ SameProgress a1 b1 := by
  have hs1 := SameProgress_InitVehicleTracking a b hs t u
  simp only [HandleVehicleCheckpoint, HandleVehicleCheckpointRounded, ht]
  generalize a.InitVehicleTracking t u = a1 at hs1
  generalize b.InitVehicleTracking t u = b1 at hs1
  obtain ⟨h1, h2, h3, h4⟩ := hs1
  rw [h2, h1]
  cases hb : b1.VehicleCheckpoints u with
  | none => simp
  | some e =>
    simp only
    by_cases hk : k = e
    · rw [if_pos hk, if_pos hk]
      cases hnx : modInt32 (wrapInt32 (k + 1)) b1.TotalCheckpoints with
      | none => simp
      | some nx =>
        simp only [IsLapComplete, h1]
        by_cases hlap : k = wrapInt32 (b1.TotalCheckpoints - 1)
        · simp only [hlap, decide_True, if_true, CompleteLap, CompleteLapRounded,
            GetCurrentLapTime, GetCurrentLapTimeRounded, h3, ht]
          have h4u := h4 u
          cases hbb : b1.VehicleBestLaps u with
          | none =>
            rw [hbb] at h4u
            have : a1.VehicleBestLaps u = none := by
              cases hab : a1.VehicleBestLaps u with
              | none => rfl
              | some x => rw [hab] at h4u; simp at h4u
            simp [this]
          | some bb =>
            rw [hbb] at h4u
            obtain ⟨ab, hab⟩ : ∃ ab, a1.VehicleBestLaps u = some ab := by
              cases hab : a1.VehicleBestLaps u with
              | none => rw [hab] at h4u; simp at h4u
              | some x => exact ⟨x, rfl⟩
            simp only [hab]
            cases hsb : b1.VehicleLapStartTimes u with
            | none =>
              by_cases c1 : (0 : ℚ) < bb <;> by_cases c2 : (0 : ℚ) < ab <;> simp [c1, c2, hsb]
            | some s =>
              by_cases c1 : t - s < bb <;> by_cases c2 : Round (t - s) < ab <;>
                simp [c1, c2, hsb, roundLapEvent, SameProgress, h1, h2, h3] <;>
                (intro v; by_cases hv : v = u <;> simp [TMap.Add, hv, h4 v, hab, hbb])
        · simp only [hlap, decide_False, if_false, Bool.false_eq_true]
          exact ⟨_, rfl, rfl, rfl, h3, h4⟩
    · rw [if_neg hk, if_neg hk]
      exact ⟨a1, by simp, h1, h2, h3, h4⟩


theorem HandleContactsRounded_sim (Round : ℚ → ℚ) :
    ∀ (cs : List Contact) (a b : ARaceTrackManager), SameProgress a b →
      (∀ c ∈ cs, Round c.TimeSeconds = c.TimeSeconds) →
      match b.HandleContacts cs with
      | none => a.HandleContactsRounded Round cs = none
      | some (b1, evs) =>
        ∃ a1, a.HandleContactsRounded Round cs = some (a1, evs.map (roundLapEvent Round)) ∧
          SameProgress a1 b1 := by
  intro cs
  induction cs with
  | nil =>
    intro a b hs _
    exact ⟨a, rfl, hs⟩
  | cons c rest ih =>
    intro a b hs hfl
    have hstep := HandleVehicleCheckpointRounded_sim Round a b hs c.TimeSeconds
      (hfl c (List.mem_cons_self _ _)) c.Vehicle c.CheckpointIndex
    simp only [HandleContacts, HandleContactsRounded]
    cases hb : b.HandleVehicleCheckpoint c.TimeSeconds c.Vehicle c.CheckpointIndex with
    | none =>
      rw [hb] at hstep
      simp only at hstep
      simp only [hstep]
    | some r =>
      obtain ⟨b1, e1⟩ := r
      rw [hb] at hstep
      obtain ⟨a1, ha, hs1⟩ := hstep
      have hrest := ih a1 b1 hs1 (fun x hx => hfl x (List.mem_cons_of_mem _ hx))
      simp only [ha]
      cases hb2 : b1.HandleContacts rest with
      | none =>
        rw [hb2] at hrest
        simp only at hrest
        simp only [hrest]
      | some r2 =>
        obtain ⟨b2, e2⟩ := r2
        rw [hb2] at hrest
        obtain ⟨a2, ha2, hs2⟩ := hrest
        simp only [ha2]
        exact ⟨a2, by rw [List.map_append], hs2⟩

/-- A run in `float` arithmetic that returns, the clock readings being `float` values: the
exact run returns too, with the same events up to the rounding of the lap times and the
same progress records. -/
theorem HandleContactsRounded_exact (Round : ℚ → ℚ) (m m' : ARaceTrackManager)
    (cs : List Contact) (evs : List TrackEvent)
    (hfl : ∀ c ∈ cs, Round c.TimeSeconds = c.TimeSeconds)
    (h : m.HandleContactsRounded Round cs = some (m', evs)) :
    ∃ b evs0, m.HandleContacts cs = some (b, evs0) ∧ evs = evs0.map (roundLapEvent Round) ∧
      SameProgress m' b := by
  have hsim := HandleContactsRounded_sim Round cs m m (SameProgress_refl m) hfl
  cases hb : m.HandleContacts cs with
  | none =>
    rw [hb] at hsim
    simp only at hsim
    rw [hsim] at h
    exact absurd h (by simp)
  | some r =>
    obtain ⟨b, evs0⟩ := r
    rw [hb] at hsim
    obtain ⟨a1, ha, hs⟩ := hsim
    rw [ha] at h
    simp only [Option.some.injEq, Prod.mk.injEq] at h
    exact ⟨b, evs0, rfl, h.2.symm, by rw [← h.1]; exact hs⟩

theorem HandleVehicleCheckpointRounded_exact (Round : ℚ → ℚ) (m m' : ARaceTrackManager)
    (t : ℚ) (ht : Round t = t) (u : VehiclePtr) (k : Int) (evs : List TrackEvent)
    (h : m.HandleVehicleCheckpointRounded Round t u k = some (m', evs)) :
    ∃ b evs0, m.HandleVehicleCheckpoint t u k = some (b, evs0) ∧
      evs = evs0.map (roundLapEvent Round) ∧ SameProgress m' b := by
  have hsim := HandleVehicleCheckpointRounded_sim Round m m (SameProgress_refl m) t ht u k
  cases hb : m.HandleVehicleCheckpoint t u k with
  | none =>
    rw [hb] at hsim
    simp only at hsim
    rw [hsim] at h
    exact absurd h (by simp)
  | some r =>
    obtain ⟨b, evs0⟩ := r
    rw [hb] at hsim
    obtain ⟨a1, ha, hs⟩ := hsim
    rw [ha] at h
    simp only [Option.some.injEq, Prod.mk.injEq] at h
    exact ⟨b, evs0, rfl, h.2.symm, by rw [← h.1]; exact hs⟩

end ARaceTrackManager

/-- Rounding each of a list of non-negative numbers changes the sum by at most `2^-24`
times the sum. -/
theorem sum_map_round_error (Round : ℚ → ℚ) (hR : IsFloatRounding Round) (l : List ℚ)
    (hl : ∀ x ∈ l, 0 ≤ x) : |(l.map Round).sum - l.sum| ≤ l.sum / 16777216 := by
  induction l with
  | nil => simp
  | cons x rest ih =>
    have hx : 0 ≤ x := hl x (List.mem_cons_self x rest)
    have hrest := ih (fun y hy => hl y (List.mem_cons_of_mem x hy))
    have he := hR.error x
    rw [abs_of_nonneg hx] at he
    simp only [List.map_cons, List.sum_cons]
    have e : Round x + (rest.map Round).sum - (x + rest.sum)
        = (Round x - x) + ((rest.map Round).sum - rest.sum) := by ring
    rw [e]
    calc |Round x - x + ((rest.map Round).sum - rest.sum)|
        ≤ |Round x - x| + |(rest.map Round).sum - rest.sum| := abs_add _ _
      _ ≤ x / 16777216 + rest.sum / 16777216 := add_le_add he hrest
      _ = (x + rest.sum) / 16777216 := by ring


namespace ARaceTrackManager

theorem HandleContactsRounded_append (Round : ℚ → ℚ) (m : ARaceTrackManager)
    (a b : List Contact) :
    m.HandleContactsRounded Round (a ++ b) =
      match m.HandleContactsRounded Round a with
      | none => none
      | some (m1, e1) =>
        match m1.HandleContactsRounded Round b with
        | none => none
        | some (m2, e2) => some (m2, e1 ++ e2) := by
  induction a generalizing m with
  | nil =>
    simp only [List.nil_append, HandleContactsRounded]
    cases h : m.HandleContactsRounded Round b with
    | none => rfl
    | some r => simp
  | cons c rest ih =>
    rw [List.cons_append]
    simp only [HandleContactsRounded]
    cases h : m.HandleVehicleCheckpointRounded Round c.TimeSeconds c.Vehicle
        c.CheckpointIndex with
    | none => rfl
    | some r =>
      obtain ⟨m1, e1⟩ := r
      simp only
      rw [ih m1]
      cases h1 : m1.HandleContactsRounded Round rest with
      | none => rfl
      | some r1 =>
        obtain ⟨m2, e2⟩ := r1
        simp only
        cases h2 : m2.HandleContactsRounded Round b with
        | none => rfl
        | some r2 => simp

/-- A run in `float` arithmetic, started with vehicle `v` untracked, under a clock that
does not run backward and whose readings are `float` values: the lap times of `v` are
non-negative, and once `v` has made a contact its lap start `s` is not earlier than its
first contact `tf` and the sum of its lap times differs from `s - tf` by at most
`2^-24 (s - tf)`. -/
theorem lap_sum_rounded (Round : ℚ → ℚ) (hR : IsFloatRounding Round) (v : VehiclePtr)
    (cs : List Contact) (m m' : ARaceTrackManager) (evs : List TrackEvent)
    (hfresh : m.VehicleCheckpoints v = none)
    (hclock : cs.Pairwise (fun a b => a.TimeSeconds ≤ b.TimeSeconds))
    (hfl : ∀ c ∈ cs, Round c.TimeSeconds = c.TimeSeconds)
    (hrun : m.HandleContactsRounded Round cs = some (m', evs)) :
    (∀ l ∈ lapTimes v evs, 0 ≤ l) ∧
      (∀ tf, firstContactTime v cs = some tf →
        ∃ s, m'.VehicleLapStartTimes v = some s ∧ tf ≤ s ∧
          |(lapTimes v evs).sum - (s - tf)| ≤ (s - tf) / 16777216) := by
  obtain ⟨b, evs0, hb, rfl, hsame⟩ := HandleContactsRounded_exact Round m m' cs evs hfl hrun
  obtain ⟨hnn, hstart⟩ := lap_start_run v cs m b evs0 hfresh hclock hb
  rw [lapTimes_map_roundLapEvent]
  refine ⟨?_, ?_⟩
  · intro l hl
    obtain ⟨x, hx, rfl⟩ := List.mem_map.mp hl
    exact hR.nonneg (hnn x hx)
  · intro tf htf
    have hsum : 0 ≤ (lapTimes v evs0).sum := List.sum_nonneg hnn
    refine ⟨tf + (lapTimes v evs0).sum, ?_, by linarith, ?_⟩
    · rw [hsame.2.2.1]
      exact hstart tf htf
    · have e : tf + (lapTimes v evs0).sum - tf = (lapTimes v evs0).sum := by ring
      rw [e]
      exact sum_map_round_error Round hR _ hnn

end ARaceTrackManager

/-- C30 (as amended): in `float` arithmetic, for a vehicle untracked at the start and a
clock that does not run backward and whose readings are `float` values, every lap time
broadcast is non-negative; a lap-completing contact broadcasts the rounded difference of
the current time and the vehicle's lap start and resets the lap start to the current time;
the sum of the lap times broadcast so far equals the time since the first contact only up
to the rounding of each lap time: at each lap completion it differs from the completion
time minus the time of the first contact by at most `2^-24` times that time. `Round` is any
rounding that is monotone and has relative error at most `2^-24`, as the rounding of
`float` is. -/
theorem C30_lap_times_sum_within_rounding (Round : ℚ → ℚ) (hR : IsFloatRounding Round)
    (m m' : ARaceTrackManager) (v : VehiclePtr)
    (cs : List ARaceTrackManager.Contact) (evs : List TrackEvent)
    (hfresh : m.VehicleCheckpoints v = none)
    (hclock : cs.Pairwise (fun a b => a.TimeSeconds ≤ b.TimeSeconds))
    (hfloat : ∀ c ∈ cs, Round c.TimeSeconds = c.TimeSeconds)
    (hrun : m.HandleContactsRounded Round cs = some (m', evs)) :
    (∀ l ∈ lapTimes v evs, 0 ≤ l) ∧
    (∀ tf, firstContactTime v cs = some tf →
      ∃ s, m'.VehicleLapStartTimes v = some s ∧ tf ≤ s ∧
        |(lapTimes v evs).sum - (s - tf)| ≤ (s - tf) / 16777216) ∧
    (∀ pre c post m1 e1 m2 e2, cs = pre ++ c :: post → c.Vehicle = v →
      m.HandleContactsRounded Round pre = some (m1, e1) →
      m1.HandleVehicleCheckpointRounded Round c.TimeSeconds v c.CheckpointIndex
        = some (m2, e2) →
      lapTimes v e2 ≠ [] →
      (∃ s0, (m1.InitVehicleTracking c.TimeSeconds v).VehicleLapStartTimes v = some s0 ∧
        lapTimes v e2 = [Round (c.TimeSeconds - s0)]) ∧
      m2.VehicleLapStartTimes v = some c.TimeSeconds ∧
      ∀ tf, firstContactTime v cs = some tf →
        tf ≤ c.TimeSeconds ∧
        |(lapTimes v (e1 ++ e2)).sum - (c.TimeSeconds - tf)|
          ≤ (c.TimeSeconds - tf) / 16777216) := by
  obtain ⟨hnn, hstart⟩ :=
    ARaceTrackManager.lap_sum_rounded Round hR v cs m m' evs hfresh hclock hfloat hrun
  refine ⟨hnn, hstart, ?_⟩
  intro pre c post m1 e1 m2 e2 hcs hcv hpre hc hne
  have hmem : c ∈ cs := by
    rw [hcs]
    exact List.mem_append_right _ (List.mem_cons_self _ _)
  obtain ⟨b2, e20, hb2, he2, hsame2⟩ :=
    ARaceTrackManager.HandleVehicleCheckpointRounded_exact Round m1 m2 _ (hfloat c hmem) v _ e2
      hc
  obtain ⟨_, hcase⟩ := ARaceTrackManager.HandleVehicleCheckpoint_lap_start m1 b2 _ v _ e20 hb2
  rw [he2, lapTimes_map_roundLapEvent] at hne
  rcases hcase with ⟨hl, _⟩ | ⟨s0, hs0, hl, hreset⟩
  · rw [hl] at hne
    exact absurd rfl hne
  · have hreset2 : m2.VehicleLapStartTimes v = some c.TimeSeconds := by
      rw [hsame2.2.2.1]
      exact hreset
    refine ⟨⟨s0, hs0, ?_⟩, hreset2, ?_⟩
    · rw [he2, lapTimes_map_roundLapEvent, hl]
      rfl
    · intro tf htf
      have hsplit : pre ++ c :: post = (pre ++ [c]) ++ post := by simp
      have hpw : (pre ++ [c]).Pairwise (fun a b => a.TimeSeconds ≤ b.TimeSeconds) := by
        rw [hcs, hsplit] at hclock
        exact (List.pairwise_append.mp hclock).1
      have hfl2 : ∀ x ∈ pre ++ [c], Round x.TimeSeconds = x.TimeSeconds := by
        intro x hx
        apply hfloat x
        rw [hcs, hsplit]
        exact List.mem_append_left _ hx
      have hone : m1.HandleContactsRounded Round [c] = some (m2, e2) := by
        simp only [ARaceTrackManager.HandleContactsRounded, hcv, hc, List.append_nil]
      have hrun2 : m.HandleContactsRounded Round (pre ++ [c]) = some (m2, e1 ++ e2) := by
        rw [ARaceTrackManager.HandleContactsRounded_append, hpre]
        simp only [hone]
      have hfirst : firstContactTime v (pre ++ [c]) = some tf := by
        rw [← firstContactTime_append_of_vehicle v c hcv post pre, ← hcs]
        exact htf
      obtain ⟨s, hs, hle, hsum⟩ :=
        (ARaceTrackManager.lap_sum_rounded Round hR v (pre ++ [c]) m m2 (e1 ++ e2) hfresh hpw
          hfl2 hrun2).2 tf hfirst
      rw [hreset2] at hs
      simp only [Option.some.injEq] at hs
      rw [← hs] at hle hsum
      exact ⟨hle, hsum⟩

/-- Witness of C30: the contacts `floatContacts` on a fresh two-checkpoint loop, with the
rounding of `float`: the laps take 99.90000152587890625 and 100, and their sum is within
`2^-24 (200 - 0.1f)` of `200 - 0.1f`. -/
theorem C30_lap_times_sum_within_rounding_witness :
    ∃ m' evs, (trackOf 2 FVector.ZeroVector).HandleContactsRounded roundF32 floatContacts
        = some (m', evs) ∧
      lapTimes (some 7) evs = [13094093 / 131072, 100] ∧
      firstContactTime (some 7) floatContacts = some (roundF32 (1 / 10)) ∧
      ∃ s, m'.VehicleLapStartTimes (some 7) = some s ∧ roundF32 (1 / 10) ≤ s ∧
        |(lapTimes (some 7) evs).sum - (s - roundF32 (1 / 10))|
          ≤ (s - roundF32 (1 / 10)) / 16777216 := by
  have hf : ((trackOf 2 FVector.ZeroVector).HandleContactsRounded roundF32 floatContacts).map
      (fun r => lapTimes (some 7) r.2) = some [13094093 / 131072, 100] := by decide!
  cases hr : (trackOf 2 FVector.ZeroVector).HandleContactsRounded roundF32 floatContacts with
  | none =>
    rw [hr] at hf
    exact absurd hf (by simp)
  | some r =>
    obtain ⟨m', evs⟩ := r
    rw [hr] at hf
    simp only [Option.map_some', Option.some.injEq] at hf
    have hfirst : firstContactTime (some 7) floatContacts = some (roundF32 (1 / 10)) := by
      decide!
    exact ⟨m', evs, rfl, hf, hfirst,
      (C30_lap_times_sum_within_rounding roundF32 roundF32_isFloatRounding
        (trackOf 2 FVector.ZeroVector) m' (some 7) floatContacts evs rfl (by decide!)
        (by decide!) hr).2.1 (roundF32 (1 / 10)) hfirst⟩

/-- Counterexample to C30 as stated: with the first contact at 0.1f and laps completed at
100 and 200, all of them `float` values, the first lap time broadcast is the `float`
99.90000152587890625, not `100 - 0.1f`, and the two lap times sum to
199.90000152587890625, while the second completion is
`200 - 0.1f = 199.899999998509883880615234375` after the first contact. -/
theorem C30_counterexample :
    roundF32 (1 / 10) = 13421773 / 134217728 ∧
      floatContacts.Pairwise (fun a b => a.TimeSeconds ≤ b.TimeSeconds) ∧
      (∀ c ∈ floatContacts, roundF32 c.TimeSeconds = c.TimeSeconds) ∧
      firstContactTime (some 7) floatContacts = some (13421773 / 134217728) ∧
      ((trackOf 2 FVector.ZeroVector).HandleContactsRounded roundF32 floatContacts).map
        (fun r => (lapTimes (some 7) r.2, r.1.VehicleLapStartTimes (some 7)))
        = some ([13094093 / 131072, 100], some 200) ∧
      (13094093 / 131072 : ℚ) ≠ 100 - 13421773 / 134217728 ∧
      ([13094093 / 131072, 100] : List ℚ).sum = 26201293 / 131072 ∧
      (26201293 / 131072 : ℚ) ≠ 200 - 13421773 / 134217728 := by
  decide!

end CarGame
